import Mathlib

/-!
# VLMC timeline: placement resolver and workflow coordinator

A shallow embedding of `src/Gui/timeline/TracksView.cpp` (the placement
resolver `findPosition` and `moveMediaItem`) and of
`src/Workflow/MainWorkflow.cpp` (frame clock, structural edits, rendering
output and project loading), and of `Media::setFileType` of
`src/Media/Media.cpp`.

Conventions of the embedding:

* `qint64` values (frame positions, frame counters, clip boundaries) are
  mathematical integers `Int`; positions that the C++ code holds in a `qreal`
  are whole frames and are `Int` as well, with the conversion to `qreal`
  (`toQreal`) written out where `findPosition` converts, and the wrap-around of
  a `qint64` (`wrapInt64`) written out where `previousFrame` decrements.
* `quint32` track numbers are `Nat`; the one subtraction that can wrap
  (`m_numVideoTrack - 1`) is written with an explicit `% 2^32`.
* Qt signals are recorded in an event log (`emitted`), oldest first.
* C++ objects that are shared through pointers (`Clip`) live in an explicit
  heap keyed by their identity.
-/

namespace Vlmc

/-! ## Data model of the timeline view -/

/-- The enumeration `MainWorkflow::TrackType`; `VideoTrack` is index 0 and
`AudioTrack` index 1 of the per-type arrays. -/
inductive TrackType where
  | VideoTrack
  | AudioTrack
  deriving DecidableEq, Repr

/-- Modelled from the spec: the state of an `AbstractGraphicsMediaItem` that
`TracksView.cpp` reads and writes through its accessors (the class itself is
declared in a header that is not part of the sources). `id` is the object
identity (the pointer), `trackNumber` the number of the parent track
(`trackNumber()`, changed by `setParentItem`), `startPos` the horizontal
position (`startPos()`, `pos().x()`, changed by `setStartPos`), `width` the
width of `boundingRect()` (the clip length in frames) and `groupItem` the
identity of the linked item, if any. -/
structure MediaItem where
  id : Nat
  mediaType : TrackType
  trackNumber : Nat
  startPos : Int
  width : Int
  groupItem : Option Nat
  deriving DecidableEq, Repr

/-- Modelled from the spec: the value class `ItemPosition` (declared in
`TracksView.h`, not part of the sources): a resolved `(track, time)` pair. -/
structure ItemPosition where
  track : Nat
  time : Int
  deriving DecidableEq, Repr

/-- The part of `TracksView` that placement depends on: the two track counters
and the media items of the scene, in the order in which Qt enumerates them. -/
structure TracksView where
  m_numVideoTrack : Nat
  m_numAudioTrack : Nat
  items : List MediaItem
  deriving DecidableEq, Repr

/-- The number of tracks of one type. -/
def TracksView.numTrack (v : TracksView) : TrackType → Nat
  | TrackType.VideoTrack => v.m_numVideoTrack
  | TrackType.AudioTrack => v.m_numAudioTrack

/-- The value of `n - 1` computed on `quint32`. -/
def u32pred (n : Nat) : Nat := (n + 4294967295) % 4294967296

/-- Whether `TracksView::getTrack( type, number )` is not `NULL`: tracks of a
type are numbered `0 .. count - 1` (`addVideoTrack`/`addAudioTrack` number the
new track with the current count, `removeVideoTrack`/`removeAudioTrack` delete
the highest one). -/
def TracksView.hasTrack (v : TracksView) (type : TrackType) (number : Nat) : Bool :=
  decide (number < v.numTrack type)

/-- The first item of the scene with the given identity. -/
def TracksView.item (v : TracksView) (id : Nat) : Option MediaItem :=
  v.items.find? (fun c => c.id == id)

/-- Whether the half-open frame intervals `[a, a + w)` and `[b, b + u)` have a
frame in common. -/
def intersects (a w b u : Int) : Bool :=
  decide (max a b < min (a + w) (b + u))

/-- The distance between two neighbouring values of a `qreal` (an IEEE 754
double, 53 bits of significand) at the magnitude `n`: 1 below `2^53`, doubling
with every further bit; `fuel` is the number of further bits looked at, and 11
of them cover every magnitude below `2^64`. -/
def qrealSpacing : Nat → Nat → Nat
  | 0, _ => 1
  | fuel + 1, n => if n < 9007199254740992 then 1 else 2 * qrealSpacing fuel (n / 2)

/-- The whole number a `qreal` holds after the conversion of the `qint64` value
`x`, or as the result of an addition or subtraction of whole numbers whose exact
value is `x`: `x` itself up to `2^53` in magnitude, and beyond that the nearest
multiple of the spacing of the doubles at that magnitude, a tie going to the even
significand. -/
def toQreal (x : Int) : Int :=
  if x.natAbs ≤ 9007199254740992 then x
  else
    let ulp := qrealSpacing 11 x.natAbs
    let q := x.natAbs / ulp
    let r := x.natAbs % ulp
    let q1 := if 2 * r > ulp ∨ (2 * r = ulp ∧ q % 2 = 1) then q + 1 else q
    x.sign * ((q1 * ulp : Nat) : Int)

/-- Modelled from the spec: the media items among
`chkItem->collidingItems( Qt::IntersectsItemShape )` for a probe rectangle of
the given width parented to track `track` of type `type` after
`chkItem->setPos( pos, 0 )`, which holds the position in a `qreal`. Qt's scene
geometry is not part of the sources; following the Track invariant of the spec,
a placed item collides with the probe when it lies on the same track and the two
`[start, start + length)` intervals intersect. -/
def TracksView.collidingItems (v : TracksView) (type : TrackType) (track : Nat)
    (pos width : Int) : List MediaItem :=
  v.items.filter (fun c =>
    c.mediaType == type && c.trackNumber == track &&
      intersects (toQreal pos) width c.startPos c.width)

/-- The local state of the vertical search of `findPosition`: the variable
`track`, the number of the track `chkItem` is parented to, and the two flags. -/
structure Probe where
  track : Nat
  chkTrack : Nat
  itemCollision : Bool
  continueSearch : Bool
  deriving DecidableEq, Repr

/-- The `for` loop of the vertical search (TracksView.cpp lines 502-532) over
the list `colliding` computed before the loop. `none` is a failed
`Q_ASSERT( getTrack( item->mediaType(), track ) != NULL )`. A `break` returns
at once with `chkItem` back on the item's own track (`oldParent`). -/
def verticalFor (v : TracksView) (item : MediaItem) : List MediaItem → Probe → Option Probe
  | [], s => some s
  | currentItem :: rest, s =>
    if currentItem.id ≠ item.id then
      if currentItem.trackNumber ≥ s.track then
        if s.track < 1 then
          some { s with chkTrack := item.trackNumber, itemCollision := true,
                        continueSearch := false }
        else if v.hasTrack item.mediaType (s.track - 1) then
          verticalFor v item rest
            { s with track := s.track - 1, chkTrack := s.track - 1, itemCollision := true }
        else none
      else
        if s.track ≥ u32pred v.m_numVideoTrack then
          some { s with chkTrack := item.trackNumber, itemCollision := true,
                        continueSearch := false }
        else if v.hasTrack item.mediaType (s.track + 1) then
          verticalFor v item rest
            { s with track := s.track + 1, chkTrack := s.track + 1, itemCollision := true }
        else none
    else verticalFor v item rest s

/-- The `while ( continueSearch )` loop of the vertical search (lines 498-535),
with a bound on the number of passes; `none` is a failed assertion or an
exhausted bound. -/
def verticalWhile (v : TracksView) (item : MediaItem) (time : Int) : Nat → Probe → Option Probe
  | 0, _ => none
  | fuel + 1, s =>
    if s.continueSearch then
      match verticalFor v item (v.collidingItems item.mediaType s.chkTrack time item.width)
          { s with itemCollision := false } with
      | none => none
      | some s1 =>
        verticalWhile v item time fuel
          (if s1.itemCollision then s1 else { s1 with continueSearch := false })
    else some s

/-- The horizontal stage of `findPosition` (lines 538-576) with `chkItem` on
track `chkTrack`: the final horizontal position of `chkItem`. The positions are
held in `qreal`s: `pos` is `chkItem->pos().x()` after
`setPos( qMax( time, (qint64)0 ), 0 )`, `oldPos` is `qreal oldPos =
item->startPos()`, and `newpos` is the `qreal` sum or difference of line 554 or
556; `qRound64( newpos )` is `newpos`, a whole number. -/
def horizontalSearch (v : TracksView) (item : MediaItem) (chkTrack : Nat) (time : Int) : Int :=
  let pos := toQreal (max time 0)
  let oldPos := toQreal item.startPos
  match (v.collidingItems item.mediaType chkTrack (max time 0) item.width).find?
      (fun c => c.id != item.id) with
  | none => pos
  | some hItem =>
    let newpos :=
      if pos > hItem.startPos then toQreal (hItem.startPos + hItem.width)
      else toQreal (hItem.startPos - item.width)
    if newpos < 0 ∨ newpos = hItem.startPos then oldPos
    else if (v.collidingItems item.mediaType chkTrack newpos item.width).any
        (fun c => c.id != item.id) then oldPos
    else newpos

/-- The method `TracksView::findPosition( item, track, time )` (lines 484-588).
`oldParent` is the item's own track and `oldPos` its start position. `none`
stands for a failed assertion: the probe has no parent track (`getTrack`
returned `NULL` at line 490, so `Q_ASSERT( t )` at line 580 cannot hold) or the
assertion inside the vertical search failed. Each pass of the vertical search
that goes on lowers `track`, so `track + 2` passes are enough
(`findPosition_isSome`). -/
def findPosition (v : TracksView) (item : MediaItem) (track : Nat) (time : Int) :
    Option ItemPosition :=
  if v.hasTrack item.mediaType track then
    match verticalWhile v item time (track + 2)
        { track := track, chkTrack := track, itemCollision := false, continueSearch := true } with
    | none => none
    | some s => some { track := s.chkTrack, time := horizontalSearch v item s.chkTrack time }
  else none

/-- The effect of `item->setStartPos( time )` followed by
`item->setParentItem( getTrack( item->mediaType(), track ) )` on the item with
identity `id`. -/
def TracksView.place (v : TracksView) (id : Nat) (track : Nat) (time : Int) : TracksView :=
  { v with items := v.items.map (fun c =>
      if c.id == id then { c with trackNumber := track, startPos := time } else c) }

/-- The loops `while ( item->trackNumber() >= m_numAudioTrack ) addAudioTrack();`
and its video twin (lines 423-432): tracks of type `type` are added until track
number `n` exists. -/
def TracksView.addMissingTracks (v : TracksView) (type : TrackType) (n : Nat) : TracksView :=
  match type with
  | TrackType.AudioTrack => { v with m_numAudioTrack := max v.m_numAudioTrack (n + 1) }
  | TrackType.VideoTrack => { v with m_numVideoTrack := max v.m_numVideoTrack (n + 1) }

/-- The outcome of the linked branch of `moveMediaItem` before anything is
written: `validPosFound` and the final values of `p` and `p2`. -/
structure LinkedResolution where
  validPosFound : Bool
  p : ItemPosition
  p2 : ItemPosition
  deriving DecidableEq, Repr

/-- Lines 435-460 of `moveMediaItem`: the resolution of the linked item and the
retry when the two first resolutions disagree. `p` is the first resolution of
the primary item, `track` and `time` the (clamped) request. -/
def linkedResolve (v : TracksView) (item groupItem : MediaItem) (track : Nat) (time : Int)
    (p : ItemPosition) : Option LinkedResolution :=
  match findPosition v groupItem track time with
  | none => none
  | some p2 =>
    if p.time = p2.time ∧ p.track = p2.track then
      some { validPosFound := true, p := p, p2 := p2 }
    else if p.time = time ∧ p.track = track then
      match findPosition v item p2.track p2.time with
      | none => none
      | some p' =>
        some { validPosFound := decide (p'.time = p2.time ∧ p'.track = p2.track),
               p := p', p2 := p2 }
    else if p2.time = time ∧ p2.track = track then
      match findPosition v groupItem p.track p.time with
      | none => none
      | some p2' =>
        some { validPosFound := decide (p.time = p2'.time ∧ p.track = p2'.track),
               p := p, p2 := p2' }
    else some { validPosFound := false, p := p, p2 := p2 }

/-- The request after the clamp of lines 411-414:
`track = qMin( track, m_numVideoTrack - 1 )` for a video item and the same with
`m_numAudioTrack` for an audio item, computed on `quint32`. -/
def clampTrack (v : TracksView) (type : TrackType) (track : Nat) : Nat :=
  min track (u32pred (v.numTrack type))

/-- The method `TracksView::moveMediaItem( item, track, time )` (lines 408-482)
for the item with identity `itemId`. `isValid` is `ItemPosition::isValid`,
which is declared outside the sources. `none` stands for a failed assertion in
`findPosition`, for an item or linked item that is not in the scene, and for a
`setParentItem( NULL )`. -/
def moveMediaItem (isValid : ItemPosition → Bool) (v : TracksView) (itemId : Nat)
    (track : Nat) (time : Int) : Option TracksView :=
  match v.item itemId with
  | none => none
  | some item =>
    let track := clampTrack v item.mediaType track
    match findPosition v item track time with
    | none => none
    | some p =>
      match item.groupItem with
      | some gid =>
        match v.item gid with
        | none => none
        | some groupItem =>
          let v1 := v.addMissingTracks groupItem.mediaType item.trackNumber
          match linkedResolve v1 item groupItem track time p with
          | none => none
          | some r =>
            if r.validPosFound then
              if v1.hasTrack item.mediaType r.p.track ∧
                  v1.hasTrack groupItem.mediaType r.p2.track then
                some ((v1.place item.id r.p.track r.p.time).place groupItem.id
                  r.p2.track r.p2.time)
              else none
            else some v1
      | none =>
        if isValid p then
          if v.hasTrack item.mediaType track then some (v.place item.id track p.time)
          else none
        else some v

/-- The no-overlap invariant of the spec: no two items of the scene that lie on
the same track of the same type have intersecting `[start, start + length)`
intervals. -/
def noOverlap (v : TracksView) : Prop :=
  v.items.Pairwise (fun a b =>
    ¬ (a.mediaType = b.mediaType ∧ a.trackNumber = b.trackNumber ∧
        intersects a.startPos a.width b.startPos b.width = true))

instance (v : TracksView) : Decidable (noOverlap v) := by
  unfold noOverlap; infer_instance

/-! ## Data model of the workflow coordinator -/

/-- A value for each of the `MainWorkflow::NbTrackType` track types: the
arrays `m_tracks` and `m_currentFrame`. -/
structure PerType (α : Type) where
  video : α
  audio : α
  deriving DecidableEq, Repr

/-- The array access `a[trackType]`. -/
def PerType.get {α : Type} (a : PerType α) : TrackType → α
  | TrackType.VideoTrack => a.video
  | TrackType.AudioTrack => a.audio

/-- The array assignment `a[trackType] = x`. -/
def PerType.set {α : Type} (a : PerType α) (trackType : TrackType) (x : α) : PerType α :=
  match trackType with
  | TrackType.VideoTrack => { a with video := x }
  | TrackType.AudioTrack => { a with audio := x }

/-- Modelled from the spec: a `Clip` object (`Clip.h` declares the members, the
implementation `Clip.cpp` is not part of the sources). `m_Uuid` is the
timeline-unique identity of the clip and stands for the pointer to it as well;
`m_parent` is the identity of the media; `m_begin` and `m_end` are frame offsets
into the media; `m_maxBegin` and `m_maxEnd` are the resize limits. -/
structure Clip where
  m_Uuid : Nat
  m_parent : Nat
  m_begin : Int
  m_end : Int
  m_maxBegin : Int
  m_maxEnd : Int
  deriving DecidableEq, Repr

/-- Modelled from the spec: `Clip::length()`, the derived `length = end − begin`
(`Clip.cpp` is not part of the sources). -/
def Clip.length (c : Clip) : Int := c.m_end - c.m_begin

/-- Modelled from the spec: `Clip::setEnd( end, updateMax )` (`Clip.cpp` is not
part of the sources): stores the new end and, when `updateMax` is set, makes it
the resize limit `m_maxEnd` too. -/
def Clip.setEnd (c : Clip) (e : Int) (updateMax : Bool) : Clip :=
  { c with m_end := e, m_maxEnd := if updateMax then e else c.m_maxEnd }

/-- Modelled from the spec: the constructor `Clip( Clip *creator, qint64 begin,
qint64 end )` (`Clip.cpp` is not part of the sources): a clip of the creator's
media covering `[begin, end]`, with an identity of its own (`uuid`). -/
def Clip.fromCreator (uuid : Nat) (creator : Clip) (b e : Int) : Clip :=
  { m_Uuid := uuid, m_parent := creator.m_parent, m_begin := b, m_end := e,
    m_maxBegin := b, m_maxEnd := e }

/-- The `Clip` object with the given identity in a heap of clips. -/
def heapGet (heap : List Clip) (uuid : Nat) : Option Clip :=
  heap.find? (fun c => c.m_Uuid == uuid)

/-- The heap after the `Clip` object with the given identity was changed by `f`. -/
def heapUpdate (heap : List Clip) (uuid : Nat) (f : Clip → Clip) : List Clip :=
  heap.map (fun c => if c.m_Uuid == uuid then f c else c)

/-- Modelled from the spec: one clip placed on a track of a track set: the
track, the identity of the `Clip` and the start frame on the timeline. -/
structure PlacedClip where
  trackId : Nat
  clip : Nat
  start : Int
  deriving DecidableEq, Repr

/-- Modelled from the spec: the Track Set of one track type (class
`TrackHandler`, not part of the sources): the clips placed on its tracks. -/
structure TrackHandler where
  placed : List PlacedClip
  deriving DecidableEq, Repr

/-- Modelled from the spec: the length in frames of the clip a placement refers
to; a placement whose clip is gone has length 0. -/
def placedLength (heap : List Clip) (pc : PlacedClip) : Int :=
  match heapGet heap pc.clip with
  | some c => c.length
  | none => 0

/-- Modelled from the spec: the Track-level authoritative overlap check of §4.2,
whether a clip of `length` frames starting at `start` on track `trackId`
collides with a clip already placed there. -/
def TrackHandler.collides (heap : List Clip) (th : TrackHandler) (trackId : Nat)
    (start length : Int) : Bool :=
  th.placed.any (fun pc =>
    pc.trackId == trackId && intersects start length pc.start (placedLength heap pc))

/-- Modelled from the spec: `TrackHandler::addClip( clip, trackId, start )`
(§4.2 `place`): the clip is placed on the track unless its interval collides
with a clip already there, in which case nothing changes. -/
def TrackHandler.addClip (heap : List Clip) (th : TrackHandler) (clip : Nat) (trackId : Nat)
    (start : Int) : TrackHandler :=
  if th.collides heap trackId start (placedLength heap ⟨trackId, clip, start⟩) then th
  else { th with placed := th.placed ++ [⟨trackId, clip, start⟩] }

/-- Modelled from the spec: `TrackHandler::removeClip( uuid, trackId )` (§4.2
`remove`): detaches the clip with that identity from the track and returns it,
or returns `NULL` (`none`) when the track does not hold it. -/
def TrackHandler.removeClip (th : TrackHandler) (uuid : Nat) (trackId : Nat) :
    TrackHandler × Option Nat :=
  if th.placed.any (fun pc => pc.trackId == trackId && pc.clip == uuid) then
    ({ th with placed := th.placed.filter (fun pc => !(pc.trackId == trackId && pc.clip == uuid)) },
      some uuid)
  else (th, none)

/-- Modelled from the spec: `TrackHandler::getLength()`, the frame at which the
last clip of the track set ends (0 for an empty track set). -/
def TrackHandler.getLength (heap : List Clip) (th : TrackHandler) : Int :=
  th.placed.foldl (fun m pc => max m (pc.start + placedLength heap pc)) 0

/-- Modelled from the spec: `TrackHandler::stop()` ends the rendering of the
tracks; the clips placed on them stay. -/
def TrackHandler.stop (th : TrackHandler) : TrackHandler := th

/-- Whether the track set holds the clip with the given identity on a track. -/
def TrackHandler.holds (th : TrackHandler) (trackId : Nat) (uuid : Nat) : Bool :=
  th.placed.any (fun pc => pc.trackId == trackId && pc.clip == uuid)

/-- The values of `MainWorkflow::FrameChangedReason` that the sources use. -/
inductive FrameChangedReason where
  | Renderer
  | TimelineCursor
  deriving DecidableEq, Repr

/-- The Qt signals of `MainWorkflow` with their arguments. -/
inductive Signal where
  | frameChanged (frame : Int) (reason : FrameChangedReason)
  | lengthChanged (length : Int)
  | clipAdded (clip : Nat) (trackId : Nat) (start : Int) (trackType : TrackType)
  | clipRemoved (clip : Nat) (trackId : Nat) (trackType : TrackType)
  | clipMoved (clip : Nat) (trackId : Nat) (start : Int) (trackType : TrackType)
  deriving DecidableEq, Repr

/-- The state of `MainWorkflow` together with the heap of `Clip` objects its
track sets point into and the log of the signals emitted so far. -/
structure MainWorkflow where
  m_lengthFrame : Int
  m_renderStarted : Bool
  m_width : Nat
  m_height : Nat
  m_currentFrame : PerType Int
  m_tracks : PerType TrackHandler
  heap : List Clip
  emitted : List Signal
  deriving DecidableEq, Repr

/-- The constructor `MainWorkflow::MainWorkflow( trackCount )` (lines 40-64),
over a heap of clips: no length, rendering not started, both frame counters 0,
two empty track sets (`trackCount` only sizes the track sets, whose number of
tracks the model does not bound). -/
def MainWorkflow.new (heap : List Clip) : MainWorkflow :=
  { m_lengthFrame := 0, m_renderStarted := false, m_width := 0, m_height := 0,
    m_currentFrame := ⟨0, 0⟩, m_tracks := ⟨⟨[]⟩, ⟨[]⟩⟩, heap := heap, emitted := [] }

/-- The effect of `emit` for one signal. -/
def MainWorkflow.emit (w : MainWorkflow) (s : Signal) : MainWorkflow :=
  { w with emitted := w.emitted ++ [s] }

/-- The method `MainWorkflow::computeLength()` (lines 96-112). -/
def MainWorkflow.computeLength (w : MainWorkflow) : MainWorkflow :=
  let maxLength : Int := 0
  let maxLength :=
    if (w.m_tracks.get TrackType.VideoTrack).getLength w.heap > maxLength then
      (w.m_tracks.get TrackType.VideoTrack).getLength w.heap
    else maxLength
  let maxLength :=
    if (w.m_tracks.get TrackType.AudioTrack).getLength w.heap > maxLength then
      (w.m_tracks.get TrackType.AudioTrack).getLength w.heap
    else maxLength
  if w.m_lengthFrame ≠ maxLength then
    ({ w with m_lengthFrame := maxLength }).emit (Signal.lengthChanged maxLength)
  else w

/-- The method `MainWorkflow::addClip( clip, trackId, start, trackType )` (lines
86-94). -/
def MainWorkflow.addClip (w : MainWorkflow) (clip : Nat) (trackId : Nat) (start : Int)
    (trackType : TrackType) : MainWorkflow :=
  let tracks := (w.m_tracks.get trackType).addClip w.heap clip trackId start
  let w1 := { w with m_tracks := w.m_tracks.set trackType tracks }
  let w2 := w1.computeLength
  w2.emit (Signal.clipAdded clip trackId start trackType)

/-- The method `MainWorkflow::removeClip( uuid, trackId, trackType )` (lines
222-233); the second component is the returned pointer. -/
def MainWorkflow.removeClip (w : MainWorkflow) (uuid : Nat) (trackId : Nat)
    (trackType : TrackType) : MainWorkflow × Option Nat :=
  let r := (w.m_tracks.get trackType).removeClip uuid trackId
  let w1 := { w with m_tracks := w.m_tracks.set trackType r.1 }
  match r.2 with
  | some clip => ((w1.computeLength).emit (Signal.clipRemoved clip trackId trackType), some clip)
  | none => (w1, none)

/-- The method `MainWorkflow::nextFrame( trackType )` (lines 159-167). -/
def MainWorkflow.nextFrame (w : MainWorkflow) (trackType : TrackType) : MainWorkflow :=
  let frame := w.m_currentFrame.get trackType + 1
  let w1 := { w with m_currentFrame := w.m_currentFrame.set trackType frame }
  if trackType = TrackType.VideoTrack then
    w1.emit (Signal.frameChanged (w1.m_currentFrame.get TrackType.VideoTrack)
      FrameChangedReason.Renderer)
  else w1

/-- The method `MainWorkflow::getCurrentFrame()` (lines 424-430). -/
def MainWorkflow.getCurrentFrame (w : MainWorkflow) : Int :=
  w.m_currentFrame.get TrackType.VideoTrack

/-- The method `MainWorkflow::stop()` (lines 192-205); the loop over the two
track types is unrolled. -/
def MainWorkflow.stop (w : MainWorkflow) : MainWorkflow :=
  let w1 := { w with m_renderStarted := false }
  let video := (w1.m_tracks.get TrackType.VideoTrack).stop
  let w2 := { w1 with
    m_tracks := w1.m_tracks.set TrackType.VideoTrack video,
    m_currentFrame := w1.m_currentFrame.set TrackType.VideoTrack 0 }
  let audio := (w2.m_tracks.get TrackType.AudioTrack).stop
  let w3 := { w2 with
    m_tracks := w2.m_tracks.set TrackType.AudioTrack audio,
    m_currentFrame := w2.m_currentFrame.set TrackType.AudioTrack 0 }
  w3.emit (Signal.frameChanged 0 FrameChangedReason.Renderer)

/-- The method `MainWorkflow::split( toSplit, newClip, trackId, newClipPos,
newClipBegin, trackType )` (lines 462-473). Pointers are clip identities,
`newClip = none` is `NULL`, `fresh` is the identity of the object that `new Clip`
creates; the result is the new state and the returned pointer. `none` stands
for a `toSplit` that points to no clip. -/
def MainWorkflow.split (w : MainWorkflow) (toSplit : Nat) (newClip : Option Nat)
    (trackId : Nat) (newClipPos newClipBegin : Int) (trackType : TrackType) (fresh : Nat) :
    Option (MainWorkflow × Nat) :=
  match heapGet w.heap toSplit with
  | none => none
  | some c =>
    let (w1, newClip) :=
      match newClip with
      | none => ({ w with heap := w.heap ++ [Clip.fromCreator fresh c newClipBegin c.m_end] },
                  fresh)
      | some n => (w, n)
    let w2 := { w1 with heap := heapUpdate w1.heap toSplit (fun c => c.setEnd newClipBegin true) }
    some (w2.addClip newClip trackId newClipPos trackType, newClip)

/-- The method `MainWorkflow::unsplit( origin, splitted, trackId, trackType )`
(lines 489-497). `none` stands for a `splitted` that points to no clip. -/
def MainWorkflow.unsplit (w : MainWorkflow) (origin splitted : Nat) (trackId : Nat)
    (trackType : TrackType) : Option MainWorkflow :=
  match heapGet w.heap splitted with
  | none => none
  | some s =>
    let w1 := (w.removeClip s.m_Uuid trackId trackType).1
    match heapGet w1.heap splitted with
    | none => none
    | some s1 => some { w1 with heap := heapUpdate w1.heap origin (fun c => c.setEnd s1.m_end true) }

/-! ## Auxiliary notions for the statements -/

/-- The tracks a linked move can visit exist: each of the two items lies on an
existing track of its own type, the track number of the linked item exists for
the type of the item too, and once the missing tracks are added the (clamped)
requested track exists for the type of the linked item. -/
def linkedTracksExist (v : TracksView) (item groupItem : MediaItem) (track : Nat) : Prop :=
  item.trackNumber < v.numTrack item.mediaType ∧
  groupItem.trackNumber < v.numTrack groupItem.mediaType ∧
  groupItem.trackNumber < v.numTrack item.mediaType ∧
  clampTrack v item.mediaType track <
    (v.addMissingTracks groupItem.mediaType item.trackNumber).numTrack groupItem.mediaType

instance (v : TracksView) (item groupItem : MediaItem) (track : Nat) :
    Decidable (linkedTracksExist v item groupItem track) := by
  unfold linkedTracksExist; infer_instance

/-- The linked branch of `moveMediaItem` as the spec words the retry: the clip
whose first placement did NOT match the request is resolved again, anchored at
the other clip's placement, and the move is accepted only if that second pass
yields the other clip's placement. To be compared with `linkedResolve`. -/
def linkedResolveSpec (v : TracksView) (item groupItem : MediaItem) (track : Nat) (time : Int)
    (p : ItemPosition) : Option LinkedResolution :=
  match findPosition v groupItem track time with
  | none => none
  | some p2 =>
    if p.time = p2.time ∧ p.track = p2.track then
      some { validPosFound := true, p := p, p2 := p2 }
    else if ¬ (p.time = time ∧ p.track = track) then
      match findPosition v item p2.track p2.time with
      | none => none
      | some p' =>
        some { validPosFound := decide (p'.time = p2.time ∧ p'.track = p2.track),
               p := p', p2 := p2 }
    else if ¬ (p2.time = time ∧ p2.track = track) then
      match findPosition v groupItem p.track p.time with
      | none => none
      | some p2' =>
        some { validPosFound := decide (p.time = p2'.time ∧ p.track = p2'.track),
               p := p, p2 := p2' }
    else some { validPosFound := false, p := p, p2 := p2 }

/-- A scene with three video tracks: clip 1 occupies `[0, 100)` on track 1,
clip 2 (50 frames) lies alone on track 0 at frame 200. -/
def sceneTwoClips : TracksView :=
  { m_numVideoTrack := 3, m_numAudioTrack := 1,
    items := [⟨1, TrackType.VideoTrack, 1, 0, 100, none⟩,
              ⟨2, TrackType.VideoTrack, 0, 200, 50, none⟩] }

/-- A scene with a linked pair: video item 1 and audio item 2 (50 frames each,
both on track 0 at frame 500), and audio clip 3 occupying `[0, 100)` on audio
track 0. -/
def sceneLinkedPair : TracksView :=
  { m_numVideoTrack := 2, m_numAudioTrack := 2,
    items := [⟨1, TrackType.VideoTrack, 0, 500, 50, some 2⟩,
              ⟨2, TrackType.AudioTrack, 0, 500, 50, some 1⟩,
              ⟨3, TrackType.AudioTrack, 0, 0, 100, none⟩] }

/-- The scene of the placement example: clip A (identity 1, 100 frames) at
frame 0 of video track 0, and the new clip B (identity 2, 50 frames, linked item
`g`) parented to track 0 at frame `s`; `nv` video and `na` audio tracks; `bFirst`
tells whether Qt enumerates B before A. -/
def scenePlacementExample (nv na : Nat) (s : Int) (g : Option Nat) (bFirst : Bool) :
    TracksView :=
  { m_numVideoTrack := nv, m_numAudioTrack := na,
    items :=
      if bFirst then
        [⟨2, TrackType.VideoTrack, 0, s, 50, g⟩, ⟨1, TrackType.VideoTrack, 0, 0, 100, none⟩]
      else
        [⟨1, TrackType.VideoTrack, 0, 0, 100, none⟩, ⟨2, TrackType.VideoTrack, 0, s, 50, g⟩] }

/-- The state after `n` calls of `nextFrame( trackType )`. -/
def MainWorkflow.nextFrames (w : MainWorkflow) (trackType : TrackType) : Nat → MainWorkflow
  | 0 => w
  | n + 1 => (w.nextFrames trackType n).nextFrame trackType

/-- The scene `sceneLinkedPair` with one more clip: video clip 4 occupying
`[100, 150)` on video track 0. -/
def sceneLinkedBlocked : TracksView :=
  { m_numVideoTrack := 2, m_numAudioTrack := 2,
    items := [⟨1, TrackType.VideoTrack, 0, 500, 50, some 2⟩,
              ⟨2, TrackType.AudioTrack, 0, 500, 50, some 1⟩,
              ⟨3, TrackType.AudioTrack, 0, 0, 100, none⟩,
              ⟨4, TrackType.VideoTrack, 0, 100, 50, none⟩] }

/-- A workflow with one clip (identity 7, media 1, range `[10, 110)`) placed on
video track 0 at frame 0. -/
def workflowOneClip : MainWorkflow :=
  { MainWorkflow.new [⟨7, 1, 10, 110, 10, 110⟩] with
    m_tracks := ⟨⟨[⟨0, 7, 0⟩]⟩, ⟨[]⟩⟩, m_lengthFrame := 100 }

/-! ## Rendering and length of the workflow coordinator -/

/-- The method `MainWorkflow::getLengthFrame()` (lines 179-183). -/
def MainWorkflow.getLengthFrame (w : MainWorkflow) : Int :=
  w.m_lengthFrame

/-- The project length as the spec words it: the maximum of 0 and the lengths
reported by the video and the audio track set. To be compared with the loop of
`computeLength`. -/
def MainWorkflow.tracksLength (w : MainWorkflow) : Int :=
  max 0 (max ((w.m_tracks.get TrackType.VideoTrack).getLength w.heap)
    ((w.m_tracks.get TrackType.AudioTrack).getLength w.heap))

/-- Modelled from the spec: a pointer to a `LightVideoFrame` (the class is not
part of the sources), as far as `MainWorkflow` tells the frames apart: `NULL`,
the pre-allocated black frame `MainWorkflow::blackOutput` (with the dimensions
it was allocated for), or the frame composed by the effects engine (with its
`nboctets`). -/
inductive VideoOutput where
  | null
  | blackOutput (width height : Nat)
  | composed (nboctets : Nat)
  deriving DecidableEq, Repr

/-- Modelled from the spec: the structure `MainWorkflow::OutputBuffers` (declared
in `MainWorkflow.h`, not part of the sources): the video frame and the audio
buffer handed to the renderer; an audio buffer is known by its identity. -/
structure OutputBuffers where
  video : VideoOutput
  audio : Option Nat
  deriving DecidableEq, Repr

/-- One call of `TrackHandler::getOutput( currentFrameVideo, currentFrame,
paused )` on the track set of `trackType`. -/
structure TrackQuery where
  trackType : TrackType
  currentFrameVideo : Int
  currentFrame : Int
  paused : Bool
  deriving DecidableEq, Repr

/-- The output side of `MainWorkflow`: the static member `blackOutput` (`none` is
`NULL`, otherwise the dimensions the black frame was allocated for), the buffers
`m_outputBuffers` points to, and the log of the queries made to the track sets,
oldest first. -/
structure RenderOutput where
  blackOutput : Option (Nat × Nat)
  m_outputBuffers : OutputBuffers
  queried : List TrackQuery
  deriving DecidableEq, Repr

/-- The pointer value of the static member `blackOutput`. -/
def RenderOutput.blackPointer (r : RenderOutput) : VideoOutput :=
  match r.blackOutput with
  | none => VideoOutput.null
  | some (width, height) => VideoOutput.blackOutput width height

/-- Modelled from the spec: `TrackHandler::startRender()` prepares the tracks for
rendering; the clips placed on them stay. -/
def TrackHandler.startRender (th : TrackHandler) : TrackHandler := th

/-- The method `MainWorkflow::startRender( width, height )` (lines 114-128); the
loop over the two track types is unrolled. -/
def MainWorkflow.startRender (w : MainWorkflow) (r : RenderOutput) (width height : Nat) :
    MainWorkflow × RenderOutput :=
  let w1 := { w with m_renderStarted := true, m_width := width, m_height := height }
  let r1 := { r with blackOutput := some (w1.m_width, w1.m_height) }
  let video := (w1.m_tracks.get TrackType.VideoTrack).startRender
  let w2 := { w1 with m_tracks := w1.m_tracks.set TrackType.VideoTrack video }
  let audio := (w2.m_tracks.get TrackType.AudioTrack).startRender
  let w3 := { w2 with m_tracks := w2.m_tracks.set TrackType.AudioTrack audio }
  (w3.computeLength, r1)

/-- The method `MainWorkflow::getOutput( trackType, paused )` (lines 130-157);
the result holds the buffers the returned pointer `m_outputBuffers` points to.
`tmpNboctets` is `nboctets` of the frame `m_effectEngine->getVideoOutput( 1 )`
returns after `m_effectEngine->render()`, and `tmpAudioBuffer` the identity of
the buffer `getTmpAudioBuffer()` returns: both come from code outside the
sources. -/
def MainWorkflow.getOutput (w : MainWorkflow) (r : RenderOutput) (trackType : TrackType)
    (paused : Bool) (tmpNboctets : Nat) (tmpAudioBuffer : Nat) : RenderOutput :=
  if w.m_renderStarted = true then
    let query : TrackQuery :=
      ⟨trackType, w.m_currentFrame.get TrackType.VideoTrack, w.m_currentFrame.get trackType,
        paused⟩
    let r1 := { r with queried := r.queried ++ [query] }
    if trackType = TrackType.VideoTrack then
      if tmpNboctets = 0 then
        { r1 with m_outputBuffers := { r1.m_outputBuffers with video := r1.blackPointer } }
      else
        { r1 with m_outputBuffers :=
            { r1.m_outputBuffers with video := VideoOutput.composed tmpNboctets } }
    else
      { r1 with m_outputBuffers := { r1.m_outputBuffers with audio := some tmpAudioBuffer } }
  else r

/-- A workflow whose length is 300: clip 1 (range `[0, 300)`) on video track 0
at frame 0; clip 2 (range `[0, 100)`) is not placed yet. -/
def workflowLength300 : MainWorkflow :=
  { MainWorkflow.new [⟨1, 1, 0, 300, 0, 300⟩, ⟨2, 1, 0, 100, 0, 100⟩] with
    m_tracks := ⟨⟨[⟨0, 1, 0⟩]⟩, ⟨[]⟩⟩, m_lengthFrame := 300 }

/-- The output side of a workflow before the first `startRender`: no black frame,
empty buffers, no query made. -/
def RenderOutput.new : RenderOutput :=
  { blackOutput := none, m_outputBuffers := ⟨VideoOutput.null, none⟩, queried := [] }

/-- The workflow `workflowLength300` in the middle of a playback: the video
counter is at frame 5 and the audio counter at frame 7. -/
def workflowAtFrame5 : MainWorkflow :=
  { workflowLength300 with m_currentFrame := ⟨5, 7⟩ }

/-! ## Track growth and compaction of the timeline view -/

/-- The method `TracksView::addVideoTrack()` (lines 112-123): a new video track
with the number `m_numVideoTrack` is put on top, and the counter grows by one.
Track counts stay far below `2^32`, and the additions on them are not wrapped. -/
def TracksView.addVideoTrack (v : TracksView) : TracksView :=
  { v with m_numVideoTrack := v.m_numVideoTrack + 1 }

/-- The method `TracksView::addAudioTrack()` (lines 125-136). -/
def TracksView.addAudioTrack (v : TracksView) : TracksView :=
  { v with m_numAudioTrack := v.m_numAudioTrack + 1 }

/-- The method `TracksView::removeVideoTrack()` (lines 138-151): the layout item
at index 0 is the video track added last, the one with the highest number; it is
deleted together with the items parented to it. `none` is a failed
`Q_ASSERT( m_numVideoTrack > 0 )`. -/
def TracksView.removeVideoTrack (v : TracksView) : Option TracksView :=
  if v.m_numVideoTrack > 0 then
    some { v with
      m_numVideoTrack := v.m_numVideoTrack - 1,
      items := v.items.filter (fun c =>
        !(c.mediaType == TrackType.VideoTrack && c.trackNumber == v.m_numVideoTrack - 1)) }
  else none

/-- The method `TracksView::removeAudioTrack()` (lines 153-166): the last layout
item is the audio track with the highest number. -/
def TracksView.removeAudioTrack (v : TracksView) : Option TracksView :=
  if v.m_numAudioTrack > 0 then
    some { v with
      m_numAudioTrack := v.m_numAudioTrack - 1,
      items := v.items.filter (fun c =>
        !(c.mediaType == TrackType.AudioTrack && c.trackNumber == v.m_numAudioTrack - 1)) }
  else none

/-- Modelled from the spec: `GraphicsTrack::childs()` of the track
`getTrack( type, number )` (the class `GraphicsTrack` is not part of the
sources): the media items parented to that track. -/
def TracksView.childs (v : TracksView) (type : TrackType) (number : Nat) : List MediaItem :=
  v.items.filter (fun c => c.mediaType == type && c.trackNumber == number)

/-- The `for` loop of `cleanTracks` (lines 1118-1130), `for ( int i =
tracksToCheck; i > 0; --i )`, from the index `i` on: the value of
`tracksToRemove` at the end of the loop. -/
def cleanTracksScan (v : TracksView) (type : TrackType) : Nat → Nat → Nat
  | 0, tracksToRemove => tracksToRemove
  | i + 1, tracksToRemove =>
    if v.hasTrack type (i + 1) then
      if (v.childs type (i + 1)).length = 0 then cleanTracksScan v type i (tracksToRemove + 1)
      else tracksToRemove
    else cleanTracksScan v type i tracksToRemove

/-- The `while ( tracksToRemove > 1 )` loop of `cleanTracks` (lines 1132-1139). -/
def cleanTracksRemove (type : TrackType) : Nat → TracksView → Option TracksView
  | 0, v => some v
  | 1, v => some v
  | tracksToRemove + 2, v =>
    match (if type = TrackType.VideoTrack then v.removeVideoTrack else v.removeAudioTrack) with
    | none => none
    | some v1 => cleanTracksRemove type (tracksToRemove + 1) v1

/-- The method `TracksView::cleanTracks( type )` (lines 1107-1140). -/
def TracksView.cleanTracks (v : TracksView) (type : TrackType) : Option TracksView :=
  let tracksToCheck :=
    if type = TrackType.VideoTrack then v.m_numVideoTrack else v.m_numAudioTrack
  cleanTracksRemove type (cleanTracksScan v type tracksToCheck 0) v

/-- The method `TracksView::cleanUnusedTracks()` (lines 1142-1149). -/
def TracksView.cleanUnusedTracks (v : TracksView) : Option TracksView :=
  match v.cleanTracks TrackType.VideoTrack with
  | none => none
  | some v1 => v1.cleanTracks TrackType.AudioTrack

/-- The method `TracksView::updateDuration()` (lines 1074-1105), as far as the
modelled state goes: the project duration and the scene rectangle are not part
of it, what remains is the call of `cleanUnusedTracks()`. -/
def TracksView.updateDuration (v : TracksView) : Option TracksView :=
  v.cleanUnusedTracks

/-- The loop `for ( i = 0; i < nbTrackToAdd; ++i ) addVideoTrack();` -/
def TracksView.addVideoTracks (v : TracksView) : Nat → TracksView
  | 0 => v
  | nbTrackToAdd + 1 => (v.addVideoTrack).addVideoTracks nbTrackToAdd

/-- The loop `for ( i = 0; i < nbTrackToAdd; ++i ) addAudioTrack();` -/
def TracksView.addAudioTracks (v : TracksView) : Nat → TracksView
  | 0 => v
  | nbTrackToAdd + 1 => (v.addAudioTrack).addAudioTracks nbTrackToAdd

/-- Lines 224-249 of `addMediaItem`: the tracks that are missing for the clip are
added, and the empty upper track. -/
def TracksView.growFor (v : TracksView) (trackType : TrackType) (track : Nat) : TracksView :=
  match trackType with
  | TrackType.VideoTrack =>
    let v1 :=
      if track ≥ v.m_numVideoTrack then v.addVideoTracks (track - v.m_numVideoTrack + 1)
      else v
    if track + 1 = v1.m_numVideoTrack then v1.addVideoTrack else v1
  | TrackType.AudioTrack =>
    let v1 :=
      if track ≥ v.m_numAudioTrack then v.addAudioTracks (track - v.m_numAudioTrack + 1)
      else v
    if track + 1 = v1.m_numAudioTrack then v1.addAudioTrack else v1

/-- The method `TracksView::addMediaItem( clip, track, trackType, start )` (lines
219-283). `clip` is the uuid of the clip and `clipLength` its length (the width
of the new item); `uuid` is `AbstractGraphicsMediaItem::uuid()`, from the
identity of an item of the scene to the uuid of its clip (declared outside the
sources); `fresh` is the identity of the item that `new` creates, which Qt
enumerates last. `none` stands for a failed assertion in the calls made. -/
def addMediaItem (isValid : ItemPosition → Bool) (uuid : Nat → Nat) (v : TracksView)
    (clip : Nat) (clipLength : Int) (track : Nat) (trackType : TrackType) (start : Int)
    (fresh : Nat) : Option TracksView :=
  let v1 := v.growFor trackType track
  if (v1.childs trackType track).any (fun item => uuid item.id == clip) then some v1
  else
    let item : MediaItem :=
      { id := fresh, mediaType := trackType, trackNumber := track, startPos := start,
        width := clipLength, groupItem := none }
    let v2 := { v1 with items := v1.items ++ [item] }
    match moveMediaItem isValid v2 fresh track start with
    | none => none
    | some v3 => v3.updateDuration

/-- No media item lies on track `number` of type `type`. -/
def TracksView.trackEmpty (v : TracksView) (type : TrackType) (number : Nat) : Prop :=
  v.childs type number = []

instance (v : TracksView) (type : TrackType) (number : Nat) :
    Decidable (v.trackEmpty type number) := by
  unfold TracksView.trackEmpty; infer_instance

/-- The track-set invariant of the spec for one track type: there is at least
one track, and the topmost track is empty unless it is the only track. -/
def trackSetInvariant (v : TracksView) (type : TrackType) : Prop :=
  0 < v.numTrack type ∧
    (v.numTrack type = 1 ∨ v.trackEmpty type (v.numTrack type - 1))

instance (v : TracksView) (type : TrackType) : Decidable (trackSetInvariant v type) := by
  unfold trackSetInvariant; infer_instance

/-- Every media item of the scene is parented to an existing track of its type. -/
def itemsOnTracks (v : TracksView) : Prop :=
  ∀ c ∈ v.items, c.trackNumber < v.numTrack c.mediaType

instance (v : TracksView) : Decidable (itemsOnTracks v) := by
  unfold itemsOnTracks; infer_instance

/-- A scene with one empty video track and three audio tracks, of which only
track 0 holds a clip. -/
def sceneSpareAudioTracks : TracksView :=
  { m_numVideoTrack := 1, m_numAudioTrack := 3,
    items := [⟨1, TrackType.AudioTrack, 0, 0, 100, none⟩] }

/-- A scene with three video tracks and one audio track, all of them empty. -/
def sceneEmptyTracks : TracksView :=
  { m_numVideoTrack := 3, m_numAudioTrack := 1, items := [] }

/-- The outcome of the compaction pass on the tracks of type `ty`, from `v` to
`v1`: for some `k`, the `k` topmost tracks of `v` are empty, the track below
them holds an item unless it is track 0, `k` is less than the number of tracks,
and `v1` has `k - 1` tracks less. -/
def compacted (v v1 : TracksView) (ty : TrackType) : Prop :=
  ∃ k, v1.numTrack ty = v.numTrack ty - (k - 1) ∧ k + 1 ≤ max 1 (v.numTrack ty) ∧
    (∀ m, m + k + 1 > v.numTrack ty → m < v.numTrack ty → v.trackEmpty ty m) ∧
    (k + 1 < v.numTrack ty → ¬ v.trackEmpty ty (v.numTrack ty - 1 - k))

/-! ## Loading the timeline of a project -/

/-- A child element of a clip element of the project document, as `loadProject`
reads it through `QDomElement`: its tag name (`tagName()`) and its text
(`text()`). -/
structure ClipProperty where
  tagName : String
  text : String
  deriving DecidableEq, Repr

/-- A clip element of the project document: its child nodes in document order
(`firstChild()`, then `nextSibling()`); `none` is a child node that is not an
element, for which `toElement()` gives a null element. -/
structure ClipElement where
  properties : List (Option ClipProperty)
  deriving DecidableEq, Repr

/-- A child element of the timeline element: its tag name, its attribute `id`
(`attribute( "id" )`) and its child nodes in document order. -/
structure TrackElement where
  tagName : String
  id : String
  clips : List (Option ClipElement)
  deriving DecidableEq, Repr

/-- The element `project` handed to `loadProject`: whether it is null
(`isNull()`), its tag name and its child nodes in document order. -/
structure TimelineElement where
  isNull : Bool
  tagName : String
  tracks : List (Option TrackElement)
  deriving DecidableEq, Repr

/-- What `loadProject` takes from outside the sources: the conversions
`QString::toUInt( &ok )` and `QString::toLongLong( &ok )` (`none` is `ok ==
false`), the constructor `QUuid( text )`, the null uuid `QUuid()`, whether
`Library::getInstance()->media( parent )` is not `NULL`, and the indeterminate
values that the locals `begin`, `end` and `startPos` hold before a field is
assigned to them (they are declared without an initialiser). -/
structure LoadEnv where
  toUInt : String → Option Nat
  toLongLong : String → Option Int
  toQUuid : String → Nat
  nullUuid : Nat
  hasMedia : Nat → Bool
  uninitBegin : Int
  uninitEnd : Int
  uninitStartPos : Int

/-- The locals of one pass of the clip loop of `loadProject` (lines 320-324);
`end_` is the local `end`, and `trackType` holds the value before the
`static_cast` to `MainWorkflow::TrackType`. -/
structure ClipLocals where
  parent : Nat
  begin : Int
  end_ : Int
  startPos : Int
  trackType : Nat
  deriving DecidableEq, Repr

/-- The locals at the start of a pass of the clip loop: `QUuid parent;`,
`qint64 begin; qint64 end; qint64 startPos;` without initialiser, and
`trackType = MainWorkflow::VideoTrack`. -/
def LoadEnv.initialLocals (env : LoadEnv) : ClipLocals :=
  { parent := env.nullUuid, begin := env.uninitBegin, end_ := env.uninitEnd,
    startPos := env.uninitStartPos, trackType := 0 }

/-- The loop over the fields of a clip (lines 326-374). `none` is one of the
`return` statements after a failed conversion, which leave `loadProject`. -/
def readClipProperties (env : LoadEnv) : List (Option ClipProperty) → ClipLocals →
    Option ClipLocals
  | [], l => some l
  | none :: _, l => some l
  | some clipProperty :: rest, l =>
    if clipProperty.tagName = "parent" then
      readClipProperties env rest { l with parent := env.toQUuid clipProperty.text }
    else if clipProperty.tagName = "begin" then
      match env.toLongLong clipProperty.text with
      | none => none
      | some n => readClipProperties env rest { l with begin := n }
    else if clipProperty.tagName = "end" then
      match env.toLongLong clipProperty.text with
      | none => none
      | some n => readClipProperties env rest { l with end_ := n }
    else if clipProperty.tagName = "startFrame" then
      match env.toLongLong clipProperty.text with
      | none => none
      | some n => readClipProperties env rest { l with startPos := n }
    else if clipProperty.tagName = "trackType" then
      match env.toUInt clipProperty.text with
      | none => none
      | some n => readClipProperties env rest { l with trackType := n }
    else readClipProperties env rest l

/-- The value of `static_cast<MainWorkflow::TrackType>( n )` as an index of
`m_tracks`; `none` is an index outside the array. -/
def trackTypeOfUInt : Nat → Option TrackType
  | 0 => some TrackType.VideoTrack
  | 1 => some TrackType.AudioTrack
  | _ => none

/-- Modelled from the spec: the constructor `Clip( const QUuid &uuid, qint64
begin, qint64 end )` (`Clip.cpp` is not part of the sources): a clip of the media
with that uuid covering `[begin, end]`, with an identity of its own. -/
def Clip.fromMediaUuid (uuid : Nat) (parent : Nat) (b e : Int) : Clip :=
  { m_Uuid := uuid, m_parent := parent, m_begin := b, m_end := e,
    m_maxBegin := b, m_maxEnd := e }

/-- The identity that `new Clip` gives to the object it creates: one that no
clip of the heap has. -/
def heapFresh (heap : List Clip) : Nat :=
  heap.foldl (fun m c => max m c.m_Uuid) 0 + 1

/-- How a loop of `loadProject` ends: it ran to its end (`done`), a `return`
left `loadProject` (`returned`), or the behaviour is undefined (`failed`: a
failed `Q_ASSERT`, or a track type outside `m_tracks`). -/
inductive Loaded where
  | done (w : MainWorkflow)
  | returned (w : MainWorkflow)
  | failed
  deriving DecidableEq, Repr

/-- The loop over the clips of one track element (lines 316-383). -/
def loadClips (env : LoadEnv) (trackId : Nat) : List (Option ClipElement) → MainWorkflow →
    Loaded
  | [], w => Loaded.done w
  | none :: _, w => Loaded.done w
  | some clip :: rest, w =>
    match readClipProperties env clip.properties env.initialLocals with
    | none => Loaded.returned w
    | some l =>
      if env.hasMedia l.parent then
        match trackTypeOfUInt l.trackType with
        | none => Loaded.failed
        | some trackType =>
          let c := Clip.fromMediaUuid (heapFresh w.heap) l.parent l.begin l.end_
          let w1 := { w with heap := w.heap ++ [c] }
          loadClips env trackId rest (w1.addClip c.m_Uuid trackId l.startPos trackType)
      else loadClips env trackId rest w

/-- The loop over the track elements (lines 304-385). -/
def loadTracks (env : LoadEnv) : List (Option TrackElement) → MainWorkflow → Loaded
  | [], w => Loaded.done w
  | none :: _, w => Loaded.done w
  | some elem :: rest, w =>
    if elem.tagName = "track" then
      match env.toUInt elem.id with
      | none => Loaded.returned w
      | some trackId =>
        match loadClips env trackId elem.clips w with
        | Loaded.done w1 => loadTracks env rest w1
        | Loaded.returned w1 => Loaded.returned w1
        | Loaded.failed => Loaded.failed
    else Loaded.failed

/-- The state in which `loadProject` leaves the workflow; `none` is undefined
behaviour. -/
def Loaded.finish : Loaded → Option MainWorkflow
  | Loaded.done w => some w
  | Loaded.returned w => some w
  | Loaded.failed => none

/-- The method `MainWorkflow::loadProject( project )` (lines 293-386). -/
def MainWorkflow.loadProject (w : MainWorkflow) (env : LoadEnv) (project : TimelineElement) :
    Option MainWorkflow :=
  if project.isNull = true ∨ project.tagName ≠ "timeline" then some w
  else (loadTracks env project.tracks w).finish

/-- Whether a field of a clip is one of the numeric fields and its text cannot
be converted: `begin`, `end` or `startFrame` with a text that `toLongLong`
rejects, or `trackType` with a text that `toUInt` rejects. -/
def unparsable (env : LoadEnv) (p : ClipProperty) : Bool :=
  ((p.tagName = "begin" ∨ p.tagName = "end" ∨ p.tagName = "startFrame") ∧
      env.toLongLong p.text = none) ∨
    (p.tagName = "trackType" ∧ env.toUInt p.text = none)

/-- The clip loop as the spec words the handling of an unparsable numeric field:
the load of that entry only is given up, and the loop goes on with the entries
that follow. To be compared with `loadClips`. -/
def loadClipsSpec (env : LoadEnv) (trackId : Nat) : List (Option ClipElement) →
    MainWorkflow → Loaded
  | [], w => Loaded.done w
  | none :: _, w => Loaded.done w
  | some clip :: rest, w =>
    match readClipProperties env clip.properties env.initialLocals with
    | none => loadClipsSpec env trackId rest w
    | some l =>
      if env.hasMedia l.parent then
        match trackTypeOfUInt l.trackType with
        | none => Loaded.failed
        | some trackType =>
          let c := Clip.fromMediaUuid (heapFresh w.heap) l.parent l.begin l.end_
          let w1 := { w with heap := w.heap ++ [c] }
          loadClipsSpec env trackId rest (w1.addClip c.m_Uuid trackId l.startPos trackType)
      else loadClipsSpec env trackId rest w

/-- The track loop over `loadClipsSpec`. -/
def loadTracksSpec (env : LoadEnv) : List (Option TrackElement) → MainWorkflow → Loaded
  | [], w => Loaded.done w
  | none :: _, w => Loaded.done w
  | some elem :: rest, w =>
    if elem.tagName = "track" then
      match env.toUInt elem.id with
      | none => Loaded.returned w
      | some trackId =>
        match loadClipsSpec env trackId elem.clips w with
        | Loaded.done w1 => loadTracksSpec env rest w1
        | Loaded.returned w1 => Loaded.returned w1
        | Loaded.failed => Loaded.failed
    else Loaded.failed

/-- The load of a project as the spec words it, over `loadTracksSpec`. -/
def MainWorkflow.loadProjectSpec (w : MainWorkflow) (env : LoadEnv)
    (project : TimelineElement) : Option MainWorkflow :=
  if project.isNull = true ∨ project.tagName ≠ "timeline" then some w
  else (loadTracksSpec env project.tracks w).finish

/-- An environment for the examples: the texts `0`, `1`, `50` and `100` are the
numbers they spell and every other text is rejected by the conversions; the
text `1` is the uuid of the only media of the library; the uninitialised locals
hold `b`, `e` and `s`. -/
def exampleEnv (b e s : Int) : LoadEnv :=
  { toUInt := fun t =>
      if t = "0" then some 0 else if t = "1" then some 1 else if t = "50" then some 50
      else if t = "100" then some 100 else none,
    toLongLong := fun t =>
      if t = "0" then some 0 else if t = "1" then some 1 else if t = "50" then some 50
      else if t = "100" then some 100 else none,
    toQUuid := fun t => if t = "1" then 1 else 0,
    nullUuid := 0,
    hasMedia := fun u => u == 1,
    uninitBegin := b, uninitEnd := e, uninitStartPos := s }

/-- A well-formed clip entry: media 1, range `[0, 100]`, at frame `startFrame`
of its track, video. -/
def clipEntry (startFrame : String) : ClipElement :=
  { properties := [some ⟨"parent", "1"⟩, some ⟨"begin", "0"⟩, some ⟨"end", "100"⟩,
      some ⟨"startFrame", startFrame⟩, some ⟨"trackType", "0"⟩] }

/-- A clip entry without a `begin` field: media 1, end 100, at frame 0, video. -/
def clipEntryNoBegin : ClipElement :=
  { properties := [some ⟨"parent", "1"⟩, some ⟨"end", "100"⟩, some ⟨"startFrame", "0"⟩,
      some ⟨"trackType", "0"⟩] }

/-- A clip entry whose `begin` field is not a number. -/
def clipEntryBadBegin : ClipElement :=
  { properties := [some ⟨"parent", "1"⟩, some ⟨"begin", "abc"⟩, some ⟨"end", "100"⟩,
      some ⟨"startFrame", "0"⟩, some ⟨"trackType", "0"⟩] }

/-- A timeline with one track that holds the entry without `begin`, followed by
a well-formed entry at frame 100. -/
def timelineNoBegin : TimelineElement :=
  { isNull := false, tagName := "timeline",
    tracks := [some ⟨"track", "0", [some clipEntryNoBegin, some (clipEntry "100")]⟩] }

/-- A timeline whose track 0 holds a well-formed entry, then an entry with an
unparsable `begin`, then a well-formed entry, and whose track 1 holds a
well-formed entry. -/
def timelineBadSecond : TimelineElement :=
  { isNull := false, tagName := "timeline",
    tracks := [some ⟨"track", "0",
                 [some (clipEntry "0"), some clipEntryBadBegin, some (clipEntry "100")]⟩,
               some ⟨"track", "1", [some (clipEntry "0")]⟩] }

/-- A timeline whose track 0 holds an entry with an unparsable `begin` followed
by a well-formed entry, and whose track 1 holds a well-formed entry. -/
def timelineBadBegin : TimelineElement :=
  { isNull := false, tagName := "timeline",
    tracks := [some ⟨"track", "0", [some clipEntryBadBegin, some (clipEntry "100")]⟩,
               some ⟨"track", "1", [some (clipEntry "0")]⟩] }

/-! ## Moving and resizing clips -/

/-- A workflow with the two halves of a split clip of media 1: clip 1 with range
`[0, 50)` placed on video track 0 at frame 0, and clip 2 with range `[50, 100)`
that is on no track. -/
def workflowDetachedHalf : MainWorkflow :=
  { MainWorkflow.new [⟨1, 1, 0, 50, 0, 50⟩, ⟨2, 1, 50, 100, 50, 100⟩] with
    m_tracks := ⟨⟨[⟨0, 1, 0⟩]⟩, ⟨[]⟩⟩, m_lengthFrame := 50 }



/-! ## Auxiliary notions for the statements on the vertical search -/

/-- The number of clips the candidate of `findPosition` overlaps on track `track`
at `time`: the media items other than `item` in the list of colliding items of
the probe. -/
def TracksView.overlapCount (v : TracksView) (item : MediaItem) (track : Nat) (time : Int) :
    Nat :=
  (v.collidingItems item.mediaType track time item.width).countP (fun c => c.id != item.id)

/-- Whether the vertical search of `findPosition( item, track, time )` ended by
one of its two `break`s (lines 512-516 and 521-525), that is with its bounds
exhausted: the last pass ends with `itemCollision` set, whereas a search that
ends on a free track ends with `itemCollision` cleared. -/
def verticalExhausted (v : TracksView) (item : MediaItem) (track : Nat) (time : Int) : Bool :=
  match verticalWhile v item time (track + 2)
      { track := track, chkTrack := track, itemCollision := false, continueSearch := true } with
  | some s => s.itemCollision
  | none => false

/-- A scene with three video tracks: clips 1 and 2 occupy `[0, 100)` and
`[100, 200)` on track 1, track 0 is empty, and clip 3 (150 frames) lies on
track 2 at frame 500. -/
def sceneTwoOnTrack1 : TracksView :=
  { m_numVideoTrack := 3, m_numAudioTrack := 1,
    items := [⟨1, TrackType.VideoTrack, 1, 0, 100, none⟩,
              ⟨2, TrackType.VideoTrack, 1, 100, 100, none⟩,
              ⟨3, TrackType.VideoTrack, 2, 500, 150, none⟩] }

/-- A scene with five video tracks and two audio tracks: audio clip 1 occupies
`[0, 100)` on audio track 1, and audio clip 9 (50 frames) lies on audio track 0
at frame 500. -/
def sceneAudioOnTrack1 : TracksView :=
  { m_numVideoTrack := 5, m_numAudioTrack := 2,
    items := [⟨1, TrackType.AudioTrack, 1, 0, 100, none⟩,
              ⟨9, TrackType.AudioTrack, 0, 500, 50, none⟩] }

/-- A scene with one video track: clip 1 (3 frames) lies at frame `2^53`, and
clip 2 (2 frames) at frame 0. -/
def sceneFarClip : TracksView :=
  { m_numVideoTrack := 1, m_numAudioTrack := 1,
    items := [⟨1, TrackType.VideoTrack, 0, 9007199254740992, 3, none⟩,
              ⟨2, TrackType.VideoTrack, 0, 0, 2, none⟩] }

/-- The values of `Media::FileType` that `Media.cpp` assigns (the enumeration is
declared in `Media.h`, which is not part of the sources). -/
inductive FileType where
  | Audio
  | Video
  | Image
  deriving DecidableEq, Repr

/-- The constant `Media::VideoExtensions` (line 36). -/
def Media.VideoExtensions : String := "*.mov *.avi *.mkv *.mpg *.mpeg *.wmv *.mp4 *.ogg *.ogv"

/-- The constant `Media::ImageExtensions` (line 37). -/
def Media.ImageExtensions : String := "*.gif *.png *.jpg *.jpeg"

/-- The constant `Media::AudioExtensions` (line 38). -/
def Media.AudioExtensions : String := "*.mp3 *.oga *.flac *.aac *.wav"

/-- Whether the characters `str` occur in `s` as a contiguous run. -/
def containsChars : List Char → List Char → Bool
  | [], str => str.isEmpty
  | c :: cs, str => str.isPrefixOf (c :: cs) || containsChars cs str

/-- The call `s.contains( str )` of `QString` (case sensitive): whether `str`
occurs in `s`. -/
def QString.contains (s str : String) : Bool :=
  containsChars s.data str.data

/-- The method `Media::setFileType()` (lines 96-107). `suffix` is
`m_fileInfo->suffix()`, `toLower` is `QString::toLower`, and `m_fileType` is the
member before the call, `none` when nothing was assigned to it yet (the
constructor, the only caller, does not initialise it); the result is the member
after the call. -/
def Media.setFileType (toLower : String → String) (suffix : String)
    (m_fileType : Option FileType) : Option FileType :=
  let filter := "*." ++ toLower suffix
  if QString.contains Media.VideoExtensions filter then some FileType.Video
  else if QString.contains Media.AudioExtensions filter then some FileType.Audio
  else if QString.contains Media.ImageExtensions filter then some FileType.Image
  else m_fileType

/-- A lower-casing for the examples: `QString::toLower` on a string of ASCII
characters. -/
def asciiToLower (s : String) : String :=
  String.mk (s.data.map Char.toLower)

/-! ## Lemmas on the placement resolver -/

/-- Whole numbers up to `2^53` in magnitude are held exactly by a `qreal`. -/
theorem toQreal_of_small (x : Int) (h : x.natAbs ≤ 9007199254740992) : toQreal x = x := by
  unfold toQreal
  rw [if_pos h]

theorem mem_collidingItems {v : TracksView} {ty : TrackType} {T : Nat} {pos w : Int}
    {c : MediaItem} (h : c ∈ v.collidingItems ty T pos w) :
    c ∈ v.items ∧ c.mediaType = ty ∧ c.trackNumber = T ∧
      intersects (toQreal pos) w c.startPos c.width = true := by
  unfold TracksView.collidingItems at h
  rw [List.mem_filter] at h
  obtain ⟨hm, hc⟩ := h
  simp only [Bool.and_eq_true, beq_iff_eq] at hc
  exact ⟨hm, hc.1.1, hc.1.2, hc.2⟩

theorem verticalFor_down (v : TracksView) (item : MediaItem) (T : Nat)
    (hT : T < v.numTrack item.mediaType) :
    ∀ (l : List MediaItem) (s : Probe), (∀ c ∈ l, c.trackNumber = T) → s.track ≤ T →
      s.chkTrack = s.track → s.continueSearch = true →
      ∃ s1, verticalFor v item l s = some s1 ∧
        ((s1.continueSearch = true ∧ s1.chkTrack = s1.track ∧ s1.track ≤ s.track ∧
            (s1.itemCollision = true → s.itemCollision = true ∨ s1.track < s.track)) ∨
         (s1.continueSearch = false ∧ s1.chkTrack = item.trackNumber ∧
            s1.itemCollision = true)) := by
  intro l
  induction l with
  | nil =>
    intro s _ _ hc hs
    exact ⟨s, rfl, Or.inl ⟨hs, hc, le_refl _, fun h => Or.inl h⟩⟩
  | cons cur rest ih =>
    intro s hl hle hc hs
    have hcur : cur.trackNumber = T := hl cur (List.mem_cons_self _ _)
    have hrest : ∀ c ∈ rest, c.trackNumber = T := fun c hc => hl c (List.mem_cons_of_mem _ hc)
    unfold verticalFor
    by_cases hid : cur.id ≠ item.id
    · rw [if_pos hid]
      have hge : cur.trackNumber ≥ s.track := by omega
      rw [if_pos hge]
      by_cases h0 : s.track < 1
      · rw [if_pos h0]
        exact ⟨_, rfl, Or.inr ⟨rfl, rfl, rfl⟩⟩
      · rw [if_neg h0]
        have hex : v.hasTrack item.mediaType (s.track - 1) = true := by
          unfold TracksView.hasTrack
          simp only [decide_eq_true_eq]
          omega
        rw [if_pos hex]
        obtain ⟨s1, h1, h2⟩ := ih
          { s with track := s.track - 1, chkTrack := s.track - 1, itemCollision := true }
          hrest (by simp only; omega) rfl hs
        refine ⟨s1, h1, ?_⟩
        rcases h2 with ⟨a, b, c, _⟩ | h2
        · left
          refine ⟨a, b, ?_, fun _ => Or.inr ?_⟩
          · simp only at c; omega
          · simp only at c; omega
        · right; exact h2
    · rw [if_neg hid]
      exact ih s hrest hle hc hs

theorem verticalWhile_total (v : TracksView) (item : MediaItem) (time : Int) :
    ∀ (fuel : Nat) (s : Probe), 1 ≤ fuel →
      (s.continueSearch = true →
        s.chkTrack = s.track ∧ s.track < v.numTrack item.mediaType ∧ s.track + 2 ≤ fuel) →
      ∃ s1, verticalWhile v item time fuel s = some s1 ∧
        (s.continueSearch = false → s1 = s) ∧
        (s.continueSearch = true →
          s1.chkTrack ≤ s.track ∨ s1.chkTrack = item.trackNumber) := by
  intro fuel
  induction fuel with
  | zero => intro s h; omega
  | succ n ih =>
    intro s _ hs
    unfold verticalWhile
    by_cases hc : s.continueSearch = true
    · rw [if_pos hc]
      obtain ⟨hchk, hlt, hfuel⟩ := hs hc
      obtain ⟨s1, h1, h2⟩ := verticalFor_down v item s.chkTrack (by omega)
        (v.collidingItems item.mediaType s.chkTrack time item.width)
        { s with itemCollision := false }
        (fun c hc => (mem_collidingItems hc).2.2.1) (by simp only; omega) hchk hc
      rw [h1]
      simp only
      rcases h2 with ⟨a, b, c, d⟩ | ⟨a, b, c⟩
      · by_cases hcol : s1.itemCollision = true
        · rw [if_pos hcol]
          have hlt2 : s1.track < s.track := by
            rcases d hcol with h | h
            · simp at h
            · exact h
          obtain ⟨s2, h3, _, h5⟩ := ih s1 (by omega) (fun _ => ⟨b, by omega, by omega⟩)
          refine ⟨s2, h3, fun h => by simp [hc] at h, fun _ => ?_⟩
          rcases h5 a with h | h
          · left; omega
          · right; exact h
        · rw [if_neg hcol]
          obtain ⟨s2, h3, h4, _⟩ := ih { s1 with continueSearch := false } (by omega)
            (fun h => by simp at h)
          refine ⟨s2, h3, fun h => by simp [hc] at h, fun _ => ?_⟩
          have := h4 rfl
          subst this
          left
          simp only
          simp only at c
          omega
      · rw [if_pos c]
        obtain ⟨s2, h3, h4, _⟩ := ih s1 (by omega) (fun h => by simp [a] at h)
        refine ⟨s2, h3, fun h => by simp [hc] at h, fun _ => ?_⟩
        have := h4 a
        subst this
        right; exact b
    · rw [if_neg hc]
      exact ⟨s, rfl, fun _ => rfl, fun h => absurd h hc⟩

/-- On an existing track `findPosition` returns a placement: no assertion
fails and the bound on the passes of the vertical search is never reached. The
returned track is the requested one, a lower one, or the item's own track. -/
theorem findPosition_isSome (v : TracksView) (item : MediaItem) (track : Nat) (time : Int)
    (h : track < v.numTrack item.mediaType) :
    ∃ p, findPosition v item track time = some p ∧
      (p.track ≤ track ∨ p.track = item.trackNumber) := by
  unfold findPosition
  have hex : v.hasTrack item.mediaType track = true := by
    unfold TracksView.hasTrack; simpa using h
  rw [if_pos hex]
  obtain ⟨s1, h1, _, h3⟩ := verticalWhile_total v item time (track + 2)
    { track := track, chkTrack := track, itemCollision := false, continueSearch := true }
    (by omega) (fun _ => ⟨rfl, h, le_refl _⟩)
  rw [h1]
  exact ⟨_, rfl, h3 rfl⟩

theorem numTrack_addMissingTracks_self (v : TracksView) (ty : TrackType) (n : Nat) :
    n < (v.addMissingTracks ty n).numTrack ty := by
  cases ty <;> simp [TracksView.addMissingTracks, TracksView.numTrack]

theorem numTrack_addMissingTracks (v : TracksView) (ty ty1 : TrackType) (n : Nat) :
    v.numTrack ty ≤ (v.addMissingTracks ty1 n).numTrack ty := by
  cases ty <;> cases ty1 <;> simp [TracksView.addMissingTracks, TracksView.numTrack]

theorem items_addMissingTracks (v : TracksView) (ty : TrackType) (n : Nat) :
    (v.addMissingTracks ty n).items = v.items := by
  cases ty <;> rfl

theorem item_addMissingTracks (v : TracksView) (ty : TrackType) (n : Nat) (id : Nat) :
    (v.addMissingTracks ty n).item id = v.item id := by
  unfold TracksView.item
  rw [items_addMissingTracks]

theorem item_id {v : TracksView} {id : Nat} {c : MediaItem} (h : v.item id = some c) :
    c.id = id := by
  unfold TracksView.item at h
  have := List.find?_some h
  simpa using this

theorem item_place (v : TracksView) (id : Nat) (t : Nat) (τ : Int) (j : Nat) :
    (v.place id t τ).item j =
      (v.item j).map (fun c =>
        if c.id == id then { c with trackNumber := t, startPos := τ } else c) := by
  unfold TracksView.item TracksView.place
  simp only
  induction v.items with
  | nil => rfl
  | cons a l ih =>
    simp only [List.map_cons, List.find?_cons]
    by_cases ha : a.id == j
    · have : (if (a.id == id) = true then { a with trackNumber := t, startPos := τ } else a).id
          = a.id := by split <;> rfl
      simp only [this, ha, Option.map_some']
    · have : (if (a.id == id) = true then { a with trackNumber := t, startPos := τ } else a).id
          = a.id := by split <;> rfl
      simp only [this, ha]
      exact ih

/-- What `linkedResolve` returns: each of the two final placements is a value
returned by `findPosition`, and an accepted resolution has equal placements. -/
theorem linkedResolve_sound {v : TracksView} {item g : MediaItem} {track : Nat} {time : Int}
    {p : ItemPosition} {r : LinkedResolution}
    (h : linkedResolve v item g track time p = some r) :
    (r.p = p ∨ ∃ t τ, findPosition v item t τ = some r.p) ∧
      (∃ t τ, findPosition v g t τ = some r.p2) ∧
      (r.validPosFound = true → r.p.time = r.p2.time ∧ r.p.track = r.p2.track) := by
  unfold linkedResolve at h
  cases h2 : findPosition v g track time with
  | none => rw [h2] at h; simp at h
  | some p2 =>
    rw [h2] at h
    simp only at h
    split at h
    · next hag =>
      cases h
      exact ⟨Or.inl rfl, ⟨track, time, h2⟩, fun _ => hag⟩
    · split at h
      · cases h3 : findPosition v item p2.track p2.time with
        | none => rw [h3] at h; simp at h
        | some q =>
          rw [h3] at h
          cases h
          exact ⟨Or.inr ⟨_, _, h3⟩, ⟨track, time, h2⟩, fun hv => by simpa using hv⟩
      · split at h
        · cases h3 : findPosition v g p.track p.time with
          | none => rw [h3] at h; simp at h
          | some q =>
            rw [h3] at h
            cases h
            exact ⟨Or.inl rfl, ⟨_, _, h3⟩, fun hv => by simpa using hv⟩
        · cases h
          exact ⟨Or.inl rfl, ⟨track, time, h2⟩, fun hv => by simp at hv⟩

/-- The linked resolution returns when every track it can visit exists for the
types of both items, and its placements are on such tracks. -/
theorem linkedResolve_total (v : TracksView) (item g : MediaItem) (track : Nat) (time : Int)
    (p : ItemPosition) (N : Nat)
    (hN : ∀ n, n ≤ N → n < v.numTrack item.mediaType ∧ n < v.numTrack g.mediaType)
    (ht : track ≤ N) (hi : item.trackNumber ≤ N) (hg : g.trackNumber ≤ N) (hp : p.track ≤ N) :
    ∃ r, linkedResolve v item g track time p = some r ∧ r.p.track ≤ N ∧ r.p2.track ≤ N := by
  unfold linkedResolve
  obtain ⟨p2, h2, hb2⟩ := findPosition_isSome v g track time (hN track ht).2
  have hp2 : p2.track ≤ N := by rcases hb2 with h | h <;> omega
  rw [h2]
  simp only
  split
  · exact ⟨_, rfl, hp, hp2⟩
  · split
    · obtain ⟨q, h3, hb3⟩ := findPosition_isSome v item p2.track p2.time (hN _ hp2).1
      rw [h3]
      exact ⟨_, rfl, by rcases hb3 with h | h <;> simp only <;> omega, hp2⟩
    · split
      · obtain ⟨q, h3, hb3⟩ := findPosition_isSome v g p.track p.time (hN _ hp).2
        rw [h3]
        exact ⟨_, rfl, hp, by rcases hb3 with h | h <;> simp only <;> omega⟩
      · exact ⟨_, rfl, hp, hp2⟩

theorem clampTrack_lt (v : TracksView) (ty : TrackType) (track : Nat)
    (h : 0 < v.numTrack ty) : clampTrack v ty track < v.numTrack ty := by
  unfold clampTrack u32pred
  have : (v.numTrack ty + 4294967295) % 4294967296 < v.numTrack ty := by omega
  exact lt_of_le_of_lt (min_le_right _ _) this

/-- The linked branch of `moveMediaItem` on a scene in which the tracks the move
can visit exist: both resolutions return, and the items are written exactly when
`validPosFound` is set. -/
theorem moveMediaItem_linked (isValid : ItemPosition → Bool) (v : TracksView)
    (itemId gid track : Nat) (time : Int) (item g : MediaItem)
    (hitem : v.item itemId = some item) (hgrp : item.groupItem = some gid)
    (hg : v.item gid = some g) (hwf : linkedTracksExist v item g track) :
    ∃ p r, findPosition v item (clampTrack v item.mediaType track) time = some p ∧
      linkedResolve (v.addMissingTracks g.mediaType item.trackNumber) item g
        (clampTrack v item.mediaType track) time p = some r ∧
      moveMediaItem isValid v itemId track time =
        some (if r.validPosFound then
          ((v.addMissingTracks g.mediaType item.trackNumber).place item.id r.p.track
            r.p.time).place g.id r.p2.track r.p2.time
          else v.addMissingTracks g.mediaType item.trackNumber) := by
  obtain ⟨hI, hG, hGI, hT⟩ := hwf
  have hcl := clampTrack_lt v item.mediaType track (by omega)
  obtain ⟨p, hp, hpb⟩ := findPosition_isSome v item (clampTrack v item.mediaType track) time hcl
  have hN : ∀ n, n ≤ max (clampTrack v item.mediaType track)
        (max item.trackNumber g.trackNumber) →
      n < (v.addMissingTracks g.mediaType item.trackNumber).numTrack item.mediaType ∧
      n < (v.addMissingTracks g.mediaType item.trackNumber).numTrack g.mediaType := by
    intro n hn
    have h4 := numTrack_addMissingTracks v item.mediaType g.mediaType item.trackNumber
    have h5 := numTrack_addMissingTracks v g.mediaType g.mediaType item.trackNumber
    have h6 := numTrack_addMissingTracks_self v g.mediaType item.trackNumber
    have hm1 : max (clampTrack v item.mediaType track) (max item.trackNumber g.trackNumber)
        < v.numTrack item.mediaType := by
      simp only [max_lt_iff]
      exact ⟨hcl, hI, hGI⟩
    have hm2 : max (clampTrack v item.mediaType track) (max item.trackNumber g.trackNumber)
        < (v.addMissingTracks g.mediaType item.trackNumber).numTrack g.mediaType := by
      simp only [max_lt_iff]
      exact ⟨hT, h6, lt_of_lt_of_le hG h5⟩
    omega
  obtain ⟨r, hr, hrp, hrp2⟩ := linkedResolve_total
    (v.addMissingTracks g.mediaType item.trackNumber) item g
    (clampTrack v item.mediaType track) time p
    (max (clampTrack v item.mediaType track) (max item.trackNumber g.trackNumber)) hN
    (le_max_left _ _)
    (le_trans (le_max_left _ _) (le_max_right _ _))
    (le_trans (le_max_right _ _) (le_max_right _ _))
    (by
      rcases hpb with h | h
      · exact le_trans h (le_max_left _ _)
      · rw [h]; exact le_trans (le_max_left _ _) (le_max_right _ _))
  refine ⟨p, r, hp, hr, ?_⟩
  unfold moveMediaItem
  rw [hitem]
  simp only
  rw [hp]
  simp only
  rw [hgrp]
  simp only
  rw [hg]
  simp only
  rw [hr]
  simp only
  by_cases hv : r.validPosFound = true
  · rw [if_pos hv, if_pos hv]
    have e1 : (v.addMissingTracks g.mediaType item.trackNumber).hasTrack item.mediaType
        r.p.track = true := by
      unfold TracksView.hasTrack
      simpa using (hN _ hrp).1
    have e2 : (v.addMissingTracks g.mediaType item.trackNumber).hasTrack g.mediaType
        r.p2.track = true := by
      unfold TracksView.hasTrack
      simpa using (hN _ hrp2).2
    rw [if_pos ⟨e1, e2⟩]
  · rw [if_neg hv, if_neg hv]

/-! ## Placement: `moveMediaItem` and `findPosition` -/

/-- C1 (code defect): on `sceneTwoClips`, where no two clips overlap, moving
clip 2 to track 1 at frame 60 is resolved by `findPosition` to `(track 0, 60)`,
but the unlinked branch of `moveMediaItem` parents the item to the requested
track 1: the resulting state has clips 1 and 2 overlapping on track 1, so the
no-overlap invariant is not preserved. -/
theorem moveMediaItem_breaks_noOverlap (isValid : ItemPosition → Bool)
    (hvalid : isValid ⟨0, 60⟩ = true) :
    noOverlap sceneTwoClips ∧
      ∃ v, moveMediaItem isValid sceneTwoClips 2 1 60 = some v ∧ ¬ noOverlap v := by
  refine ⟨by decide, sceneTwoClips.place 2 1 60, ?_, by decide⟩
  have hp : findPosition sceneTwoClips ⟨2, TrackType.VideoTrack, 0, 200, 50, none⟩
      (clampTrack sceneTwoClips TrackType.VideoTrack 1) 60 = some ⟨0, 60⟩ := by decide
  have hi : sceneTwoClips.item 2 = some ⟨2, TrackType.VideoTrack, 0, 200, 50, none⟩ := by decide
  unfold moveMediaItem
  rw [hi]
  simp only
  rw [hp]
  simp only [hvalid, if_true]
  rfl

/-- Witness of `moveMediaItem_breaks_noOverlap` with a validity test that
accepts every placement. -/
theorem moveMediaItem_breaks_noOverlap_witness :
    (fun _ : ItemPosition => true) ⟨0, 60⟩ = true ∧
      (noOverlap sceneTwoClips ∧
        ∃ v, moveMediaItem (fun _ => true) sceneTwoClips 2 1 60 = some v ∧ ¬ noOverlap v) :=
  ⟨rfl, moveMediaItem_breaks_noOverlap (fun _ => true) rfl⟩

/-- C2: linked-pair atomicity. For an item with a linked item, on a scene in
which the tracks the move can visit exist (`linkedTracksExist`),
`moveMediaItem` returns; when it found no shared `(track, time)`
(`validPosFound` stayed false) the items of the scene are unchanged, so neither
the item nor its linked item changed its start position or its track. -/
theorem linked_move_rejected_keeps_both (isValid : ItemPosition → Bool) (v : TracksView)
    (itemId gid track : Nat) (time : Int) (item g : MediaItem)
    (hitem : v.item itemId = some item) (hgrp : item.groupItem = some gid)
    (hg : v.item gid = some g) (hwf : linkedTracksExist v item g track) :
    ∃ p r v1, findPosition v item (clampTrack v item.mediaType track) time = some p ∧
      linkedResolve (v.addMissingTracks g.mediaType item.trackNumber) item g
        (clampTrack v item.mediaType track) time p = some r ∧
      moveMediaItem isValid v itemId track time = some v1 ∧
      (r.validPosFound = false →
        v1.items = v.items ∧ v1.item itemId = some item ∧ v1.item gid = some g) := by
  obtain ⟨p, r, hp, hr, hm⟩ :=
    moveMediaItem_linked isValid v itemId gid track time item g hitem hgrp hg hwf
  refine ⟨p, r, _, hp, hr, hm, ?_⟩
  intro hfalse
  simp only [hfalse, Bool.false_eq_true, if_false]
  refine ⟨items_addMissingTracks _ _ _, ?_, ?_⟩
  · rw [item_addMissingTracks]; exact hitem
  · rw [item_addMissingTracks]; exact hg

/-- Witness of `linked_move_rejected_keeps_both`: on `sceneLinkedBlocked` the
move of the pair (1, 2) to `(track 0, 60)` finds no shared placement. -/
theorem linked_move_rejected_keeps_both_witness :
    sceneLinkedBlocked.item 1 = some ⟨1, TrackType.VideoTrack, 0, 500, 50, some 2⟩ ∧
    sceneLinkedBlocked.item 2 = some ⟨2, TrackType.AudioTrack, 0, 500, 50, some 1⟩ ∧
    linkedTracksExist sceneLinkedBlocked ⟨1, TrackType.VideoTrack, 0, 500, 50, some 2⟩
      ⟨2, TrackType.AudioTrack, 0, 500, 50, some 1⟩ 0 ∧
    linkedResolve sceneLinkedBlocked ⟨1, TrackType.VideoTrack, 0, 500, 50, some 2⟩
      ⟨2, TrackType.AudioTrack, 0, 500, 50, some 1⟩ 0 60 ⟨0, 60⟩
      = some ⟨false, ⟨0, 50⟩, ⟨0, 100⟩⟩ ∧
    ∃ p r v1, findPosition sceneLinkedBlocked ⟨1, TrackType.VideoTrack, 0, 500, 50, some 2⟩
        (clampTrack sceneLinkedBlocked TrackType.VideoTrack 0) 60 = some p ∧
      linkedResolve (sceneLinkedBlocked.addMissingTracks TrackType.AudioTrack 0)
        ⟨1, TrackType.VideoTrack, 0, 500, 50, some 2⟩
        ⟨2, TrackType.AudioTrack, 0, 500, 50, some 1⟩
        (clampTrack sceneLinkedBlocked TrackType.VideoTrack 0) 60 p = some r ∧
      moveMediaItem (fun _ => true) sceneLinkedBlocked 1 0 60 = some v1 ∧
      (r.validPosFound = false →
        v1.items = sceneLinkedBlocked.items ∧
        v1.item 1 = some ⟨1, TrackType.VideoTrack, 0, 500, 50, some 2⟩ ∧
        v1.item 2 = some ⟨2, TrackType.AudioTrack, 0, 500, 50, some 1⟩) :=
  ⟨by decide, by decide, by decide, by decide,
    linked_move_rejected_keeps_both (fun _ => true) sceneLinkedBlocked 1 2 0 60
      ⟨1, TrackType.VideoTrack, 0, 500, 50, some 2⟩
      ⟨2, TrackType.AudioTrack, 0, 500, 50, some 1⟩
      (by decide) rfl (by decide) (by decide)⟩

/-- C3: an accepted move of a linked pair puts both items on one track at one
start time, and that `(track, time)` is a placement `findPosition` returned for
the item and a placement it returned for the linked item. Stated on a scene in
which the tracks the move can visit exist (`linkedTracksExist`). -/
theorem linked_move_accepted_places_both (isValid : ItemPosition → Bool) (v : TracksView)
    (itemId gid track : Nat) (time : Int) (item g : MediaItem)
    (hitem : v.item itemId = some item) (hgrp : item.groupItem = some gid)
    (hg : v.item gid = some g) (hwf : linkedTracksExist v item g track) :
    ∃ p r v1, findPosition v item (clampTrack v item.mediaType track) time = some p ∧
      linkedResolve (v.addMissingTracks g.mediaType item.trackNumber) item g
        (clampTrack v item.mediaType track) time p = some r ∧
      moveMediaItem isValid v itemId track time = some v1 ∧
      (r.validPosFound = true →
        ∃ i1 g1, v1.item itemId = some i1 ∧ v1.item gid = some g1 ∧
          i1.trackNumber = g1.trackNumber ∧ i1.startPos = g1.startPos ∧
          (⟨i1.trackNumber, i1.startPos⟩ : ItemPosition) = r.p ∧
          (⟨g1.trackNumber, g1.startPos⟩ : ItemPosition) = r.p2 ∧
          (∃ t τ, findPosition v item t τ = some r.p ∨
            findPosition (v.addMissingTracks g.mediaType item.trackNumber) item t τ
              = some r.p) ∧
          (∃ t τ, findPosition (v.addMissingTracks g.mediaType item.trackNumber) g t τ
              = some r.p2)) := by
  obtain ⟨p, r, hp, hr, hm⟩ :=
    moveMediaItem_linked isValid v itemId gid track time item g hitem hgrp hg hwf
  refine ⟨p, r, _, hp, hr, hm, ?_⟩
  intro hv
  obtain ⟨hs1, hs2, hs3⟩ := linkedResolve_sound hr
  obtain ⟨htime, htrack⟩ := hs3 hv
  have hid1 := item_id hitem
  have hid2 := item_id hg
  simp only [hv, if_true]
  rw [item_place, item_place, item_place, item_place, item_addMissingTracks,
    item_addMissingTracks, hitem, hg]
  simp only [Option.map_some']
  refine ⟨_, _, rfl, rfl, ?_, ?_, ?_, ?_, ?_, hs2⟩
  · by_cases h1 : (item.id == g.id) = true <;> by_cases h2 : (g.id == item.id) = true <;>
      simp [h1, h2, htrack]
  · by_cases h1 : (item.id == g.id) = true <;> by_cases h2 : (g.id == item.id) = true <;>
      simp [h1, h2, htime]
  · have e : r.p = ⟨r.p.track, r.p.time⟩ := rfl
    by_cases h1 : (item.id == g.id) = true
    · simp only [h1, if_true, beq_self_eq_true]
      rw [← htrack, ← htime]
    · simp only [h1, if_false, beq_self_eq_true, if_true]
      exact e.symm
  · by_cases h2 : (g.id == item.id) = true <;> simp [h2]
  · rcases hs1 with h | ⟨t, τ, h⟩
    · exact ⟨_, _, Or.inl (h ▸ hp)⟩
    · exact ⟨t, τ, Or.inr h⟩

/-- Witness of `linked_move_accepted_places_both`: on `sceneLinkedPair` the move
of the pair (1, 2) to `(track 0, 60)` is accepted at `(track 0, 100)`. -/
theorem linked_move_accepted_places_both_witness :
    sceneLinkedPair.item 1 = some ⟨1, TrackType.VideoTrack, 0, 500, 50, some 2⟩ ∧
    sceneLinkedPair.item 2 = some ⟨2, TrackType.AudioTrack, 0, 500, 50, some 1⟩ ∧
    linkedTracksExist sceneLinkedPair ⟨1, TrackType.VideoTrack, 0, 500, 50, some 2⟩
      ⟨2, TrackType.AudioTrack, 0, 500, 50, some 1⟩ 0 ∧
    linkedResolve sceneLinkedPair ⟨1, TrackType.VideoTrack, 0, 500, 50, some 2⟩
      ⟨2, TrackType.AudioTrack, 0, 500, 50, some 1⟩ 0 60 ⟨0, 60⟩
      = some ⟨true, ⟨0, 100⟩, ⟨0, 100⟩⟩ ∧
    ∃ p r v1, findPosition sceneLinkedPair ⟨1, TrackType.VideoTrack, 0, 500, 50, some 2⟩
        (clampTrack sceneLinkedPair TrackType.VideoTrack 0) 60 = some p ∧
      linkedResolve (sceneLinkedPair.addMissingTracks TrackType.AudioTrack 0)
        ⟨1, TrackType.VideoTrack, 0, 500, 50, some 2⟩
        ⟨2, TrackType.AudioTrack, 0, 500, 50, some 1⟩
        (clampTrack sceneLinkedPair TrackType.VideoTrack 0) 60 p = some r ∧
      moveMediaItem (fun _ => true) sceneLinkedPair 1 0 60 = some v1 ∧
      (r.validPosFound = true →
        ∃ i1 g1, v1.item 1 = some i1 ∧ v1.item 2 = some g1 ∧
          i1.trackNumber = g1.trackNumber ∧ i1.startPos = g1.startPos ∧
          (⟨i1.trackNumber, i1.startPos⟩ : ItemPosition) = r.p ∧
          (⟨g1.trackNumber, g1.startPos⟩ : ItemPosition) = r.p2 ∧
          (∃ t τ, findPosition sceneLinkedPair
              ⟨1, TrackType.VideoTrack, 0, 500, 50, some 2⟩ t τ = some r.p ∨
            findPosition (sceneLinkedPair.addMissingTracks TrackType.AudioTrack 0)
              ⟨1, TrackType.VideoTrack, 0, 500, 50, some 2⟩ t τ = some r.p) ∧
          (∃ t τ, findPosition (sceneLinkedPair.addMissingTracks TrackType.AudioTrack 0)
              ⟨2, TrackType.AudioTrack, 0, 500, 50, some 1⟩ t τ = some r.p2)) :=
  ⟨by decide, by decide, by decide, by decide,
    linked_move_accepted_places_both (fun _ => true) sceneLinkedPair 1 2 0 60
      ⟨1, TrackType.VideoTrack, 0, 500, 50, some 2⟩
      ⟨2, TrackType.AudioTrack, 0, 500, 50, some 1⟩
      (by decide) rfl (by decide) (by decide)⟩

/-- C4 (as stated, refuted): on `sceneLinkedPair` with the request
`(track 0, 60)` the first placement of item 1 matches the request and the one of
its linked item 2 does not. Resolving again the clip that did not match (item
2, anchored at item 1's placement) gives `(0, 100)` once more, so the rule of
the claim rejects the move; `moveMediaItem` accepts it and puts both items at
`(track 0, 100)`. -/
theorem linked_retry_differs_from_stated_rule :
    findPosition sceneLinkedPair ⟨1, TrackType.VideoTrack, 0, 500, 50, some 2⟩ 0 60
      = some ⟨0, 60⟩ ∧
    findPosition sceneLinkedPair ⟨2, TrackType.AudioTrack, 0, 500, 50, some 1⟩ 0 60
      = some ⟨0, 100⟩ ∧
    linkedResolveSpec sceneLinkedPair ⟨1, TrackType.VideoTrack, 0, 500, 50, some 2⟩
      ⟨2, TrackType.AudioTrack, 0, 500, 50, some 1⟩ 0 60 ⟨0, 60⟩
      = some ⟨false, ⟨0, 60⟩, ⟨0, 100⟩⟩ ∧
    linkedResolve sceneLinkedPair ⟨1, TrackType.VideoTrack, 0, 500, 50, some 2⟩
      ⟨2, TrackType.AudioTrack, 0, 500, 50, some 1⟩ 0 60 ⟨0, 60⟩
      = some ⟨true, ⟨0, 100⟩, ⟨0, 100⟩⟩ ∧
    moveMediaItem (fun _ => true) sceneLinkedPair 1 0 60
      = some ((sceneLinkedPair.place 1 0 100).place 2 0 100) ∧
    ¬ (∀ (v : TracksView) (item g : MediaItem) (track : Nat) (time : Int) (p : ItemPosition),
        linkedResolve v item g track time p = linkedResolveSpec v item g track time p) := by
  refine ⟨by decide, by decide, by decide, by decide, by decide, ?_⟩
  intro h
  have := h sceneLinkedPair ⟨1, TrackType.VideoTrack, 0, 500, 50, some 2⟩
    ⟨2, TrackType.AudioTrack, 0, 500, 50, some 1⟩ 0 60 ⟨0, 60⟩
  revert this
  decide

/-- C4 (amended): when the two first resolutions `p` (item) and `p2` (linked
item) disagree, `moveMediaItem` resolves again the clip whose first placement
DID match the request, anchored at the other clip's placement, and accepts the
move exactly when that second pass yields the other clip's placement; when
neither first placement matches the request the move is rejected without a
second pass. Stated on a scene in which the tracks the move can visit exist
(`linkedTracksExist`). -/
theorem linked_retry_resolves_matching_clip (isValid : ItemPosition → Bool) (v : TracksView)
    (itemId gid track : Nat) (time : Int) (item g : MediaItem) (p p2 : ItemPosition)
    (hitem : v.item itemId = some item) (hgrp : item.groupItem = some gid)
    (hg : v.item gid = some g) (hwf : linkedTracksExist v item g track)
    (hp : findPosition v item (clampTrack v item.mediaType track) time = some p)
    (hp2 : findPosition (v.addMissingTracks g.mediaType item.trackNumber) g
      (clampTrack v item.mediaType track) time = some p2)
    (hdis : ¬ (p.time = p2.time ∧ p.track = p2.track)) :
    (p.time = time ∧ p.track = clampTrack v item.mediaType track →
      ∃ q, findPosition (v.addMissingTracks g.mediaType item.trackNumber) item
          p2.track p2.time = some q ∧
        moveMediaItem isValid v itemId track time =
          some (if q.time = p2.time ∧ q.track = p2.track then
            ((v.addMissingTracks g.mediaType item.trackNumber).place item.id q.track
              q.time).place g.id p2.track p2.time
            else v.addMissingTracks g.mediaType item.trackNumber)) ∧
    (¬ (p.time = time ∧ p.track = clampTrack v item.mediaType track) →
      p2.time = time ∧ p2.track = clampTrack v item.mediaType track →
      ∃ q2, findPosition (v.addMissingTracks g.mediaType item.trackNumber) g
          p.track p.time = some q2 ∧
        moveMediaItem isValid v itemId track time =
          some (if p.time = q2.time ∧ p.track = q2.track then
            ((v.addMissingTracks g.mediaType item.trackNumber).place item.id p.track
              p.time).place g.id q2.track q2.time
            else v.addMissingTracks g.mediaType item.trackNumber)) ∧
    (¬ (p.time = time ∧ p.track = clampTrack v item.mediaType track) →
      ¬ (p2.time = time ∧ p2.track = clampTrack v item.mediaType track) →
      moveMediaItem isValid v itemId track time =
        some (v.addMissingTracks g.mediaType item.trackNumber)) := by
  obtain ⟨p0, r, hp0, hr, hm⟩ :=
    moveMediaItem_linked isValid v itemId gid track time item g hitem hgrp hg hwf
  rw [hp] at hp0
  cases hp0
  unfold linkedResolve at hr
  rw [hp2] at hr
  simp only [hdis, if_false] at hr
  refine ⟨fun hmatch => ?_, fun hno hmatch2 => ?_, fun hno hno2 => ?_⟩
  · rw [if_pos hmatch] at hr
    cases hq : findPosition (v.addMissingTracks g.mediaType item.trackNumber) item
        p2.track p2.time with
    | none => rw [hq] at hr; simp at hr
    | some q =>
      rw [hq] at hr
      cases hr
      refine ⟨q, rfl, ?_⟩
      rw [hm]
      by_cases hc : q.time = p2.time ∧ q.track = p2.track
      · simp [hc]
      · simp [hc]
  · rw [if_neg hno, if_pos hmatch2] at hr
    cases hq : findPosition (v.addMissingTracks g.mediaType item.trackNumber) g
        p.track p.time with
    | none => rw [hq] at hr; simp at hr
    | some q2 =>
      rw [hq] at hr
      cases hr
      refine ⟨q2, rfl, ?_⟩
      rw [hm]
      by_cases hc : p.time = q2.time ∧ p.track = q2.track
      · simp [hc]
      · simp [hc]
  · rw [if_neg hno, if_neg hno2] at hr
    cases hr
    rw [hm]
    simp

/-- Witness of `linked_retry_resolves_matching_clip` on `sceneLinkedPair`: the
first placement of item 1 matches the request `(0, 60)`, the one of item 2 is
`(0, 100)`, and the second pass of item 1 is accepted. -/
theorem linked_retry_resolves_matching_clip_witness :
    sceneLinkedPair.item 1 = some ⟨1, TrackType.VideoTrack, 0, 500, 50, some 2⟩ ∧
    sceneLinkedPair.item 2 = some ⟨2, TrackType.AudioTrack, 0, 500, 50, some 1⟩ ∧
    linkedTracksExist sceneLinkedPair ⟨1, TrackType.VideoTrack, 0, 500, 50, some 2⟩
      ⟨2, TrackType.AudioTrack, 0, 500, 50, some 1⟩ 0 ∧
    ∃ q, findPosition (sceneLinkedPair.addMissingTracks TrackType.AudioTrack 0)
        ⟨1, TrackType.VideoTrack, 0, 500, 50, some 2⟩ 0 100 = some q ∧
      moveMediaItem (fun _ => true) sceneLinkedPair 1 0 60 =
        some (if q.time = 100 ∧ q.track = 0 then
          ((sceneLinkedPair.addMissingTracks TrackType.AudioTrack 0).place 1 q.track
            q.time).place 2 0 100
          else sceneLinkedPair.addMissingTracks TrackType.AudioTrack 0) :=
  ⟨by decide, by decide, by decide,
    (linked_retry_resolves_matching_clip (fun _ => true) sceneLinkedPair 1 2 0 60
      ⟨1, TrackType.VideoTrack, 0, 500, 50, some 2⟩
      ⟨2, TrackType.AudioTrack, 0, 500, 50, some 1⟩ ⟨0, 60⟩ ⟨0, 100⟩
      (by decide) rfl (by decide) (by decide)
      (by decide) (by decide) (by decide)).1 (by decide)⟩

/-- C5: the placement example. With clip A (100 frames) at frame 0 of track 0
as the only placed clip, `findPosition` for the new clip B (50 frames, parented
to track 0 at any frame `s`) requested at `(track 0, 60)` returns a placement
that is `(track 0, 100)` or `(track 1, 60)` and does not overlap A; the code
always takes the first of the two. -/
theorem placement_example (nv na : Nat) (s : Int) (g : Option Nat) (bFirst : Bool)
    (hnv : 0 < nv) :
    ∃ p, findPosition (scenePlacementExample nv na s g bFirst)
        ⟨2, TrackType.VideoTrack, 0, s, 50, g⟩ 0 60 = some p ∧
      (p = ⟨0, 100⟩ ∨ p = ⟨1, 60⟩) ∧
      ¬ (p.track = 0 ∧ intersects p.time 50 0 100 = true) ∧
      p = ⟨0, 100⟩ := by
  refine ⟨⟨0, 100⟩, ?_, Or.inl rfl, by decide, rfl⟩
  have hA1 : intersects 60 50 0 100 = true := by decide
  have hA2 : intersects 100 50 0 100 = false := by decide
  have hm : max (60 : Int) 0 = 60 := by decide
  have hq1 : toQreal 60 = 60 := by decide
  have hq2 : toQreal (0 + 100) = 100 := by decide
  have hq3 : toQreal 100 = 100 := by decide
  cases bFirst <;>
  rcases Bool.eq_false_or_eq_true (intersects 60 50 s 50) with hs | hs <;>
  rcases Bool.eq_false_or_eq_true (intersects 100 50 s 50) with hs2 | hs2 <;>
  simp [findPosition, TracksView.hasTrack, TracksView.numTrack, hnv, verticalWhile,
    verticalFor, TracksView.collidingItems, hm, scenePlacementExample, horizontalSearch,
    List.filter, hs, hs2, hA1, hA2, hq1, hq2, hq3]

/-- Witness of `placement_example`: one video track, B freshly created at
frame 0. -/
theorem placement_example_witness :
    0 < 1 ∧
    ∃ p, findPosition (scenePlacementExample 1 1 0 none false)
        ⟨2, TrackType.VideoTrack, 0, 0, 50, none⟩ 0 60 = some p ∧
      (p = ⟨0, 100⟩ ∨ p = ⟨1, 60⟩) ∧
      ¬ (p.track = 0 ∧ intersects p.time 50 0 100 = true) ∧
      p = ⟨0, 100⟩ :=
  ⟨by decide, placement_example 1 1 0 none false (by decide)⟩

/-- The unlinked branch of `moveMediaItem` on a scene with at least one track of
the item's type: the resolution returns, and a valid placement `p` puts the item
at `p.time` on the clamped requested track. -/
theorem moveMediaItem_unlinked (isValid : ItemPosition → Bool) (v : TracksView)
    (itemId track : Nat) (time : Int) (item : MediaItem)
    (hitem : v.item itemId = some item) (hgrp : item.groupItem = none)
    (ht : 0 < v.numTrack item.mediaType) :
    ∃ p, findPosition v item (clampTrack v item.mediaType track) time = some p ∧
      moveMediaItem isValid v itemId track time =
        some (if isValid p then v.place item.id (clampTrack v item.mediaType track) p.time
          else v) := by
  have hcl := clampTrack_lt v item.mediaType track ht
  obtain ⟨p, hp, _⟩ := findPosition_isSome v item (clampTrack v item.mediaType track) time hcl
  refine ⟨p, hp, ?_⟩
  unfold moveMediaItem
  rw [hitem]
  simp only
  rw [hp]
  simp only
  rw [hgrp]
  simp only
  have e : v.hasTrack item.mediaType (clampTrack v item.mediaType track) = true := by
    unfold TracksView.hasTrack
    simpa using hcl
  by_cases hv : isValid p = true
  · rw [if_pos hv, if_pos hv, if_pos e]
  · rw [if_neg hv, if_neg hv]

/-- C6 (code defect): on `sceneTwoClips` the move of the unlinked clip 2 to
`(track 1, 60)` is resolved by `findPosition` to the valid placement
`p = (track 0, 60)`, yet after `moveMediaItem` the item is on track 1, not on
`p.track()`: the unlinked branch applies the requested track instead of the
resolved one. -/
theorem unlinked_move_ignores_resolved_track (isValid : ItemPosition → Bool)
    (hvalid : isValid ⟨0, 60⟩ = true) :
    findPosition sceneTwoClips ⟨2, TrackType.VideoTrack, 0, 200, 50, none⟩
        (clampTrack sceneTwoClips TrackType.VideoTrack 1) 60 = some ⟨0, 60⟩ ∧
      ∃ v i, moveMediaItem isValid sceneTwoClips 2 1 60 = some v ∧ v.item 2 = some i ∧
        i.trackNumber = 1 ∧ i.startPos = 60 := by
  have hp : findPosition sceneTwoClips ⟨2, TrackType.VideoTrack, 0, 200, 50, none⟩
      (clampTrack sceneTwoClips TrackType.VideoTrack 1) 60 = some ⟨0, 60⟩ := by decide
  obtain ⟨p, hp1, hm⟩ := moveMediaItem_unlinked isValid sceneTwoClips 2 1 60
    ⟨2, TrackType.VideoTrack, 0, 200, 50, none⟩ (by decide) rfl (by decide)
  rw [hp] at hp1
  cases hp1
  rw [hvalid] at hm
  exact ⟨hp, _, ⟨2, TrackType.VideoTrack, 1, 60, 50, none⟩, hm, by decide, rfl, rfl⟩

/-- Witness of `unlinked_move_ignores_resolved_track` with a validity test that
accepts every placement with a non-negative time. -/
theorem unlinked_move_ignores_resolved_track_witness :
    (fun p : ItemPosition => decide (0 ≤ p.time)) ⟨0, 60⟩ = true ∧
    (findPosition sceneTwoClips ⟨2, TrackType.VideoTrack, 0, 200, 50, none⟩
        (clampTrack sceneTwoClips TrackType.VideoTrack 1) 60 = some ⟨0, 60⟩ ∧
      ∃ v i, moveMediaItem (fun p => decide (0 ≤ p.time)) sceneTwoClips 2 1 60 = some v ∧
        v.item 2 = some i ∧ i.trackNumber = 1 ∧ i.startPos = 60) :=
  ⟨by decide, unlinked_move_ignores_resolved_track (fun p => decide (0 ≤ p.time)) (by decide)⟩

/-! ## Workflow coordinator -/

theorem heapGet_uuid {heap : List Clip} {u : Nat} {c : Clip} (h : heapGet heap u = some c) :
    c.m_Uuid = u := by
  unfold heapGet at h
  have := List.find?_some h
  simpa using this

theorem heapGet_heapUpdate (heap : List Clip) (u : Nat) (f : Clip → Clip)
    (hf : ∀ c, (f c).m_Uuid = c.m_Uuid) (j : Nat) :
    heapGet (heapUpdate heap u f) j =
      (heapGet heap j).map (fun c => if c.m_Uuid == u then f c else c) := by
  unfold heapGet heapUpdate
  induction heap with
  | nil => rfl
  | cons a l ih =>
    simp only [List.map_cons, List.find?_cons]
    have e : (if (a.m_Uuid == u) = true then f a else a).m_Uuid = a.m_Uuid := by
      split
      · exact hf a
      · rfl
    by_cases ha : a.m_Uuid == j
    · simp only [e, ha, Option.map_some']
    · simp only [e, ha]
      exact ih

theorem heapGet_append (heap : List Clip) (c : Clip) (j : Nat) :
    heapGet (heap ++ [c]) j =
      match heapGet heap j with
      | some x => some x
      | none => if c.m_Uuid == j then some c else none := by
  unfold heapGet
  rw [List.find?_append]
  cases h : List.find? (fun c => c.m_Uuid == j) heap with
  | some x => rfl
  | none =>
    simp only [Option.none_or, List.find?_cons, List.find?_nil]
    cases hc : c.m_Uuid == j <;> simp

theorem computeLength_heap (w : MainWorkflow) : w.computeLength.heap = w.heap := by
  unfold MainWorkflow.computeLength MainWorkflow.emit
  simp only
  split_ifs <;> rfl

theorem computeLength_tracks (w : MainWorkflow) : w.computeLength.m_tracks = w.m_tracks := by
  unfold MainWorkflow.computeLength MainWorkflow.emit
  simp only
  split_ifs <;> rfl

theorem computeLength_currentFrame (w : MainWorkflow) :
    w.computeLength.m_currentFrame = w.m_currentFrame := by
  unfold MainWorkflow.computeLength MainWorkflow.emit
  simp only
  split_ifs <;> rfl

theorem addClip_heap (w : MainWorkflow) (clip trackId : Nat) (start : Int) (ty : TrackType) :
    (w.addClip clip trackId start ty).heap = w.heap := by
  unfold MainWorkflow.addClip MainWorkflow.emit
  simp only
  rw [computeLength_heap]

/-- What `split` with no pre-built clip does to the heap, for a clip `c` at
`toSplit` and an identity `fresh` not in use. -/
theorem split_heap (w : MainWorkflow) (toSplit trackId : Nat) (newClipPos newClipBegin : Int)
    (trackType : TrackType) (fresh : Nat) (c : Clip)
    (hc : heapGet w.heap toSplit = some c) (hfresh : heapGet w.heap fresh = none) :
    ∃ w1, w.split toSplit none trackId newClipPos newClipBegin trackType fresh
        = some (w1, fresh) ∧
      heapGet w1.heap toSplit = some (c.setEnd newClipBegin true) ∧
      heapGet w1.heap fresh = some (Clip.fromCreator fresh c newClipBegin c.m_end) := by
  have hne : toSplit ≠ fresh := by
    intro h; rw [h, hfresh] at hc; cases hc
  have hu := heapGet_uuid hc
  unfold MainWorkflow.split
  rw [hc]
  simp only
  refine ⟨_, rfl, ?_, ?_⟩
  · rw [addClip_heap]
    simp only
    rw [heapGet_heapUpdate _ _ (fun c => c.setEnd newClipBegin true) (fun _ => rfl),
      heapGet_append, hc]
    simp [hu]
  · rw [addClip_heap]
    simp only
    rw [heapGet_heapUpdate _ _ (fun c => c.setEnd newClipBegin true) (fun _ => rfl),
      heapGet_append, hfresh]
    simp [Clip.fromCreator, Ne.symm hne]

/-- C8: for a clip with range `[b, e)` and a split point `p` with `b < p < e`,
`split` with no pre-built clip returns; the original then has range `[b, p)`,
the returned new clip has range `[p, e)`; the two ranges are contiguous, both
have `begin < end`, and a frame lies in `[b, e)` exactly when it lies in one of
the two. -/
theorem split_ranges (w : MainWorkflow) (toSplit trackId : Nat) (newClipPos p : Int)
    (trackType : TrackType) (fresh : Nat) (c : Clip)
    (hc : heapGet w.heap toSplit = some c) (hfresh : heapGet w.heap fresh = none)
    (hbp : c.m_begin < p) (hpe : p < c.m_end) :
    ∃ w1 n c1 c2, w.split toSplit none trackId newClipPos p trackType fresh = some (w1, n) ∧
      heapGet w1.heap toSplit = some c1 ∧ heapGet w1.heap n = some c2 ∧
      c1.m_begin = c.m_begin ∧ c1.m_end = p ∧ c2.m_begin = p ∧ c2.m_end = c.m_end ∧
      c1.m_end = c2.m_begin ∧ c1.m_begin < c1.m_end ∧ c2.m_begin < c2.m_end ∧
      ∀ f : Int, (c.m_begin ≤ f ∧ f < c.m_end) ↔
        ((c1.m_begin ≤ f ∧ f < c1.m_end) ∨ (c2.m_begin ≤ f ∧ f < c2.m_end)) := by
  obtain ⟨w1, h1, h2, h3⟩ :=
    split_heap w toSplit trackId newClipPos p trackType fresh c hc hfresh
  refine ⟨w1, fresh, _, _, h1, h2, h3, rfl, rfl, rfl, rfl, rfl, hbp, hpe, ?_⟩
  intro f
  simp only [Clip.setEnd, Clip.fromCreator]
  omega

/-- Witness of `split_ranges`: the clip of `workflowOneClip`, range `[10, 110)`,
split at 50. -/
theorem split_ranges_witness :
    heapGet workflowOneClip.heap 7 = some ⟨7, 1, 10, 110, 10, 110⟩ ∧
    heapGet workflowOneClip.heap 8 = none ∧
    ∃ w1 n c1 c2, workflowOneClip.split 7 none 0 40 50 TrackType.VideoTrack 8 = some (w1, n) ∧
      heapGet w1.heap 7 = some c1 ∧ heapGet w1.heap n = some c2 ∧
      c1.m_begin = 10 ∧ c1.m_end = 50 ∧ c2.m_begin = 50 ∧ c2.m_end = 110 ∧
      c1.m_end = c2.m_begin ∧ c1.m_begin < c1.m_end ∧ c2.m_begin < c2.m_end ∧
      ∀ f : Int, (10 ≤ f ∧ f < 110) ↔
        ((c1.m_begin ≤ f ∧ f < c1.m_end) ∨ (c2.m_begin ≤ f ∧ f < c2.m_end)) :=
  ⟨by decide, by decide,
    split_ranges workflowOneClip 7 0 40 50 TrackType.VideoTrack 8 ⟨7, 1, 10, 110, 10, 110⟩
      (by decide) (by decide) (by decide) (by decide)⟩

/-- The video counter and the signals after `n` calls of `nextFrame( VideoTrack )`. -/
theorem nextFrames_video (w : MainWorkflow) (n : Nat) :
    (w.nextFrames TrackType.VideoTrack n).m_currentFrame.video = w.m_currentFrame.video + n ∧
    (w.nextFrames TrackType.VideoTrack n).emitted =
      w.emitted ++ (List.range n).map (fun (i : Nat) =>
        Signal.frameChanged (w.m_currentFrame.video + ((i : Int) + 1))
          FrameChangedReason.Renderer) := by
  induction n with
  | zero => simp [MainWorkflow.nextFrames]
  | succ k ih =>
    obtain ⟨ih1, ih2⟩ := ih
    constructor
    · simp only [MainWorkflow.nextFrames, MainWorkflow.nextFrame, MainWorkflow.emit,
        PerType.get, PerType.set, if_true, ih1]
      push_cast
      ring
    · simp only [MainWorkflow.nextFrames, MainWorkflow.nextFrame, MainWorkflow.emit,
        PerType.get, PerType.set, if_true, ih1, ih2, List.range_succ, List.map_append,
        List.map_cons, List.map_nil, List.append_assoc]
      rw [add_assoc]

/-- C9: frame counter monotonicity. From a video counter of 0, `N` calls of
`nextFrame( VideoTrack )` leave `getCurrentFrame() == N`, and the calls emit
exactly `N` frame-changed notifications, carrying 1, 2, ..., N in that order. -/
theorem nextFrame_counts (w : MainWorkflow) (N : Nat)
    (h0 : w.m_currentFrame.get TrackType.VideoTrack = 0) :
    (w.nextFrames TrackType.VideoTrack N).getCurrentFrame = N ∧
    (w.nextFrames TrackType.VideoTrack N).emitted =
      w.emitted ++ (List.range N).map (fun (i : Nat) =>
        Signal.frameChanged ((i : Int) + 1) FrameChangedReason.Renderer) := by
  have h0' : w.m_currentFrame.video = 0 := h0
  obtain ⟨h1, h2⟩ := nextFrames_video w N
  constructor
  · show (w.nextFrames TrackType.VideoTrack N).m_currentFrame.video = N
    rw [h1, h0']; simp
  · rw [h2, h0']
    congr 1
    apply List.map_congr_left
    intro i _
    simp

/-- Witness of `nextFrame_counts`: three calls on a new workflow. -/
theorem nextFrame_counts_witness :
    (MainWorkflow.new []).m_currentFrame.get TrackType.VideoTrack = 0 ∧
    ((MainWorkflow.new []).nextFrames TrackType.VideoTrack 3).getCurrentFrame = (3 : Nat) ∧
    ((MainWorkflow.new []).nextFrames TrackType.VideoTrack 3).emitted =
      (MainWorkflow.new []).emitted ++ (List.range 3).map (fun (i : Nat) =>
        Signal.frameChanged ((i : Int) + 1) FrameChangedReason.Renderer) :=
  ⟨rfl, nextFrame_counts (MainWorkflow.new []) 3 rfl⟩

/-- C10: from every workflow state, `stop()` leaves the render-started flag
false and both per-type frame counters at 0, and emits exactly one signal, the
frame-changed notification with frame 0. -/
theorem stop_resets (w : MainWorkflow) :
    w.stop.m_renderStarted = false ∧
    w.stop.m_currentFrame.get TrackType.VideoTrack = 0 ∧
    w.stop.m_currentFrame.get TrackType.AudioTrack = 0 ∧
    w.stop.emitted = w.emitted ++ [Signal.frameChanged 0 FrameChangedReason.Renderer] :=
  ⟨rfl, rfl, rfl, rfl⟩

/-! ## Workflow coordinator: rendering, length and notifications -/

/-- What `computeLength` leaves: the length is the maximum of 0 and the lengths
of the two track sets, and `lengthChanged` is emitted exactly when that differs
from the length before. -/
theorem computeLength_spec (w : MainWorkflow) :
    w.computeLength.m_lengthFrame = w.tracksLength ∧
    w.computeLength.emitted =
      w.emitted ++ (if w.m_lengthFrame ≠ w.tracksLength then
        [Signal.lengthChanged w.tracksLength] else []) := by
  have e : (if (if (w.m_tracks.get TrackType.VideoTrack).getLength w.heap > 0 then
          (w.m_tracks.get TrackType.VideoTrack).getLength w.heap else 0) <
        (w.m_tracks.get TrackType.AudioTrack).getLength w.heap then
        (w.m_tracks.get TrackType.AudioTrack).getLength w.heap
      else (if (w.m_tracks.get TrackType.VideoTrack).getLength w.heap > 0 then
          (w.m_tracks.get TrackType.VideoTrack).getLength w.heap else 0)) = w.tracksLength := by
    unfold MainWorkflow.tracksLength
    split_ifs <;> omega
  unfold MainWorkflow.computeLength MainWorkflow.emit
  simp only [gt_iff_lt]
  rw [e]
  by_cases h : w.m_lengthFrame = w.tracksLength
  · rw [if_neg (not_not.mpr h), if_neg (not_not.mpr h)]
    exact ⟨h, (List.append_nil _).symm⟩
  · rw [if_pos h, if_pos h]
    exact ⟨rfl, rfl⟩

theorem computeLength_renderStarted (w : MainWorkflow) :
    w.computeLength.m_renderStarted = w.m_renderStarted ∧
    w.computeLength.m_width = w.m_width ∧ w.computeLength.m_height = w.m_height := by
  unfold MainWorkflow.computeLength MainWorkflow.emit
  simp only
  split_ifs <;> simp

/-- C11 (as stated, refuted): `startRender( 640, 480 )` on a workflow whose
counters are at frames 5 (video) and 7 (audio) leaves them at 5 and 7, not at
0. -/
theorem startRender_keeps_counters_example :
    (workflowAtFrame5.startRender RenderOutput.new 640 480).1.m_currentFrame = ⟨5, 7⟩ ∧
    ¬ ((workflowAtFrame5.startRender RenderOutput.new 640 480).1.m_currentFrame.get
        TrackType.VideoTrack = 0 ∧
      (workflowAtFrame5.startRender RenderOutput.new 640 480).1.m_currentFrame.get
        TrackType.AudioTrack = 0) := by
  decide

/-- C11 (amended): for every prior state, after `startRender( width, height )`
the render-started flag is true, the stored width and height equal the
arguments, the black frame is allocated for these dimensions, and both
per-track-type frame counters have the values they had before the call. -/
theorem startRender_sets_flag_and_size (w : MainWorkflow) (r : RenderOutput)
    (width height : Nat) :
    (w.startRender r width height).1.m_renderStarted = true ∧
    (w.startRender r width height).1.m_width = width ∧
    (w.startRender r width height).1.m_height = height ∧
    (w.startRender r width height).2.blackOutput = some (width, height) ∧
    (w.startRender r width height).1.m_currentFrame = w.m_currentFrame := by
  refine ⟨?_, ?_, ?_, rfl, ?_⟩
  · exact (computeLength_renderStarted _).1.trans rfl
  · exact (computeLength_renderStarted _).2.1.trans rfl
  · exact (computeLength_renderStarted _).2.2.trans rfl
  · exact (computeLength_currentFrame _).trans rfl

/-- The steps of `addClip`: the track set is asked to add the clip, the length is
recomputed, `clipAdded` is emitted. -/
theorem addClip_unfold (w : MainWorkflow) (clip trackId : Nat) (start : Int)
    (trackType : TrackType) :
    ∃ w1 : MainWorkflow, w1.m_lengthFrame = w.m_lengthFrame ∧ w1.emitted = w.emitted ∧
      w1.heap = w.heap ∧
      w1.m_tracks = w.m_tracks.set trackType
        ((w.m_tracks.get trackType).addClip w.heap clip trackId start) ∧
      w.addClip clip trackId start trackType =
        w1.computeLength.emit (Signal.clipAdded clip trackId start trackType) :=
  ⟨{ w with m_tracks := PerType.set w.m_tracks trackType (TrackHandler.addClip w.heap
      (w.m_tracks.get trackType) clip trackId start) }, rfl, rfl, rfl, rfl, rfl⟩

/-- C12: length recomputation. After `addClip`, `getLengthFrame()` is the maximum
of 0 and the lengths the video and audio track sets report, and the signals of
the call are one `lengthChanged` with that value exactly when it differs from
the previous length, followed by `clipAdded`. Example: with previous length 300,
adding a clip that ends at frame 500 gives length 500 and one `lengthChanged`. -/
theorem addClip_recomputes_length (w : MainWorkflow) (clip trackId : Nat) (start : Int)
    (trackType : TrackType) :
    (w.addClip clip trackId start trackType).getLengthFrame =
      (w.addClip clip trackId start trackType).tracksLength ∧
    (w.addClip clip trackId start trackType).emitted =
      w.emitted ++
        (if w.m_lengthFrame ≠ (w.addClip clip trackId start trackType).tracksLength then
          [Signal.lengthChanged (w.addClip clip trackId start trackType).tracksLength]
        else []) ++
        [Signal.clipAdded clip trackId start trackType] ∧
    workflowLength300.getLengthFrame = 300 ∧
    (workflowLength300.addClip 2 0 400 TrackType.VideoTrack).getLengthFrame = 500 ∧
    (workflowLength300.addClip 2 0 400 TrackType.VideoTrack).emitted =
      [Signal.lengthChanged 500, Signal.clipAdded 2 0 400 TrackType.VideoTrack] := by
  obtain ⟨w1, h1, h2, h3, h4, h5⟩ := addClip_unfold w clip trackId start trackType
  have ht : (w.addClip clip trackId start trackType).tracksLength = w1.tracksLength := by
    rw [h5]
    unfold MainWorkflow.tracksLength MainWorkflow.emit
    simp only [computeLength_heap, computeLength_tracks]
  refine ⟨?_, ?_, by decide, by decide, by decide⟩
  · rw [ht, h5]
    exact (computeLength_spec w1).1
  · rw [ht, h5]
    unfold MainWorkflow.emit
    simp only
    rw [(computeLength_spec w1).2, h1, h2]

/-- The steps of `removeClip` when the track set detaches a clip. -/
theorem removeClip_found (w : MainWorkflow) (uuid trackId : Nat) (trackType : TrackType)
    (c : Nat) (h : ((w.m_tracks.get trackType).removeClip uuid trackId).2 = some c) :
    ∃ w1 : MainWorkflow, w1.m_lengthFrame = w.m_lengthFrame ∧ w1.emitted = w.emitted ∧
      w1.heap = w.heap ∧
      w1.m_tracks = w.m_tracks.set trackType
        ((w.m_tracks.get trackType).removeClip uuid trackId).1 ∧
      w.removeClip uuid trackId trackType =
        (w1.computeLength.emit (Signal.clipRemoved c trackId trackType), some c) := by
  refine ⟨{ w with m_tracks := (PerType.set w.m_tracks trackType
    (TrackHandler.removeClip (w.m_tracks.get trackType) uuid trackId).1) }, rfl, rfl, rfl, rfl, ?_⟩
  unfold MainWorkflow.removeClip
  simp only [h]

/-- C18: `removeClip` returns exactly what the track set detached. When a clip
is returned, the track set is the one after the removal, the length is
recomputed from it, and the signals of the call are `lengthChanged` (only when
the length changed) followed by exactly one `clipRemoved`. When no clip is
found, `NULL` is returned, no signal is emitted and the length is unchanged. -/
theorem removeClip_returns_detached (w : MainWorkflow) (uuid trackId : Nat)
    (trackType : TrackType) :
    (w.removeClip uuid trackId trackType).2 =
      ((w.m_tracks.get trackType).removeClip uuid trackId).2 ∧
    (w.removeClip uuid trackId trackType).1.m_tracks =
      w.m_tracks.set trackType ((w.m_tracks.get trackType).removeClip uuid trackId).1 ∧
    (∀ c, (w.removeClip uuid trackId trackType).2 = some c →
      (w.removeClip uuid trackId trackType).1.getLengthFrame =
        (w.removeClip uuid trackId trackType).1.tracksLength ∧
      (w.removeClip uuid trackId trackType).1.emitted =
        w.emitted ++
          (if w.m_lengthFrame ≠ (w.removeClip uuid trackId trackType).1.tracksLength then
            [Signal.lengthChanged (w.removeClip uuid trackId trackType).1.tracksLength]
          else []) ++
          [Signal.clipRemoved c trackId trackType]) ∧
    ((w.removeClip uuid trackId trackType).2 = none →
      (w.removeClip uuid trackId trackType).1.emitted = w.emitted ∧
      (w.removeClip uuid trackId trackType).1.getLengthFrame = w.getLengthFrame) := by
  cases hd : ((w.m_tracks.get trackType).removeClip uuid trackId).2 with
  | none =>
    have e : w.removeClip uuid trackId trackType =
        ({ w with m_tracks := (PerType.set w.m_tracks trackType
          (TrackHandler.removeClip (w.m_tracks.get trackType) uuid trackId).1) }, none) := by
      unfold MainWorkflow.removeClip
      simp only [hd]
    rw [e]
    exact ⟨rfl, rfl, fun c hc => (by cases hc), fun _ => ⟨rfl, rfl⟩⟩
  | some c =>
    obtain ⟨w1, h1, h2, h3, h4, h5⟩ := removeClip_found w uuid trackId trackType c hd
    rw [h5]
    have ht : (w1.computeLength.emit (Signal.clipRemoved c trackId trackType)).tracksLength
        = w1.tracksLength := by
      unfold MainWorkflow.tracksLength MainWorkflow.emit
      simp only [computeLength_heap, computeLength_tracks]
    refine ⟨rfl, ?_, ?_, fun hn => (by cases hn)⟩
    · show (w1.computeLength).m_tracks = _
      rw [computeLength_tracks, h4]
    · intro c1 hc1
      cases hc1
      simp only
      rw [ht]
      refine ⟨(computeLength_spec w1).1, ?_⟩
      unfold MainWorkflow.emit
      simp only
      rw [(computeLength_spec w1).2, h1, h2]

/-- Witness of `removeClip_returns_detached`: removing the placed clip 1 of
`workflowLength300` returns it and emits `lengthChanged( 0 )` and `clipRemoved`;
removing clip 2, which is not placed, returns `NULL` and emits nothing. -/
theorem removeClip_returns_detached_witness :
    (workflowLength300.removeClip 1 0 TrackType.VideoTrack).2 = some 1 ∧
    (workflowLength300.removeClip 2 0 TrackType.VideoTrack).2 = none ∧
    (workflowLength300.removeClip 1 0 TrackType.VideoTrack).1.emitted =
      workflowLength300.emitted ++
        (if workflowLength300.m_lengthFrame ≠
            (workflowLength300.removeClip 1 0 TrackType.VideoTrack).1.tracksLength then
          [Signal.lengthChanged
            (workflowLength300.removeClip 1 0 TrackType.VideoTrack).1.tracksLength]
        else []) ++
        [Signal.clipRemoved 1 0 TrackType.VideoTrack] ∧
    (workflowLength300.removeClip 2 0 TrackType.VideoTrack).1.emitted
      = workflowLength300.emitted :=
  ⟨by decide, by decide,
    ((removeClip_returns_detached workflowLength300 1 0 TrackType.VideoTrack).2.2.1 1
      (by decide)).2,
    ((removeClip_returns_detached workflowLength300 2 0 TrackType.VideoTrack).2.2.2
      (by decide)).1⟩

/-- C19 (as stated, refuted): on `workflowLength300` the track set rejects clip
2 at frame 100 of video track 0, where it would collide with clip 1: the track
sets are unchanged by the add, and yet `addClip` emits `clipAdded`. -/
theorem addClip_notifies_rejected_add :
    (workflowLength300.addClip 2 0 100 TrackType.VideoTrack).m_tracks
      = workflowLength300.m_tracks ∧
    (workflowLength300.addClip 2 0 100 TrackType.VideoTrack).emitted
      = [Signal.clipAdded 2 0 100 TrackType.VideoTrack] ∧
    ¬ (∀ (w : MainWorkflow) (clip trackId : Nat) (start : Int) (trackType : TrackType),
        (w.addClip clip trackId start trackType).m_tracks = w.m_tracks →
        Signal.clipAdded clip trackId start trackType ∉
          (w.addClip clip trackId start trackType).emitted) := by
  refine ⟨by decide, by decide, ?_⟩
  intro h
  have := h workflowLength300 2 0 100 TrackType.VideoTrack (by decide)
  revert this
  decide

/-- C19 (amended): `addClip` emits `clipAdded` on every call, whether or not the
track set accepted the clip: the signals of the call are at most one
`lengthChanged` followed by exactly one `clipAdded`; the method returns
nothing, so no failure is reported to the caller. -/
theorem addClip_always_notifies (w : MainWorkflow) (clip trackId : Nat) (start : Int)
    (trackType : TrackType) :
    ∃ l, (w.addClip clip trackId start trackType).emitted =
        w.emitted ++ l ++ [Signal.clipAdded clip trackId start trackType] ∧
      (l = [] ∨ ∃ n, l = [Signal.lengthChanged n]) := by
  obtain ⟨w1, _, h2, _, _, h5⟩ := addClip_unfold w clip trackId start trackType
  rw [h5]
  unfold MainWorkflow.emit
  simp only
  rw [(computeLength_spec w1).2, h2]
  by_cases h : w1.m_lengthFrame ≠ w1.tracksLength
  · exact ⟨_, rfl, by rw [if_pos h]; exact Or.inr ⟨_, rfl⟩⟩
  · exact ⟨_, rfl, by rw [if_neg h]; exact Or.inl rfl⟩

/-- C20: `getOutput( VideoTrack, paused )`. When rendering has not been started
the output buffers come back unchanged and no track set is queried. When it has
been started, the video track set is queried once with the current frame, the
video output is the pre-allocated black frame if and only if the composed frame
of the effects engine has zero bytes, and it is the composed frame otherwise. -/
theorem getOutput_video (w : MainWorkflow) (r : RenderOutput) (paused : Bool)
    (tmpNboctets tmpAudioBuffer : Nat) :
    (w.m_renderStarted = false →
      w.getOutput r TrackType.VideoTrack paused tmpNboctets tmpAudioBuffer = r) ∧
    (w.m_renderStarted = true →
      ((w.getOutput r TrackType.VideoTrack paused tmpNboctets tmpAudioBuffer).m_outputBuffers.video
          = r.blackPointer ↔ tmpNboctets = 0) ∧
      (tmpNboctets ≠ 0 →
        (w.getOutput r TrackType.VideoTrack paused tmpNboctets
          tmpAudioBuffer).m_outputBuffers.video = VideoOutput.composed tmpNboctets) ∧
      (w.getOutput r TrackType.VideoTrack paused tmpNboctets tmpAudioBuffer).queried =
        r.queried ++ [⟨TrackType.VideoTrack, w.getCurrentFrame, w.getCurrentFrame, paused⟩] ∧
      (w.getOutput r TrackType.VideoTrack paused tmpNboctets tmpAudioBuffer).m_outputBuffers.audio
        = r.m_outputBuffers.audio) := by
  constructor
  · intro h
    unfold MainWorkflow.getOutput
    simp [h]
  · intro h
    by_cases h0 : tmpNboctets = 0
    · subst h0
      simp [MainWorkflow.getOutput, h, MainWorkflow.getCurrentFrame, RenderOutput.blackPointer]
    · have hb : VideoOutput.composed tmpNboctets ≠ r.blackPointer := by
        unfold RenderOutput.blackPointer
        split <;> simp
      simp [MainWorkflow.getOutput, h, h0, MainWorkflow.getCurrentFrame, hb]

/-- Witness of `getOutput_video`: before `startRender` the buffers are returned
as they are; after `startRender( 640, 480 )` an empty composed frame gives the
black frame of 640 x 480. -/
theorem getOutput_video_witness :
    workflowLength300.m_renderStarted = false ∧
    workflowLength300.getOutput RenderOutput.new TrackType.VideoTrack false 0 0
      = RenderOutput.new ∧
    (workflowLength300.startRender RenderOutput.new 640 480).1.m_renderStarted = true ∧
    (((workflowLength300.startRender RenderOutput.new 640 480).1.getOutput
        (workflowLength300.startRender RenderOutput.new 640 480).2
        TrackType.VideoTrack false 0 0).m_outputBuffers.video
      = (workflowLength300.startRender RenderOutput.new 640 480).2.blackPointer ↔ 0 = 0) ∧
    (workflowLength300.startRender RenderOutput.new 640 480).2.blackPointer
      = VideoOutput.blackOutput 640 480 :=
  ⟨by decide,
    (getOutput_video workflowLength300 RenderOutput.new false 0 0).1 (by decide),
    by decide,
    ((getOutput_video (workflowLength300.startRender RenderOutput.new 640 480).1
      (workflowLength300.startRender RenderOutput.new 640 480).2 false 0 0).2 (by decide)).1,
    by decide⟩

/-! ## Track growth and compaction -/

theorem childs_length_zero (v : TracksView) (type : TrackType) (m : Nat) :
    (v.childs type m).length = 0 ↔ v.trackEmpty type m := by
  unfold TracksView.trackEmpty
  exact List.length_eq_zero

/-- What the loop of `cleanTracks` counts from an existing track `i` downwards:
the `j` topmost tracks from `i` on are empty, and the next one, if it is not
track 0, holds an item. -/
theorem cleanTracksScan_spec (v : TracksView) (type : TrackType) :
    ∀ (i : Nat), i < v.numTrack type → ∀ r, ∃ j, j ≤ i ∧
      cleanTracksScan v type i r = r + j ∧
      (∀ m, i - j < m → m ≤ i → v.trackEmpty type m) ∧
      (j < i → ¬ v.trackEmpty type (i - j)) := by
  intro i
  induction i with
  | zero =>
    intro _ r
    exact ⟨0, le_refl _, rfl, fun m h1 h2 => by omega, fun h => by omega⟩
  | succ i ih =>
    intro hi r
    have hex : v.hasTrack type (i + 1) = true := by
      unfold TracksView.hasTrack; simpa using hi
    unfold cleanTracksScan
    rw [if_pos hex]
    by_cases he : (v.childs type (i + 1)).length = 0
    · rw [if_pos he]
      obtain ⟨j, hj, hs, hem, hmax⟩ := ih (by omega) (r + 1)
      refine ⟨j + 1, by omega, by rw [hs]; omega, ?_, ?_⟩
      · intro m h1 h2
        by_cases hm : m = i + 1
        · rw [hm]; exact (childs_length_zero v type (i + 1)).mp he
        · exact hem m (by omega) (by omega)
      · intro hlt
        have : i + 1 - (j + 1) = i - j := by omega
        rw [this]
        exact hmax (by omega)
    · rw [if_neg he]
      refine ⟨0, by omega, rfl, fun m h1 h2 => by omega, fun _ => ?_⟩
      intro hc
      exact he ((childs_length_zero v type (i + 1)).mpr hc)

/-- The number `k` of tracks that `cleanTracks` counts: at most `count - 1`;
the `k` topmost tracks are empty; the track below them, if it is not track 0,
holds an item. -/
theorem cleanTracksScan_top (v : TracksView) (type : TrackType) :
    ∃ k, cleanTracksScan v type (v.numTrack type) 0 = k ∧ k + 1 ≤ max 1 (v.numTrack type) ∧
      (∀ m, m + k + 1 > v.numTrack type → m < v.numTrack type → v.trackEmpty type m) ∧
      (k + 1 < v.numTrack type → ¬ v.trackEmpty type (v.numTrack type - 1 - k)) := by
  cases hn : v.numTrack type with
  | zero =>
    exact ⟨0, rfl, by simp, fun m _ h2 => by omega, fun h => by omega⟩
  | succ n =>
    have hex : v.hasTrack type (n + 1) = false := by
      unfold TracksView.hasTrack; simp [hn]
    obtain ⟨j, hj, hs, hem, hmax⟩ := cleanTracksScan_spec v type n (by omega) 0
    refine ⟨j, ?_, ?_, ?_, ?_⟩
    · unfold cleanTracksScan
      rw [hex]
      simp only [Bool.false_eq_true, if_false]
      rw [hs]; omega
    · simp only [ge_iff_le, le_add_iff_nonneg_left, zero_le, max_eq_right]
      omega
    · intro m h1 h2
      exact hem m (by omega) (by omega)
    · intro h
      have : n + 1 - 1 - j = n - j := by omega
      rw [this]
      exact hmax (by omega)

theorem trackEmpty_of_items {v w : TracksView} (h : w.items = v.items) (type : TrackType)
    (m : Nat) : w.trackEmpty type m ↔ v.trackEmpty type m := by
  unfold TracksView.trackEmpty TracksView.childs
  rw [h]

theorem trackEmpty_iff (v : TracksView) (type : TrackType) (m : Nat) :
    v.trackEmpty type m ↔ ∀ c ∈ v.items, ¬ (c.mediaType = type ∧ c.trackNumber = m) := by
  unfold TracksView.trackEmpty TracksView.childs
  rw [List.filter_eq_nil_iff]
  constructor
  · intro h c hc hq
    exact h c hc (by simp [hq.1, hq.2])
  · intro h c hc hq
    simp only [Bool.and_eq_true, beq_iff_eq] at hq
    exact h c hc hq

/-- Removing the topmost track of a type when it is empty: the count of that type
drops by one, nothing else changes. -/
theorem removeTrack_empty (v : TracksView) (type : TrackType)
    (hn : 0 < v.numTrack type) (he : v.trackEmpty type (v.numTrack type - 1)) :
    ∃ v1, (if type = TrackType.VideoTrack then v.removeVideoTrack else v.removeAudioTrack)
        = some v1 ∧
      v1.items = v.items ∧ v1.numTrack type = v.numTrack type - 1 ∧
      ∀ ty, ty ≠ type → v1.numTrack ty = v.numTrack ty := by
  have hf : v.items.filter (fun c =>
      !(c.mediaType == type && c.trackNumber == v.numTrack type - 1)) = v.items := by
    rw [List.filter_eq_self]
    intro c hc
    have := (trackEmpty_iff v type _).mp he c hc
    simp only [Bool.not_eq_true', Bool.and_eq_false_iff, beq_eq_false_iff_ne, ne_eq]
    tauto
  cases type with
  | VideoTrack =>
    simp only [TracksView.numTrack] at hn hf
    refine ⟨{ v with m_numVideoTrack := v.m_numVideoTrack - 1 }, ?_, rfl, rfl, ?_⟩
    · simp only [if_true]
      unfold TracksView.removeVideoTrack
      rw [if_pos hn, hf]
    · intro ty hty
      cases ty with
      | VideoTrack => exact absurd rfl hty
      | AudioTrack => rfl
  | AudioTrack =>
    simp only [TracksView.numTrack] at hn hf
    refine ⟨{ v with m_numAudioTrack := v.m_numAudioTrack - 1 }, ?_, rfl, rfl, ?_⟩
    · have hne : ¬ (TrackType.AudioTrack = TrackType.VideoTrack) := by decide
      rw [if_neg hne]
      unfold TracksView.removeAudioTrack
      rw [if_pos hn, hf]
    · intro ty hty
      cases ty with
      | VideoTrack => rfl
      | AudioTrack => exact absurd rfl hty

/-- The removal loop of `cleanTracks` when the `k` topmost tracks are empty and
`k` is less than the count: `k - 1` tracks go, the items stay. -/
theorem cleanTracksRemove_spec (type : TrackType) :
    ∀ (k : Nat) (v : TracksView), k + 1 ≤ max 1 (v.numTrack type) →
      (∀ m, m + k + 1 > v.numTrack type → m < v.numTrack type → v.trackEmpty type m) →
      ∃ v1, cleanTracksRemove type k v = some v1 ∧ v1.items = v.items ∧
        v1.numTrack type = v.numTrack type - (k - 1) ∧
        ∀ ty, ty ≠ type → v1.numTrack ty = v.numTrack ty := by
  intro k
  induction k with
  | zero =>
    intro v _ _
    exact ⟨v, rfl, rfl, rfl, fun _ _ => rfl⟩
  | succ k ih =>
    intro v hk hem
    cases k with
    | zero => exact ⟨v, rfl, rfl, rfl, fun _ _ => rfl⟩
    | succ k =>
      have hn : k + 3 ≤ v.numTrack type := by
        rcases le_max_iff.mp hk with h | h <;> omega
      obtain ⟨v1, h1, h2, h3, h4⟩ := removeTrack_empty v type (by omega)
        (hem _ (by omega) (by omega))
      obtain ⟨v2, g1, g2, g3, g4⟩ := ih v1
        (by rw [h3]; exact le_trans (by omega) (le_max_right _ _))
        (fun m hm1 hm2 => (trackEmpty_of_items h2 type m).mpr
          (hem m (by rw [h3] at hm1; omega) (by rw [h3] at hm2; omega)))
      refine ⟨v2, ?_, g2.trans h2, ?_, fun ty hty => (g4 ty hty).trans (h4 ty hty)⟩
      · unfold cleanTracksRemove
        rw [h1]
        exact g1
      · rw [g3, h3]
        omega

/-- What `cleanTracks( type )` does: it returns; with `k` the number of tracks
its loop counted, `k - 1` tracks of the type are removed from the top, all of
them empty, and nothing else changes. -/
theorem cleanTracks_spec (v : TracksView) (type : TrackType) :
    ∃ v1 k, v.cleanTracks type = some v1 ∧ v1.items = v.items ∧
      (∀ ty, ty ≠ type → v1.numTrack ty = v.numTrack ty) ∧
      cleanTracksScan v type (v.numTrack type) 0 = k ∧
      v1.numTrack type = v.numTrack type - (k - 1) ∧
      k + 1 ≤ max 1 (v.numTrack type) ∧
      (∀ m, m + k + 1 > v.numTrack type → m < v.numTrack type → v.trackEmpty type m) ∧
      (k + 1 < v.numTrack type → ¬ v.trackEmpty type (v.numTrack type - 1 - k)) := by
  obtain ⟨k, hk, hle, hem, hmax⟩ := cleanTracksScan_top v type
  obtain ⟨v1, h1, h2, h3, h4⟩ := cleanTracksRemove_spec type k v hle hem
  refine ⟨v1, k, ?_, h2, h4, hk, h3, hle, hem, hmax⟩
  unfold TracksView.cleanTracks
  have : (if type = TrackType.VideoTrack then v.m_numVideoTrack else v.m_numAudioTrack)
      = v.numTrack type := by
    cases type <;> rfl
  simp only [this, hk]
  exact h1

theorem cleanTracks_compacted (v : TracksView) (type : TrackType) :
    ∃ v1, v.cleanTracks type = some v1 ∧ v1.items = v.items ∧
      (∀ ty, ty ≠ type → v1.numTrack ty = v.numTrack ty) ∧ compacted v v1 type := by
  obtain ⟨v1, k, h1, h2, h3, _, h5, h6, h7, h8⟩ := cleanTracks_spec v type
  exact ⟨v1, h1, h2, h3, k, h5, h6, h7, h8⟩

/-- What `cleanUnusedTracks()` does: it returns, the items stay, and the tracks of
each type are compacted. -/
theorem cleanUnusedTracks_spec (v : TracksView) :
    ∃ v1, v.cleanUnusedTracks = some v1 ∧ v1.items = v.items ∧
      ∀ ty, compacted v v1 ty := by
  obtain ⟨v4, h1, h2, h3, h4⟩ := cleanTracks_compacted v TrackType.VideoTrack
  obtain ⟨v5, g1, g2, g3, g4⟩ := cleanTracks_compacted v4 TrackType.AudioTrack
  refine ⟨v5, ?_, g2.trans h2, ?_⟩
  · unfold TracksView.cleanUnusedTracks
    rw [h1]
    exact g1
  · intro ty
    cases ty with
    | VideoTrack =>
      obtain ⟨k, e1, e2, e3, e4⟩ := h4
      exact ⟨k, by rw [g3 _ (by decide)]; exact e1, e2, e3, e4⟩
    | AudioTrack =>
      obtain ⟨k, e1, e2, e3, e4⟩ := g4
      have hc : v4.numTrack TrackType.AudioTrack = v.numTrack TrackType.AudioTrack :=
        h3 _ (by decide)
      rw [hc] at e1 e2 e3 e4
      exact ⟨k, e1, e2,
        fun m a b => (trackEmpty_of_items h2 _ m).mp (e3 m a b),
        fun a hc2 => e4 a ((trackEmpty_of_items h2 _ _).mpr hc2)⟩

/-- The compaction pass keeps the track-set invariant. -/
theorem compacted_invariant {v v1 : TracksView} {ty : TrackType}
    (hitems : v1.items = v.items) (hc : compacted v v1 ty) (hinv : trackSetInvariant v ty) :
    trackSetInvariant v1 ty := by
  obtain ⟨k, e1, e2, e3, _⟩ := hc
  obtain ⟨hn, htop⟩ := hinv
  have hk : k + 1 ≤ v.numTrack ty := by
    rcases le_max_iff.mp e2 with h | h <;> omega
  refine ⟨by omega, ?_⟩
  by_cases hk1 : k ≤ 1
  · have : v1.numTrack ty = v.numTrack ty := by omega
    rw [this]
    rcases htop with h | h
    · exact Or.inl h
    · exact Or.inr ((trackEmpty_of_items hitems ty _).mpr h)
  · right
    have : v1.numTrack ty - 1 = v.numTrack ty - k := by omega
    rw [this]
    exact (trackEmpty_of_items hitems ty _).mpr (e3 _ (by omega) (by omega))

/-- The compaction pass removes no track that holds an item. -/
theorem compacted_keeps_occupied {v v1 : TracksView} {ty : TrackType}
    (hc : compacted v v1 ty) (m : Nat) (hm : m < v.numTrack ty)
    (hocc : ¬ v.trackEmpty ty m) : m < v1.numTrack ty := by
  obtain ⟨k, e1, e2, e3, _⟩ := hc
  by_contra hlt
  exact hocc (e3 m (by omega) hm)

/-- The compaction pass keeps every item on an existing track. -/
theorem compacted_itemsOnTracks {v v1 : TracksView} (hitems : v1.items = v.items)
    (hc : ∀ ty, compacted v v1 ty) (h : itemsOnTracks v) : itemsOnTracks v1 := by
  intro c hcm
  rw [hitems] at hcm
  apply compacted_keeps_occupied (hc c.mediaType) c.trackNumber (h c hcm)
  intro he
  exact (trackEmpty_iff v _ _).mp he c hcm ⟨rfl, rfl⟩

/-- C14 (as stated, refuted): on `sceneEmptyTracks` every video track is empty,
and `cleanTracks( VideoTrack )` leaves two video tracks, both empty, not the
single mandatory track: track 0 is never looked at. -/
theorem cleanTracks_keeps_two_empty_tracks :
    (∀ m, m < sceneEmptyTracks.numTrack TrackType.VideoTrack →
      sceneEmptyTracks.trackEmpty TrackType.VideoTrack m) ∧
    sceneEmptyTracks.cleanTracks TrackType.VideoTrack
      = some { m_numVideoTrack := 2, m_numAudioTrack := 1, items := [] } ∧
    ¬ ((sceneEmptyTracks.cleanTracks TrackType.VideoTrack).map
        (fun v => v.numTrack TrackType.VideoTrack) = some 1) := by
  refine ⟨fun m _ => rfl, by decide, by decide⟩

/-- C14 (amended): `cleanTracks( type )` returns and keeps the items and the
tracks of the other type. It deletes tracks of `type` from the top only, all of
them empty, never the last remaining track, and when it deletes one the topmost
track it keeps is empty. Afterwards the two topmost tracks are not both empty as
soon as three tracks are left: the trailing empty tracks above track 0 are cut
down to one. Track 0 is never looked at: when every track is empty and there are
at least two, two tracks are kept. -/
theorem cleanTracks_compacts (v : TracksView) (type : TrackType) :
    ∃ v1, v.cleanTracks type = some v1 ∧ v1.items = v.items ∧
      (∀ ty, ty ≠ type → v1.numTrack ty = v.numTrack ty) ∧
      v1.numTrack type ≤ v.numTrack type ∧
      (0 < v.numTrack type → 0 < v1.numTrack type) ∧
      (∀ m, v1.numTrack type ≤ m → m < v.numTrack type → v.trackEmpty type m) ∧
      (v1.numTrack type < v.numTrack type → v1.trackEmpty type (v1.numTrack type - 1)) ∧
      (3 ≤ v1.numTrack type →
        ¬ (v1.trackEmpty type (v1.numTrack type - 1) ∧
            v1.trackEmpty type (v1.numTrack type - 2))) ∧
      ((∀ m, m < v.numTrack type → v.trackEmpty type m) → 2 ≤ v.numTrack type →
        v1.numTrack type = 2) := by
  obtain ⟨v1, h1, h2, h3, k, e1, e2, e3, e4⟩ := cleanTracks_compacted v type
  refine ⟨v1, h1, h2, h3, by omega, ?_, ?_, ?_, ?_, ?_⟩
  · intro hn
    rcases le_max_iff.mp e2 with h | h <;> omega
  · intro m hm1 hm2
    exact e3 m (by omega) hm2
  · intro hlt
    have : v1.numTrack type - 1 = v.numTrack type - k := by omega
    rw [this]
    exact (trackEmpty_of_items h2 type _).mpr (e3 _ (by omega) (by omega))
  · intro h3n hboth
    obtain ⟨hb1, hb2⟩ := hboth
    rw [trackEmpty_of_items h2] at hb1 hb2
    have hk : k + 1 ≤ v.numTrack type := by
      rcases le_max_iff.mp e2 with h | h <;> omega
    by_cases hk0 : k = 0
    · subst hk0
      have : v1.numTrack type - 1 = v.numTrack type - 1 - 0 := by omega
      rw [this] at hb1
      exact e4 (by omega) hb1
    · have : v1.numTrack type - 2 = v.numTrack type - 1 - k := by omega
      rw [this] at hb2
      exact e4 (by omega) hb2
  · intro hall hn
    have hk : k + 1 ≤ v.numTrack type := by
      rcases le_max_iff.mp e2 with h | h <;> omega
    have : ¬ (k + 1 < v.numTrack type) := fun hlt => e4 hlt (hall _ (by omega))
    omega

/-- Witness of `cleanTracks_compacts`: the three audio tracks of
`sceneSpareAudioTracks`, of which the two upper ones are empty, are cut down to
two. -/
theorem cleanTracks_compacts_witness :
    sceneSpareAudioTracks.cleanTracks TrackType.AudioTrack
      = some { sceneSpareAudioTracks with m_numAudioTrack := 2 } ∧
    ∃ v1, sceneSpareAudioTracks.cleanTracks TrackType.AudioTrack = some v1 ∧
      v1.items = sceneSpareAudioTracks.items ∧
      (∀ ty, ty ≠ TrackType.AudioTrack → v1.numTrack ty = sceneSpareAudioTracks.numTrack ty) ∧
      v1.numTrack TrackType.AudioTrack ≤ sceneSpareAudioTracks.numTrack TrackType.AudioTrack ∧
      (0 < sceneSpareAudioTracks.numTrack TrackType.AudioTrack →
        0 < v1.numTrack TrackType.AudioTrack) ∧
      (∀ m, v1.numTrack TrackType.AudioTrack ≤ m →
        m < sceneSpareAudioTracks.numTrack TrackType.AudioTrack →
        sceneSpareAudioTracks.trackEmpty TrackType.AudioTrack m) ∧
      (v1.numTrack TrackType.AudioTrack < sceneSpareAudioTracks.numTrack TrackType.AudioTrack →
        v1.trackEmpty TrackType.AudioTrack (v1.numTrack TrackType.AudioTrack - 1)) ∧
      (3 ≤ v1.numTrack TrackType.AudioTrack →
        ¬ (v1.trackEmpty TrackType.AudioTrack (v1.numTrack TrackType.AudioTrack - 1) ∧
            v1.trackEmpty TrackType.AudioTrack (v1.numTrack TrackType.AudioTrack - 2))) ∧
      ((∀ m, m < sceneSpareAudioTracks.numTrack TrackType.AudioTrack →
          sceneSpareAudioTracks.trackEmpty TrackType.AudioTrack m) →
        2 ≤ sceneSpareAudioTracks.numTrack TrackType.AudioTrack →
        v1.numTrack TrackType.AudioTrack = 2) :=
  ⟨by decide, cleanTracks_compacts sceneSpareAudioTracks TrackType.AudioTrack⟩

theorem addVideoTracks_spec (k : Nat) : ∀ v : TracksView,
    (v.addVideoTracks k).m_numVideoTrack = v.m_numVideoTrack + k ∧
    (v.addVideoTracks k).m_numAudioTrack = v.m_numAudioTrack ∧
    (v.addVideoTracks k).items = v.items := by
  induction k with
  | zero => intro v; exact ⟨rfl, rfl, rfl⟩
  | succ k ih =>
    intro v
    obtain ⟨h1, h2, h3⟩ := ih v.addVideoTrack
    unfold TracksView.addVideoTracks
    refine ⟨?_, h2, h3⟩
    rw [h1]
    simp only [TracksView.addVideoTrack]
    omega

theorem addAudioTracks_spec (k : Nat) : ∀ v : TracksView,
    (v.addAudioTracks k).m_numAudioTrack = v.m_numAudioTrack + k ∧
    (v.addAudioTracks k).m_numVideoTrack = v.m_numVideoTrack ∧
    (v.addAudioTracks k).items = v.items := by
  induction k with
  | zero => intro v; exact ⟨rfl, rfl, rfl⟩
  | succ k ih =>
    intro v
    obtain ⟨h1, h2, h3⟩ := ih v.addAudioTrack
    unfold TracksView.addAudioTracks
    refine ⟨?_, h2, h3⟩
    rw [h1]
    simp only [TracksView.addAudioTrack]
    omega

/-- The growth step of `addMediaItem`: the items and the tracks of the other type
stay; the type of the clip has `track + 2` tracks when the target is the topmost
track or above it, and as many as before otherwise. -/
theorem growFor_spec (v : TracksView) (trackType : TrackType) (track : Nat) :
    (v.growFor trackType track).items = v.items ∧
    (∀ ty, ty ≠ trackType → (v.growFor trackType track).numTrack ty = v.numTrack ty) ∧
    (v.growFor trackType track).numTrack trackType =
      if v.numTrack trackType ≤ track + 1 then track + 2 else v.numTrack trackType := by
  cases trackType with
  | VideoTrack =>
    obtain ⟨a1, a2, a3⟩ := addVideoTracks_spec (track - v.m_numVideoTrack + 1) v
    unfold TracksView.growFor
    simp only [TracksView.numTrack]
    by_cases h : track ≥ v.m_numVideoTrack
    · rw [if_pos h]
      have e : track + 1 = (v.addVideoTracks (track - v.m_numVideoTrack + 1)).m_numVideoTrack := by
        rw [a1]; omega
      rw [if_pos e, if_pos (by omega)]
      refine ⟨a3, ?_, ?_⟩
      · intro ty hty
        cases ty with
        | VideoTrack => exact absurd rfl hty
        | AudioTrack => exact a2
      · simp only [TracksView.addVideoTrack]
        omega
    · rw [if_neg h]
      by_cases h2 : track + 1 = v.m_numVideoTrack
      · rw [if_pos h2, if_pos (by omega)]
        refine ⟨rfl, ?_, ?_⟩
        · intro ty hty
          cases ty with
          | VideoTrack => exact absurd rfl hty
          | AudioTrack => rfl
        · simp only [TracksView.addVideoTrack]
          omega
      · rw [if_neg h2, if_neg (by omega)]
        exact ⟨rfl, fun ty _ => rfl, rfl⟩
  | AudioTrack =>
    obtain ⟨a1, a2, a3⟩ := addAudioTracks_spec (track - v.m_numAudioTrack + 1) v
    unfold TracksView.growFor
    simp only [TracksView.numTrack]
    by_cases h : track ≥ v.m_numAudioTrack
    · rw [if_pos h]
      have e : track + 1 = (v.addAudioTracks (track - v.m_numAudioTrack + 1)).m_numAudioTrack := by
        rw [a1]; omega
      rw [if_pos e, if_pos (by omega)]
      refine ⟨a3, ?_, ?_⟩
      · intro ty hty
        cases ty with
        | VideoTrack => exact a2
        | AudioTrack => exact absurd rfl hty
      · simp only [TracksView.addAudioTrack]
        omega
    · rw [if_neg h]
      by_cases h2 : track + 1 = v.m_numAudioTrack
      · rw [if_pos h2, if_pos (by omega)]
        refine ⟨rfl, ?_, ?_⟩
        · intro ty hty
          cases ty with
          | VideoTrack => rfl
          | AudioTrack => exact absurd rfl hty
        · simp only [TracksView.addAudioTrack]
          omega
      · rw [if_neg h2, if_neg (by omega)]
        exact ⟨rfl, fun ty _ => rfl, rfl⟩

theorem numTrack_items_update (v : TracksView) (l : List MediaItem) (ty : TrackType) :
    TracksView.numTrack { v with items := l } ty = v.numTrack ty := by
  cases ty <;> rfl

theorem numTrack_place (v : TracksView) (id t : Nat) (τ : Int) (ty : TrackType) :
    (v.place id t τ).numTrack ty = v.numTrack ty := by
  cases ty <;> rfl

theorem item_none_iff (v : TracksView) (id : Nat) :
    v.item id = none ↔ ∀ c ∈ v.items, c.id ≠ id := by
  unfold TracksView.item
  rw [List.find?_eq_none]
  constructor
  · intro h c hc he
    exact h c hc (by simp [he])
  · intro h c hc he
    exact h c hc (by simpa using he)

/-- The steps of `addMediaItem` for an identity `fresh` that no item of the scene
has. Either the clip has an item on the track already and only the growth step
is done, or the new item is the last item of the scene, of the type of the clip
and on the requested track (on a lower one only if the track count exceeds the
range of `quint32`), and the compaction pass runs on that scene. -/
theorem addMediaItem_spec (isValid : ItemPosition → Bool) (uuid : Nat → Nat) (v : TracksView)
    (clip : Nat) (clipLength : Int) (track : Nat) (trackType : TrackType) (start : Int)
    (fresh : Nat) (hfresh : v.item fresh = none) :
    addMediaItem isValid uuid v clip clipLength track trackType start fresh
        = some (v.growFor trackType track) ∨
    ∃ item1 : MediaItem, item1.mediaType = trackType ∧ item1.trackNumber ≤ track ∧
      ((v.growFor trackType track).numTrack trackType ≤ 4294967296 →
        item1.trackNumber = track) ∧
      addMediaItem isValid uuid v clip clipLength track trackType start fresh =
        TracksView.cleanUnusedTracks
          { v.growFor trackType track with items := v.items ++ [item1] } := by
  obtain ⟨g1, g2, g3⟩ := growFor_spec v trackType track
  have hlt : track < (v.growFor trackType track).numTrack trackType := by
    rw [g3]; split_ifs <;> omega
  have hne := (item_none_iff v fresh).mp hfresh
  unfold addMediaItem
  simp only
  by_cases hex : ((v.growFor trackType track).childs trackType track).any
      (fun item => uuid item.id == clip) = true
  · left
    rw [if_pos hex]
  · right
    rw [if_neg hex]
    have hitem : TracksView.item
        { v.growFor trackType track with items := (v.growFor trackType track).items ++
          [⟨fresh, trackType, track, start, clipLength, none⟩] } fresh
        = some ⟨fresh, trackType, track, start, clipLength, none⟩ := by
      unfold TracksView.item
      simp only
      rw [g1, List.find?_append]
      have : List.find? (fun c => c.id == fresh) v.items = none := hfresh
      rw [this]
      simp
    obtain ⟨p, _, hm⟩ := moveMediaItem_unlinked isValid
      { v.growFor trackType track with items := (v.growFor trackType track).items ++
        [⟨fresh, trackType, track, start, clipLength, none⟩] }
      fresh track start ⟨fresh, trackType, track, start, clipLength, none⟩ hitem rfl
      (lt_of_le_of_lt (Nat.zero_le _) hlt)
    rw [hm]
    have hmap : ∀ (t : Nat) (τ : Int), v.items.map (fun c =>
        if c.id == fresh then { c with trackNumber := t, startPos := τ } else c) = v.items := by
      intro t τ
      conv_rhs => rw [← List.map_id v.items]
      apply List.map_congr_left
      intro c hc
      have := hne c hc
      simp [this]
    have hcl : clampTrack { v.growFor trackType track with
          items := (v.growFor trackType track).items ++
            [⟨fresh, trackType, track, start, clipLength, none⟩] } trackType track ≤ track := by
      unfold clampTrack
      exact min_le_left _ _
    have hcl2 : (v.growFor trackType track).numTrack trackType ≤ 4294967296 →
        clampTrack { v.growFor trackType track with
          items := (v.growFor trackType track).items ++
            [⟨fresh, trackType, track, start, clipLength, none⟩] } trackType track = track := by
      intro hb
      unfold clampTrack u32pred
      rw [numTrack_items_update]
      apply min_eq_left
      omega
    by_cases hv : isValid p = true
    · rw [if_pos hv]
      refine ⟨⟨fresh, trackType, clampTrack { v.growFor trackType track with
          items := (v.growFor trackType track).items ++
            [⟨fresh, trackType, track, start, clipLength, none⟩] } trackType track,
          p.time, clipLength, none⟩, rfl, hcl, hcl2, ?_⟩
      unfold TracksView.updateDuration TracksView.place
      simp only [g1, List.map_append, hmap, List.map_cons, List.map_nil, beq_self_eq_true,
        if_true]
    · rw [if_neg hv]
      refine ⟨⟨fresh, trackType, track, start, clipLength, none⟩, rfl, le_refl _,
        fun _ => rfl, ?_⟩
      unfold TracksView.updateDuration
      simp only [g1]

/-- After the growth step of `addMediaItem`, with new items of the type of the
clip on the requested track or below it, the track-set invariant still holds
and every item is on an existing track. -/
theorem grown_invariant (v : TracksView) (trackType : TrackType) (track : Nat)
    (l : List MediaItem) (hl : ∀ c ∈ l, c.mediaType = trackType ∧ c.trackNumber ≤ track)
    (hon : itemsOnTracks v) :
    itemsOnTracks { v.growFor trackType track with items := v.items ++ l } ∧
    ∀ ty, trackSetInvariant v ty →
      trackSetInvariant { v.growFor trackType track with items := v.items ++ l } ty := by
  obtain ⟨g1, g2, g3⟩ := growFor_spec v trackType track
  have hge : ∀ ty, v.numTrack ty ≤ (v.growFor trackType track).numTrack ty := by
    intro ty
    by_cases hty : ty = trackType
    · subst hty; rw [g3]; split_ifs <;> omega
    · rw [g2 ty hty]
  have hlt : track + 1 < (v.growFor trackType track).numTrack trackType := by
    rw [g3]; split_ifs <;> omega
  constructor
  · intro c hc
    rw [numTrack_items_update]
    simp only [List.mem_append] at hc
    rcases hc with hc | hc
    · exact lt_of_lt_of_le (hon c hc) (hge _)
    · obtain ⟨h1, h2⟩ := hl c hc
      rw [h1]; omega
  · intro ty hinv
    obtain ⟨hn, htop⟩ := hinv
    unfold trackSetInvariant
    rw [numTrack_items_update]
    refine ⟨lt_of_lt_of_le hn (hge ty), ?_⟩
    by_cases hty : ty = trackType
    · subst hty
      right
      rw [trackEmpty_iff]
      intro c hc hq
      simp only [List.mem_append] at hc
      obtain ⟨hq1, hq2⟩ := hq
      rcases hc with hc | hc
      · have hc1 := hon c hc
        rw [hq1] at hc1
        rw [g3] at hq2
        split_ifs at hq2 with hcase
        · omega
        · rcases htop with h | h
          · omega
          · exact (trackEmpty_iff v ty _).mp h c hc ⟨hq1, hq2⟩
      · obtain ⟨_, h2⟩ := hl c hc
        omega
    · rw [g2 ty hty]
      rcases htop with h | h
      · exact Or.inl h
      · right
        rw [trackEmpty_iff]
        intro c hc hq
        simp only [List.mem_append] at hc
        obtain ⟨hq1, hq2⟩ := hq
        rcases hc with hc | hc
        · exact (trackEmpty_iff v ty _).mp h c hc ⟨hq1, hq2⟩
        · obtain ⟨h1, _⟩ := hl c hc
          exact hty (hq1.symm.trans h1)

/-- C15: the track-set invariant (there is at least one track, and the topmost
track is empty unless it is the only track) of every track type `ty` is kept by
`cleanTracks( type )` and by `addMediaItem` for every type, in a scene whose
items lie on existing tracks (which both keep as well); `cleanTracks` removes
no track that holds a clip. -/
theorem trackSetInvariant_preserved (isValid : ItemPosition → Bool) (uuid : Nat → Nat)
    (v : TracksView) (clip : Nat) (clipLength : Int) (track : Nat) (trackType : TrackType)
    (start : Int) (fresh : Nat) (type ty : TrackType)
    (hinv : trackSetInvariant v ty) (hon : itemsOnTracks v) (hfresh : v.item fresh = none) :
    (∃ v1, v.cleanTracks type = some v1 ∧ trackSetInvariant v1 ty ∧ itemsOnTracks v1 ∧
      v1.items = v.items ∧
      ∀ m, m < v.numTrack type → ¬ v.trackEmpty type m → m < v1.numTrack type) ∧
    (∃ v2, addMediaItem isValid uuid v clip clipLength track trackType start fresh = some v2 ∧
      trackSetInvariant v2 ty ∧ itemsOnTracks v2) := by
  constructor
  · obtain ⟨v1, h1, h2, h3, h4⟩ := cleanTracks_compacted v type
    refine ⟨v1, h1, ?_, ?_, h2, fun m hm hocc => compacted_keeps_occupied h4 m hm hocc⟩
    · by_cases hty : ty = type
      · subst hty
        exact compacted_invariant h2 h4 hinv
      · unfold trackSetInvariant
        rw [h3 ty hty]
        refine ⟨hinv.1, ?_⟩
        rcases hinv.2 with h | h
        · exact Or.inl h
        · exact Or.inr ((trackEmpty_of_items h2 ty _).mpr h)
    · intro c hc
      rw [h2] at hc
      by_cases hty : c.mediaType = type
      · apply compacted_keeps_occupied (hty ▸ h4) c.trackNumber (hon c hc)
        intro he
        exact (trackEmpty_iff v _ _).mp he c hc ⟨rfl, rfl⟩
      · rw [h3 _ hty]
        exact hon c hc
  · rcases addMediaItem_spec isValid uuid v clip clipLength track trackType start fresh hfresh
      with h | ⟨item1, h1, h2, _, h4⟩
    · obtain ⟨a1, a2⟩ := grown_invariant v trackType track [] (fun c hc => (by cases hc)) hon
      have e : ({ v.growFor trackType track with items := v.items ++ [] } : TracksView)
          = v.growFor trackType track := by
        rw [List.append_nil, ← (growFor_spec v trackType track).1]
      rw [e] at a1 a2
      exact ⟨_, h, a2 ty hinv, a1⟩
    · obtain ⟨a1, a2⟩ := grown_invariant v trackType track [item1]
        (fun c hc => by
          simp only [List.mem_singleton] at hc
          subst hc
          exact ⟨h1, h2⟩) hon
      obtain ⟨v1, c1, c2, c3⟩ := cleanUnusedTracks_spec
        { v.growFor trackType track with items := v.items ++ [item1] }
      exact ⟨v1, h4.trans c1, compacted_invariant c2 (c3 ty) (a2 ty hinv),
        compacted_itemsOnTracks c2 c3 a1⟩

/-- Witness of `trackSetInvariant_preserved` on `sceneSpareAudioTracks`, for the
audio tracks and a video clip added on track 1. -/
theorem trackSetInvariant_preserved_witness :
    trackSetInvariant sceneSpareAudioTracks TrackType.AudioTrack ∧
    itemsOnTracks sceneSpareAudioTracks ∧ sceneSpareAudioTracks.item 9 = none ∧
    (∃ v1, sceneSpareAudioTracks.cleanTracks TrackType.AudioTrack = some v1 ∧
      trackSetInvariant v1 TrackType.AudioTrack ∧ itemsOnTracks v1 ∧
      v1.items = sceneSpareAudioTracks.items ∧
      ∀ m, m < sceneSpareAudioTracks.numTrack TrackType.AudioTrack →
        ¬ sceneSpareAudioTracks.trackEmpty TrackType.AudioTrack m →
        m < v1.numTrack TrackType.AudioTrack) ∧
    (∃ v2, addMediaItem (fun _ => true) id sceneSpareAudioTracks 9 50 1
        TrackType.VideoTrack 0 9 = some v2 ∧
      trackSetInvariant v2 TrackType.AudioTrack ∧ itemsOnTracks v2) :=
  ⟨by decide, by decide, by decide,
    trackSetInvariant_preserved (fun _ => true) id sceneSpareAudioTracks 9 50 1
      TrackType.VideoTrack 0 9 TrackType.AudioTrack TrackType.AudioTrack
      (by decide) (by decide) (by decide)⟩

/-! ## Loading a project -/

theorem readClipProperties_unparsable (env : LoadEnv) (p : ClipProperty)
    (hp : unparsable env p = true) (props1 : List ClipProperty)
    (props2 : List (Option ClipProperty)) (l : ClipLocals) :
    readClipProperties env (props1.map some ++ some p :: props2) l = none := by
  induction props1 generalizing l with
  | nil =>
    simp only [List.map_nil, List.nil_append]
    unfold readClipProperties
    simp only [unparsable, decide_eq_true_eq, Bool.or_eq_true, Bool.and_eq_true] at hp
    rcases hp with ⟨h | h | h, hn⟩ | ⟨h, hn⟩
    · split_ifs <;> simp_all
    · split_ifs <;> simp_all
    · split_ifs <;> simp_all
    · split_ifs <;> simp_all
  | cons q props1 ih =>
    simp only [List.map_cons, List.cons_append]
    unfold readClipProperties
    split_ifs
    · exact ih _
    · cases env.toLongLong q.text with
      | none => rfl
      | some n => exact ih _
    · cases env.toLongLong q.text with
      | none => rfl
      | some n => exact ih _
    · cases env.toLongLong q.text with
      | none => rfl
      | some n => exact ih _
    · cases env.toUInt q.text with
      | none => rfl
      | some n => exact ih _
    · exact ih _

theorem loadClips_unparsable (env : LoadEnv) (trackId : Nat) (bad : ClipElement)
    (p : ClipProperty) (props1 : List ClipProperty) (props2 : List (Option ClipProperty))
    (hb : bad.properties = props1.map some ++ some p :: props2)
    (hp : unparsable env p = true) (clips1 : List ClipElement)
    (clips2 : List (Option ClipElement)) (w : MainWorkflow) :
    (loadClips env trackId (clips1.map some ++ some bad :: clips2) w).finish =
        (loadClips env trackId (clips1.map some) w).finish ∧
      ∀ w1, loadClips env trackId (clips1.map some ++ some bad :: clips2) w ≠ Loaded.done w1 := by
  induction clips1 generalizing w with
  | nil =>
    simp only [List.map_nil, List.nil_append]
    unfold loadClips
    rw [hb, readClipProperties_unparsable env p hp]
    exact ⟨rfl, fun w1 h => by cases h⟩
  | cons c clips1 ih =>
    simp only [List.map_cons, List.cons_append]
    unfold loadClips
    cases readClipProperties env c.properties env.initialLocals with
    | none => exact ⟨rfl, fun w1 h => by cases h⟩
    | some l =>
      simp only
      split_ifs
      · cases trackTypeOfUInt l.trackType with
        | none => exact ⟨rfl, fun w1 h => by cases h⟩
        | some trackType => exact ih _
      · exact ih _

theorem loadTracks_unparsable (env : LoadEnv) (t : TrackElement) (bad : ClipElement)
    (p : ClipProperty) (props1 : List ClipProperty) (props2 : List (Option ClipProperty))
    (clips1 : List ClipElement) (clips2 : List (Option ClipElement))
    (ht : t.clips = clips1.map some ++ some bad :: clips2)
    (hb : bad.properties = props1.map some ++ some p :: props2)
    (hp : unparsable env p = true) (tracks1 tracks2 : List (Option TrackElement))
    (w : MainWorkflow) :
    (loadTracks env (tracks1 ++ some t :: tracks2) w).finish =
      (loadTracks env (tracks1 ++ [some { t with clips := clips1.map some }]) w).finish := by
  induction tracks1 generalizing w with
  | nil =>
    simp only [List.nil_append]
    unfold loadTracks
    simp only
    split_ifs
    · cases env.toUInt t.id with
      | none => rfl
      | some trackId =>
        simp only
        obtain ⟨h1, h2⟩ := loadClips_unparsable env trackId bad p props1 props2 hb hp clips1 clips2 w
        rw [ht]
        revert h1 h2
        cases loadClips env trackId (clips1.map some ++ some bad :: clips2) w with
        | done w1 => intro _ h2; exact absurd rfl (h2 w1)
        | returned w1 =>
          intro h1 _
          cases h : loadClips env trackId (clips1.map some) w with
          | done w2 => rw [h] at h1; simpa [loadTracks, Loaded.finish] using h1
          | returned w2 => rw [h] at h1; simpa [Loaded.finish] using h1
          | failed => rw [h] at h1; cases h1
        | failed =>
          intro h1 _
          cases h : loadClips env trackId (clips1.map some) w with
          | done w2 => rw [h] at h1; cases h1
          | returned w2 => rw [h] at h1; cases h1
          | failed => rfl
    · rfl
  | cons t1 tracks1 ih =>
    simp only [List.cons_append]
    cases t1 with
    | none => unfold loadTracks; rfl
    | some elem =>
      unfold loadTracks
      split_ifs
      · cases env.toUInt elem.id with
        | none => rfl
        | some trackId =>
          simp only
          cases loadClips env trackId elem.clips w with
          | done w1 => exact ih _
          | returned w1 => rfl
          | failed => rfl
      · rfl

/-- C17 (as stated, refuted): in a document whose first clip entry has a `begin`
that is not a number, followed by a well-formed entry on the same track and a
well-formed entry on the next track, `loadProject` adds nothing at all, whereas
a loader that gives up that entry only adds the two well-formed entries. -/
theorem loadProject_unparsable_stops_load :
    (MainWorkflow.new []).loadProject (exampleEnv 0 0 0) timelineBadBegin =
        some (MainWorkflow.new []) ∧
    (∃ w, (MainWorkflow.new []).loadProjectSpec (exampleEnv 0 0 0) timelineBadBegin = some w ∧
      w.heap.length = 2 ∧ w.m_tracks.video.placed = [⟨0, 1, 100⟩, ⟨1, 2, 0⟩]) ∧
    (MainWorkflow.new []).loadProject (exampleEnv 0 0 0) timelineBadBegin ≠
      (MainWorkflow.new []).loadProjectSpec (exampleEnv 0 0 0) timelineBadBegin := by
  refine ⟨by decide, ⟨_, rfl, by decide, by decide⟩, by decide⟩

/-- C17 (amended): a clip entry with an unparsable numeric field ends the whole
load. When the fields of the entry `bad` up to the field `p` are elements and `p`
is a `begin`, `end`, `startFrame` or `trackType` whose text cannot be converted,
and the entries before `bad` in its track element `t` are elements, then
`loadProject` on the document does exactly what it does on the document cut
right before `bad`: `bad`, the entries after it in `t` and all track elements
after `t` add nothing. A document whose root tag is not `timeline` leaves the
workflow as it was. -/
theorem loadProject_aborts_at_unparsable (env : LoadEnv) (w : MainWorkflow)
    (tracks1 tracks2 : List (Option TrackElement)) (t : TrackElement)
    (clips1 : List ClipElement) (clips2 : List (Option ClipElement)) (bad : ClipElement)
    (props1 : List ClipProperty) (props2 : List (Option ClipProperty)) (p : ClipProperty)
    (ht : t.clips = clips1.map some ++ some bad :: clips2)
    (hb : bad.properties = props1.map some ++ some p :: props2)
    (hp : unparsable env p = true) :
    w.loadProject env ⟨false, "timeline", tracks1 ++ some t :: tracks2⟩ =
        w.loadProject env
          ⟨false, "timeline", tracks1 ++ [some { t with clips := clips1.map some }]⟩ ∧
      ∀ project : TimelineElement, project.tagName ≠ "timeline" →
        w.loadProject env project = some w := by
  constructor
  · unfold MainWorkflow.loadProject
    simp only [Bool.false_eq_true, ne_eq, not_true_eq_false, or_self, if_false]
    exact loadTracks_unparsable env t bad p props1 props2 clips1 clips2 ht hb hp tracks1 tracks2 w
  · intro project h
    unfold MainWorkflow.loadProject
    rw [if_pos (Or.inr h)]

theorem loadProject_aborts_at_unparsable_witness :
    unparsable (exampleEnv 0 0 0) ⟨"begin", "abc"⟩ = true ∧
    ((MainWorkflow.new []).loadProject (exampleEnv 0 0 0) timelineBadSecond =
        (MainWorkflow.new []).loadProject (exampleEnv 0 0 0)
          ⟨false, "timeline", [some ⟨"track", "0", [some (clipEntry "0")]⟩]⟩ ∧
      ∀ project : TimelineElement, project.tagName ≠ "timeline" →
        (MainWorkflow.new []).loadProject (exampleEnv 0 0 0) project =
          some (MainWorkflow.new [])) :=
  ⟨by decide,
    loadProject_aborts_at_unparsable (exampleEnv 0 0 0) (MainWorkflow.new []) []
      [some ⟨"track", "1", [some (clipEntry "0")]⟩]
      ⟨"track", "0", [some (clipEntry "0"), some clipEntryBadBegin, some (clipEntry "100")]⟩
      [clipEntry "0"] [some (clipEntry "100")] clipEntryBadBegin
      [⟨"parent", "1"⟩]
      [some ⟨"end", "100"⟩, some ⟨"startFrame", "0"⟩, some ⟨"trackType", "0"⟩]
      ⟨"begin", "abc"⟩ rfl rfl (by decide)⟩

theorem addClip_tracks (w : MainWorkflow) (clip trackId : Nat) (start : Int)
    (trackType : TrackType) :
    (w.addClip clip trackId start trackType).m_tracks =
      w.m_tracks.set trackType ((w.m_tracks.get trackType).addClip w.heap clip trackId start) := by
  unfold MainWorkflow.addClip MainWorkflow.emit
  simp only
  rw [computeLength_tracks]

theorem addClip_emitted (w : MainWorkflow) (clip trackId : Nat) (start : Int)
    (trackType : TrackType) :
    ∃ l, (w.addClip clip trackId start trackType).emitted =
      w.emitted ++ l ++ [Signal.clipAdded clip trackId start trackType] := by
  obtain ⟨w1, _, h2, _, _, h5⟩ := addClip_unfold w clip trackId start trackType
  rw [h5]
  unfold MainWorkflow.emit
  simp only
  rw [(computeLength_spec w1).2, h2]
  exact ⟨_, rfl⟩

theorem TrackHandler.addClip_holds (heap : List Clip) (th : TrackHandler) (clip trackId : Nat)
    (start : Int) (t u : Nat) (h : th.holds t u = true) :
    (th.addClip heap clip trackId start).holds t u = true := by
  unfold TrackHandler.addClip
  split_ifs
  · exact h
  · unfold TrackHandler.holds at h ⊢
    simp only [List.any_append, Bool.or_eq_true]
    exact Or.inl h

/-- C16: a clip entry without a `begin` field is not skipped. On the timeline
whose track 0 holds an entry with media 1, end 100, start frame 0 and no `begin`,
followed by a well-formed entry, `loadProject` creates a `Clip` for the entry
without `begin`, whose begin is whatever the uninitialised local `begin` holds
(`b`), calls `addClip` for it (the signal `clipAdded` for clip 1 is emitted and
track 0 holds the clip), and goes on to the well-formed sibling (two clips are
created and `clipAdded` is emitted for clip 2 too). -/
theorem loadProject_creates_clip_without_begin (b e s : Int) :
    ∃ w, (MainWorkflow.new []).loadProject (exampleEnv b e s) timelineNoBegin = some w ∧
      w.heap = [⟨1, 1, b, 100, b, 100⟩, ⟨2, 1, 0, 100, 0, 100⟩] ∧
      w.m_tracks.video.holds 0 1 = true ∧
      Signal.clipAdded 1 0 0 TrackType.VideoTrack ∈ w.emitted ∧
      Signal.clipAdded 2 0 100 TrackType.VideoTrack ∈ w.emitted := by
  have hw1 : (({ MainWorkflow.new [] with heap := [⟨1, 1, b, 100, b, 100⟩] } :
      MainWorkflow).addClip 1 0 0 TrackType.VideoTrack).heap = [⟨1, 1, b, 100, b, 100⟩] :=
    addClip_heap _ _ _ _ _
  have hload : (MainWorkflow.new []).loadProject (exampleEnv b e s) timelineNoBegin =
      some (({ (({ MainWorkflow.new [] with heap := [⟨1, 1, b, 100, b, 100⟩] } :
          MainWorkflow).addClip 1 0 0 TrackType.VideoTrack) with
        heap := (({ MainWorkflow.new [] with heap := [⟨1, 1, b, 100, b, 100⟩] } :
          MainWorkflow).addClip 1 0 0 TrackType.VideoTrack).heap ++
            [Clip.fromMediaUuid (heapFresh (({ MainWorkflow.new [] with
              heap := [⟨1, 1, b, 100, b, 100⟩] } :
          MainWorkflow).addClip 1 0 0 TrackType.VideoTrack).heap) 1 0 100] } :
          MainWorkflow).addClip (heapFresh (({ MainWorkflow.new [] with
              heap := [⟨1, 1, b, 100, b, 100⟩] } :
          MainWorkflow).addClip 1 0 0 TrackType.VideoTrack).heap) 0 100
            TrackType.VideoTrack) := rfl
  rw [hw1] at hload
  have hf : heapFresh [(⟨1, 1, b, 100, b, 100⟩ : Clip)] = 2 := rfl
  rw [hf] at hload
  refine ⟨_, hload, ?_, ?_, ?_, ?_⟩
  · rw [addClip_heap]; rfl
  · rw [addClip_tracks]
    simp only [PerType.set, PerType.get]
    apply TrackHandler.addClip_holds
    rw [addClip_tracks]
    rfl
  · obtain ⟨l, hl⟩ := addClip_emitted ({ (({ MainWorkflow.new [] with
        heap := [⟨1, 1, b, 100, b, 100⟩] } :
          MainWorkflow).addClip 1 0 0 TrackType.VideoTrack) with
        heap := [⟨1, 1, b, 100, b, 100⟩] ++ [Clip.fromMediaUuid 2 1 0 100] }) 2 0 100
        TrackType.VideoTrack
    obtain ⟨l1, hl1⟩ := addClip_emitted ({ MainWorkflow.new [] with
        heap := [⟨1, 1, b, 100, b, 100⟩] }) 1 0 0 TrackType.VideoTrack
    rw [hl]
    simp only [hl1, List.mem_append, List.mem_singleton]
    exact Or.inl (Or.inl (Or.inr trivial))
  · obtain ⟨l, hl⟩ := addClip_emitted ({ (({ MainWorkflow.new [] with
        heap := [⟨1, 1, b, 100, b, 100⟩] } :
          MainWorkflow).addClip 1 0 0 TrackType.VideoTrack) with
        heap := [⟨1, 1, b, 100, b, 100⟩] ++ [Clip.fromMediaUuid 2 1 0 100] }) 2 0 100
        TrackType.VideoTrack
    rw [hl]
    simp only [List.mem_append, List.mem_singleton]
    exact Or.inr trivial

/-! ## Resizing, unsplit and the frame counters -/

/-- C22 (as stated, refuted): `unsplit( 1, 2, 0, VideoTrack )` on a workflow whose
video track 0 holds clip 1 (range `[0, 50)`) but not clip 2 (range `[50, 100)`):
`removeClip` returns `NULL`, nothing is emitted, and yet the end of clip 1 is
changed from 50 to 100. -/
theorem unsplit_changes_origin_when_rejected :
    (workflowDetachedHalf.removeClip 2 0 TrackType.VideoTrack).2 = none ∧
    (heapGet workflowDetachedHalf.heap 1).map (fun c => c.m_end) = some 50 ∧
    ∃ w, workflowDetachedHalf.unsplit 1 2 0 TrackType.VideoTrack = some w ∧
      (heapGet w.heap 1).map (fun c => c.m_end) = some 100 ∧ w.emitted = [] :=
  ⟨rfl, rfl, _, rfl, rfl, rfl⟩

theorem removeClip_rejected (w : MainWorkflow) (uuid trackId : Nat) (trackType : TrackType)
    (h : (w.m_tracks.get trackType).holds trackId uuid = false) :
    w.removeClip uuid trackId trackType = (w, none) := by
  have e : (w.m_tracks.get trackType).removeClip uuid trackId = (w.m_tracks.get trackType, none) := by
    unfold TrackHandler.removeClip
    unfold TrackHandler.holds at h
    rw [h]
    rfl
  unfold MainWorkflow.removeClip
  rw [e]
  simp only
  cases trackType <;> rfl

/-- C22 (amended): an `unsplit` whose `removeClip` returns `NULL` (the track set
does not hold `splitted` on that track) emits no notification and leaves the
track sets, the length and every clip other than `origin` as they were, but it
still sets the end of `origin`, and its resize limit `m_maxEnd`, to the end of
`splitted`. -/
theorem unsplit_rejected_still_sets_end (w : MainWorkflow) (origin splitted trackId : Nat)
    (trackType : TrackType) (o s : Clip)
    (ho : heapGet w.heap origin = some o) (hs : heapGet w.heap splitted = some s)
    (h : (w.m_tracks.get trackType).holds trackId splitted = false) :
    ∃ w1, w.unsplit origin splitted trackId trackType = some w1 ∧
      w1.emitted = w.emitted ∧ w1.m_tracks = w.m_tracks ∧
      w1.m_lengthFrame = w.m_lengthFrame ∧
      heapGet w1.heap origin = some { o with m_end := s.m_end, m_maxEnd := s.m_end } ∧
      ∀ j, j ≠ origin → heapGet w1.heap j = heapGet w.heap j := by
  have hus := heapGet_uuid hs
  have huo := heapGet_uuid ho
  unfold MainWorkflow.unsplit
  rw [hs]
  simp only
  rw [hus, removeClip_rejected w splitted trackId trackType h]
  simp only
  rw [hs]
  refine ⟨_, rfl, rfl, rfl, rfl, ?_, ?_⟩
  · simp only
    rw [heapGet_heapUpdate _ _ (fun c => c.setEnd s.m_end true) (fun _ => rfl), ho]
    simp [huo, Clip.setEnd]
  · intro j hj
    simp only
    rw [heapGet_heapUpdate _ _ (fun c => c.setEnd s.m_end true) (fun _ => rfl)]
    cases hg : heapGet w.heap j with
    | none => rfl
    | some x =>
      have := heapGet_uuid hg
      simp [this, hj]

theorem unsplit_rejected_still_sets_end_witness :
    ∃ w1, workflowDetachedHalf.unsplit 1 2 0 TrackType.VideoTrack = some w1 ∧
      w1.emitted = workflowDetachedHalf.emitted ∧ w1.m_tracks = workflowDetachedHalf.m_tracks ∧
      w1.m_lengthFrame = workflowDetachedHalf.m_lengthFrame ∧
      heapGet w1.heap 1 = some { (⟨1, 1, 0, 50, 0, 50⟩ : Clip) with
        m_end := (⟨2, 1, 50, 100, 50, 100⟩ : Clip).m_end,
        m_maxEnd := (⟨2, 1, 50, 100, 50, 100⟩ : Clip).m_end } ∧
      ∀ j, j ≠ 1 → heapGet w1.heap j = heapGet workflowDetachedHalf.heap j :=
  unsplit_rejected_still_sets_end workflowDetachedHalf 1 2 0 TrackType.VideoTrack
    ⟨1, 1, 0, 50, 0, 50⟩ ⟨2, 1, 50, 100, 50, 100⟩ rfl rfl rfl

theorem verticalFor_count (v : TracksView) (item : MediaItem) (T : Nat)
    (hT : T < v.numTrack item.mediaType) :
    ∀ (l : List MediaItem) (tr chk : Nat) (ic cs : Bool),
      (∀ c ∈ l, c.trackNumber = T) → tr ≤ T →
      verticalFor v item l ⟨tr, chk, ic, cs⟩ =
        some (if l.countP (fun c => c.id != item.id) = 0 then ⟨tr, chk, ic, cs⟩
          else if l.countP (fun c => c.id != item.id) ≤ tr then
            ⟨tr - l.countP (fun c => c.id != item.id),
              tr - l.countP (fun c => c.id != item.id), true, cs⟩
          else ⟨0, item.trackNumber, true, false⟩) := by
  intro l
  induction l with
  | nil => intro tr chk ic cs _ _; simp [verticalFor]
  | cons cur rest ih =>
    intro tr chk ic cs hl hle
    have hcur : cur.trackNumber = T := hl cur (List.mem_cons_self _ _)
    have hrest : ∀ c ∈ rest, c.trackNumber = T := fun c hc => hl c (List.mem_cons_of_mem _ hc)
    unfold verticalFor
    by_cases hid : cur.id ≠ item.id
    · have hp : List.countP (fun c => c.id != item.id) (cur :: rest) =
          List.countP (fun c => c.id != item.id) rest + 1 := by
        rw [List.countP_cons]; simp [hid]
      rw [if_pos hid, if_pos (show cur.trackNumber ≥ tr by rw [hcur]; exact hle), hp]
      simp only
      by_cases h0 : tr < 1
      · rw [if_pos h0]
        have : tr = 0 := by omega
        subst this
        simp
      · rw [if_neg h0]
        have hex : v.hasTrack item.mediaType (tr - 1) = true := by
          unfold TracksView.hasTrack; simp only [decide_eq_true_eq]; omega
        rw [if_pos hex, ih (tr - 1) (tr - 1) true cs hrest (by omega)]
        congr 1
        by_cases hk : List.countP (fun c => c.id != item.id) rest = 0
        · rw [hk, if_pos rfl, if_neg (by omega), if_pos (by omega)]
        · by_cases hk2 : List.countP (fun c => c.id != item.id) rest ≤ tr - 1
          · rw [if_neg hk, if_pos hk2, if_neg (by omega), if_pos (by omega)]
            simp only [Probe.mk.injEq, and_true]
            omega
          · rw [if_neg hk, if_neg hk2, if_neg (by omega), if_neg (by omega)]
    · have hp : List.countP (fun c => c.id != item.id) (cur :: rest) =
          List.countP (fun c => c.id != item.id) rest := by
        rw [List.countP_cons]; simp only [ne_eq, not_not] at hid; simp [hid]
      rw [if_neg hid, hp]
      exact ih tr chk ic cs hrest hle

theorem verticalWhile_step (v : TracksView) (item : MediaItem) (time : Int) (fuel T : Nat)
    (ic : Bool) (hT : T < v.numTrack item.mediaType) :
    verticalWhile v item time (fuel + 1) ⟨T, T, ic, true⟩ =
      verticalWhile v item time fuel
        (if v.overlapCount item T time = 0 then ⟨T, T, false, false⟩
          else if v.overlapCount item T time ≤ T then
            ⟨T - v.overlapCount item T time, T - v.overlapCount item T time, true, true⟩
          else ⟨0, item.trackNumber, true, false⟩) := by
  conv_lhs => unfold verticalWhile
  simp only [if_true]
  rw [verticalFor_count v item T hT _ T T false true
    (fun c hc => (mem_collidingItems hc).2.2.1) (le_refl _)]
  unfold TracksView.overlapCount
  simp only
  congr 1
  by_cases hk : List.countP (fun c => c.id != item.id)
      (v.collidingItems item.mediaType T time item.width) = 0
  · simp [hk]
  · by_cases hk2 : List.countP (fun c => c.id != item.id)
        (v.collidingItems item.mediaType T time item.width) ≤ T
    · simp [hk, hk2]
    · simp [hk, hk2]

theorem verticalWhile_stop (v : TracksView) (item : MediaItem) (time : Int) (fuel : Nat)
    (s : Probe) (h : s.continueSearch = false) :
    verticalWhile v item time (fuel + 1) s = some s := by
  unfold verticalWhile
  simp [h]

theorem verticalWhile_fuel (v : TracksView) (item : MediaItem) (time : Int) :
    ∀ (n T : Nat), T ≤ n → T < v.numTrack item.mediaType →
      ∀ (fuel1 fuel2 : Nat) (ic1 ic2 : Bool), T + 2 ≤ fuel1 → T + 2 ≤ fuel2 →
        verticalWhile v item time fuel1 ⟨T, T, ic1, true⟩ =
          verticalWhile v item time fuel2 ⟨T, T, ic2, true⟩ := by
  intro n
  induction n with
  | zero =>
    intro T hn hT fuel1 fuel2 ic1 ic2 h1 h2
    obtain ⟨f1, rfl⟩ : ∃ f, fuel1 = f + 1 := ⟨fuel1 - 1, by omega⟩
    obtain ⟨f2, rfl⟩ : ∃ f, fuel2 = f + 1 := ⟨fuel2 - 1, by omega⟩
    obtain ⟨g1, rfl⟩ : ∃ f, f1 = f + 1 := ⟨f1 - 1, by omega⟩
    obtain ⟨g2, rfl⟩ : ∃ f, f2 = f + 1 := ⟨f2 - 1, by omega⟩
    rw [verticalWhile_step v item time _ T ic1 hT, verticalWhile_step v item time _ T ic2 hT]
    by_cases hk : v.overlapCount item T time = 0
    · rw [if_pos hk, verticalWhile_stop _ _ _ _ _ rfl, verticalWhile_stop _ _ _ _ _ rfl]
    · rw [if_neg hk, if_neg (by omega), verticalWhile_stop _ _ _ _ _ rfl,
        verticalWhile_stop _ _ _ _ _ rfl]
  | succ n ih =>
    intro T hn hT fuel1 fuel2 ic1 ic2 h1 h2
    obtain ⟨f1, rfl⟩ : ∃ f, fuel1 = f + 1 := ⟨fuel1 - 1, by omega⟩
    obtain ⟨f2, rfl⟩ : ∃ f, fuel2 = f + 1 := ⟨fuel2 - 1, by omega⟩
    obtain ⟨g1, rfl⟩ : ∃ f, f1 = f + 1 := ⟨f1 - 1, by omega⟩
    obtain ⟨g2, rfl⟩ : ∃ f, f2 = f + 1 := ⟨f2 - 1, by omega⟩
    rw [verticalWhile_step v item time _ T ic1 hT, verticalWhile_step v item time _ T ic2 hT]
    by_cases hk : v.overlapCount item T time = 0
    · rw [if_pos hk, verticalWhile_stop _ _ _ _ _ rfl, verticalWhile_stop _ _ _ _ _ rfl]
    · by_cases hk2 : v.overlapCount item T time ≤ T
      · rw [if_neg hk, if_pos hk2]
        exact ih _ (by omega) (by omega) _ _ _ _ (by omega) (by omega)
      · rw [if_neg hk, if_neg hk2, verticalWhile_stop _ _ _ _ _ rfl,
          verticalWhile_stop _ _ _ _ _ rfl]

/-- The vertical search of `findPosition` from track `T`, pass by pass: with no
overlap on `T` it ends on `T`; with `k` overlapped clips, `k ≤ T`, it goes on
from track `T - k`; with more it ends on the item's own track. -/
theorem verticalWhile_eq (v : TracksView) (item : MediaItem) (time : Int) (T : Nat)
    (hT : T < v.numTrack item.mediaType) :
    verticalWhile v item time (T + 2) ⟨T, T, false, true⟩ =
      if v.overlapCount item T time = 0 then some ⟨T, T, false, false⟩
      else if v.overlapCount item T time ≤ T then
        verticalWhile v item time (T - v.overlapCount item T time + 2)
          ⟨T - v.overlapCount item T time, T - v.overlapCount item T time, false, true⟩
      else some ⟨0, item.trackNumber, true, false⟩ := by
  rw [verticalWhile_step v item time _ T false hT]
  by_cases hk : v.overlapCount item T time = 0
  · rw [if_pos hk, if_pos hk, verticalWhile_stop _ _ _ _ _ rfl]
  · by_cases hk2 : v.overlapCount item T time ≤ T
    · rw [if_neg hk, if_pos hk2, if_neg hk, if_pos hk2]
      exact verticalWhile_fuel v item time _ _ (le_refl _) (by omega) _ _ _ _ (by omega)
        (by omega)
    · rw [if_neg hk, if_neg hk2, if_neg hk, if_neg hk2, verticalWhile_stop _ _ _ _ _ rfl]

theorem hasTrack_of_lt (v : TracksView) (ty : TrackType) (T : Nat) (hT : T < v.numTrack ty) :
    v.hasTrack ty T = true := by
  unfold TracksView.hasTrack; simpa using hT

theorem findPosition_eq (v : TracksView) (item : MediaItem) (time : Int) (T : Nat)
    (hT : T < v.numTrack item.mediaType) :
    findPosition v item T time =
      if v.overlapCount item T time = 0 then some ⟨T, horizontalSearch v item T time⟩
      else if v.overlapCount item T time ≤ T then
        findPosition v item (T - v.overlapCount item T time) time
      else some ⟨item.trackNumber, horizontalSearch v item item.trackNumber time⟩ := by
  unfold findPosition
  rw [if_pos (hasTrack_of_lt v _ T hT), verticalWhile_eq v item time T hT]
  by_cases hk : v.overlapCount item T time = 0
  · rw [if_pos hk, if_pos hk]
  · by_cases hk2 : v.overlapCount item T time ≤ T
    · rw [if_neg hk, if_pos hk2, if_neg hk, if_pos hk2,
        if_pos (hasTrack_of_lt v _ _ (by omega))]
    · rw [if_neg hk, if_neg hk2, if_neg hk, if_neg hk2]

theorem verticalExhausted_eq (v : TracksView) (item : MediaItem) (time : Int) (T : Nat)
    (hT : T < v.numTrack item.mediaType) :
    verticalExhausted v item T time =
      if v.overlapCount item T time = 0 then false
      else if v.overlapCount item T time ≤ T then
        verticalExhausted v item (T - v.overlapCount item T time) time
      else true := by
  unfold verticalExhausted
  rw [verticalWhile_eq v item time T hT]
  by_cases hk : v.overlapCount item T time = 0
  · rw [if_pos hk, if_pos hk]
  · by_cases hk2 : v.overlapCount item T time ≤ T
    · rw [if_neg hk, if_pos hk2, if_neg hk, if_pos hk2]
    · rw [if_neg hk, if_neg hk2, if_neg hk, if_neg hk2]

theorem collidingItems_any_iff (v : TracksView) (ty : TrackType) (T : Nat) (pos w : Int)
    (id : Nat) :
    (v.collidingItems ty T pos w).any (fun c => c.id != id) = true ↔
      ∃ c ∈ v.items, c.id ≠ id ∧ c.mediaType = ty ∧ c.trackNumber = T ∧
        intersects (toQreal pos) w c.startPos c.width = true := by
  unfold TracksView.collidingItems
  simp only [List.any_eq_true, List.mem_filter, Bool.and_eq_true, beq_iff_eq, bne_iff_ne, ne_eq]
  constructor
  · rintro ⟨c, ⟨hm, ⟨h1, h2⟩, h3⟩, h4⟩
    exact ⟨c, hm, h4, h1, h2, h3⟩
  · rintro ⟨c, hm, h4, h1, h2, h3⟩
    exact ⟨c, ⟨hm, ⟨h1, h2⟩, h3⟩, h4⟩

theorem horizontalSearch_free (v : TracksView) (item : MediaItem) (T : Nat) (time : Int)
    (h : v.overlapCount item T (max time 0) = 0) :
    horizontalSearch v item T time = toQreal (max time 0) := by
  unfold horizontalSearch
  simp only
  have hnone : (v.collidingItems item.mediaType T (max time 0) item.width).find?
      (fun c => c.id != item.id) = none := by
    rw [List.find?_eq_none]
    unfold TracksView.overlapCount at h
    rw [List.countP_eq_zero] at h
    exact h
  rw [hnone]

theorem toQreal_max_of_le (time : Int) (hb : time ≤ 9007199254740992) :
    toQreal (max time 0) = max time 0 := by
  apply toQreal_of_small
  omega

/-- C24 (as stated, refuted): on `sceneFarClip`, clip 2 (2 frames) requested at
`2^53 + 2` of track 0 collides with clip 1, which starts at `2^53` and is 3
frames long. The candidate's time is strictly greater than the start of clip 1,
and `h.start + h.length = 2^53 + 3` is not negative, differs from `h.start` and
collides with no clip; yet the returned time is `2^53 + 4`, the `qreal` sum of
line 554. -/
theorem findPosition_proposed_time_rounded :
    ((sceneFarClip.collidingItems TrackType.VideoTrack 0 (max 9007199254740994 0) 2).find?
        (fun c => c.id != 2) = some ⟨1, TrackType.VideoTrack, 0, 9007199254740992, 3, none⟩ ∧
      max (9007199254740994 : Int) 0 > 9007199254740992 ∧
      (9007199254740992 : Int) + 3 = 9007199254740995 ∧
      ∀ c ∈ sceneFarClip.items, c.id ≠ 2 → c.mediaType = TrackType.VideoTrack →
        c.trackNumber = 0 → intersects 9007199254740995 2 c.startPos c.width = false) ∧
    findPosition sceneFarClip ⟨2, TrackType.VideoTrack, 0, 0, 2, none⟩ 0 9007199254740994 =
      some ⟨0, 9007199254740996⟩ ∧
    findPosition sceneFarClip ⟨2, TrackType.VideoTrack, 0, 0, 2, none⟩ 0 9007199254740994 ≠
      some ⟨0, 9007199254740995⟩ := by
  decide

/-- C24 (amended): the horizontal stage of `findPosition` for positions up to
`2^53` in magnitude, which a `qreal` holds exactly. Let `p` be the placement
returned, and let the candidate at `max( time, 0 )` on the resolved track
`p.track` collide with a clip other than the item, `h` being the first such clip.
With `newpos = h.start + h.length` if the candidate's position is strictly
greater than `h.start` and `newpos = h.start - item.length` otherwise, and with
`time`, `newpos` and the item's current start position at most `2^53` in
magnitude, the returned time is `newpos` if `newpos` is not negative, differs from
`h.start` and the item at `newpos` overlaps no other clip on that track; in every
other case it is the item's current start position. -/
theorem findPosition_horizontal_stage (v : TracksView) (item : MediaItem) (track : Nat)
    (time : Int) (p : ItemPosition) (h : MediaItem) (newpos : Int)
    (hp : findPosition v item track time = some p)
    (hh : (v.collidingItems item.mediaType p.track (max time 0) item.width).find?
      (fun c => c.id != item.id) = some h)
    (hn : newpos = if max time 0 > h.startPos then h.startPos + h.width
      else h.startPos - item.width)
    (hbt : time ≤ 9007199254740992) (hbn : newpos.natAbs ≤ 9007199254740992)
    (hbs : item.startPos.natAbs ≤ 9007199254740992) :
    ((0 ≤ newpos ∧ newpos ≠ h.startPos ∧
        ∀ c ∈ v.items, c.id ≠ item.id → c.mediaType = item.mediaType →
          c.trackNumber = p.track → intersects newpos item.width c.startPos c.width = false) →
      p.time = newpos) ∧
    (¬ (0 ≤ newpos ∧ newpos ≠ h.startPos ∧
        ∀ c ∈ v.items, c.id ≠ item.id → c.mediaType = item.mediaType →
          c.trackNumber = p.track → intersects newpos item.width c.startPos c.width = false) →
      p.time = item.startPos) := by
  have hp2 : p.time = horizontalSearch v item p.track time := by
    unfold findPosition at hp
    split_ifs at hp
    split at hp
    · cases hp
    · cases hp; rfl
  have hqn : toQreal newpos = newpos := toQreal_of_small newpos hbn
  have hqs : toQreal item.startPos = item.startPos := toQreal_of_small _ hbs
  have hqt : toQreal (max time 0) = max time 0 := toQreal_max_of_le time hbt
  have hfree : (∀ c ∈ v.items, c.id ≠ item.id → c.mediaType = item.mediaType →
      c.trackNumber = p.track → intersects newpos item.width c.startPos c.width = false) ↔
      ¬ ((v.collidingItems item.mediaType p.track newpos item.width).any
        (fun c => c.id != item.id) = true) := by
    rw [collidingItems_any_iff, hqn]
    constructor
    · rintro hf ⟨c, hm, hid, hty, htr, hi⟩
      rw [hf c hm hid hty htr] at hi
      cases hi
    · intro hf c hm hid hty htr
      by_contra hi
      exact hf ⟨c, hm, hid, hty, htr, by simpa using hi⟩
  have hnew : (if toQreal (max time 0) > h.startPos then toQreal (h.startPos + h.width)
      else toQreal (h.startPos - item.width)) = newpos := by
    rw [hqt, ← hqn, hn]
    split_ifs <;> rfl
  rw [hfree, hp2]
  unfold horizontalSearch
  simp only
  rw [hh]
  simp only
  rw [hnew, hqs]
  constructor
  · rintro ⟨h1, h2, h3⟩
    rw [if_neg (by rintro (h | h); exacts [absurd h1 (not_le.mpr h), h2 h]), if_neg h3]
  · intro hc
    by_cases h1 : newpos < 0 ∨ newpos = h.startPos
    · rw [if_pos h1]
    · rw [if_neg h1]
      by_cases h3 : (v.collidingItems item.mediaType p.track newpos item.width).any
          (fun c => c.id != item.id) = true
      · rw [if_pos h3]
      · exact absurd ⟨not_lt.mp (fun h => h1 (Or.inl h)), fun h => h1 (Or.inr h), h3⟩ hc

theorem findPosition_horizontal_stage_witness :
    (findPosition (scenePlacementExample 1 1 500 none false)
        ⟨2, TrackType.VideoTrack, 0, 500, 50, none⟩ 0 60 = some ⟨0, 100⟩ ∧
      ((scenePlacementExample 1 1 500 none false).collidingItems TrackType.VideoTrack 0
        (max 60 0) 50).find? (fun c => c.id != 2) =
          some ⟨1, TrackType.VideoTrack, 0, 0, 100, none⟩ ∧
      ((100 : Int) = if max (60 : Int) 0 > 0 then 0 + 100 else 0 - 50) ∧
      (60 : Int) ≤ 9007199254740992 ∧ (100 : Int).natAbs ≤ 9007199254740992 ∧
      (500 : Int).natAbs ≤ 9007199254740992) ∧
    (((0 : Int) ≤ 100 ∧ (100 : Int) ≠ 0 ∧
        ∀ c ∈ (scenePlacementExample 1 1 500 none false).items, c.id ≠ 2 →
          c.mediaType = TrackType.VideoTrack → c.trackNumber = 0 →
          intersects 100 50 c.startPos c.width = false) →
      (100 : Int) = 100) ∧
    (¬ ((0 : Int) ≤ 100 ∧ (100 : Int) ≠ 0 ∧
        ∀ c ∈ (scenePlacementExample 1 1 500 none false).items, c.id ≠ 2 →
          c.mediaType = TrackType.VideoTrack → c.trackNumber = 0 →
          intersects 100 50 c.startPos c.width = false) →
      (100 : Int) = 500) :=
  ⟨⟨by decide, by decide, by decide, by decide, by decide, by decide⟩,
    findPosition_horizontal_stage (scenePlacementExample 1 1 500 none false)
      ⟨2, TrackType.VideoTrack, 0, 500, 50, none⟩ 0 60 ⟨0, 100⟩
      ⟨1, TrackType.VideoTrack, 0, 0, 100, none⟩ 100 (by decide) (by decide) (by decide)
      (by decide) (by decide) (by decide)⟩

theorem verticalExhausted_track (v : TracksView) (item : MediaItem) (time : Int) :
    ∀ (n T : Nat), T ≤ n → T < v.numTrack item.mediaType →
      verticalExhausted v item T time = true →
      findPosition v item T time =
        some ⟨item.trackNumber, horizontalSearch v item item.trackNumber time⟩ := by
  intro n
  induction n with
  | zero =>
    intro T hn hT hx
    rw [verticalExhausted_eq v item time T hT] at hx
    rw [findPosition_eq v item time T hT]
    by_cases hk : v.overlapCount item T time = 0
    · rw [if_pos hk] at hx; cases hx
    · rw [if_neg hk, if_neg (by omega)]
  | succ n ih =>
    intro T hn hT hx
    rw [verticalExhausted_eq v item time T hT] at hx
    rw [findPosition_eq v item time T hT]
    by_cases hk : v.overlapCount item T time = 0
    · rw [if_pos hk] at hx; cases hx
    · by_cases hk2 : v.overlapCount item T time ≤ T
      · rw [if_neg hk, if_pos hk2] at hx
        rw [if_neg hk, if_pos hk2]
        exact ih _ (by omega) (by omega) hx
      · rw [if_neg hk, if_neg hk2]

/-- C25 (as stated, refuted): in the scene with clip 2 on `[200, 250)` of track 0
and clip 1 (100 frames) on track 1 at frame 0, `findPosition( clip 1, 0, 220 )`
collides on track 0, the lowest track, so the vertical search exhausts its
bounds; the result is the original track 1 with the requested time 220, not the
original time 0. -/
theorem findPosition_fallback_keeps_requested_time :
    verticalExhausted sceneTwoClips ⟨1, TrackType.VideoTrack, 1, 0, 100, none⟩ 0 220 = true ∧
    findPosition sceneTwoClips ⟨1, TrackType.VideoTrack, 1, 0, 100, none⟩ 0 220 =
      some ⟨1, 220⟩ ∧
    findPosition sceneTwoClips ⟨1, TrackType.VideoTrack, 1, 0, 100, none⟩ 0 220 ≠
      some ⟨1, 0⟩ := by
  decide

/-- C25 (amended): whenever the vertical search of `findPosition` exhausts its
bounds, which is the case whenever the candidate overlaps more clips on the
requested track than there are tracks below it, in particular at every collision
on track 0, the resolver returns the item's original track; the time is the one
the horizontal stage computes on that track for the requested time, which is
`max( time, 0 )` as a `qreal` holds it, not the original time, when the item
overlaps no other clip there; up to `2^53` that is `max( time, 0 )` itself. -/
theorem findPosition_vertical_fallback (v : TracksView) (item : MediaItem) (track : Nat)
    (time : Int) (ht : track < v.numTrack item.mediaType) :
    (verticalExhausted v item track time = true →
      findPosition v item track time =
        some ⟨item.trackNumber, horizontalSearch v item item.trackNumber time⟩) ∧
    (track < v.overlapCount item track time → verticalExhausted v item track time = true) ∧
    (v.overlapCount item item.trackNumber (max time 0) = 0 →
      horizontalSearch v item item.trackNumber time = toQreal (max time 0)) ∧
    (time ≤ 9007199254740992 → toQreal (max time 0) = max time 0) := by
  refine ⟨verticalExhausted_track v item time track track (le_refl _) ht, ?_,
    horizontalSearch_free v item item.trackNumber time, toQreal_max_of_le time⟩
  intro hk
  rw [verticalExhausted_eq v item time track ht, if_neg (by omega), if_neg (by omega)]

theorem findPosition_vertical_fallback_witness :
    0 < sceneTwoClips.numTrack TrackType.VideoTrack ∧
    ((verticalExhausted sceneTwoClips ⟨1, TrackType.VideoTrack, 1, 0, 100, none⟩ 0 220 = true →
      findPosition sceneTwoClips ⟨1, TrackType.VideoTrack, 1, 0, 100, none⟩ 0 220 =
        some ⟨1, horizontalSearch sceneTwoClips ⟨1, TrackType.VideoTrack, 1, 0, 100, none⟩
          1 220⟩) ∧
    (0 < sceneTwoClips.overlapCount ⟨1, TrackType.VideoTrack, 1, 0, 100, none⟩ 0 220 →
      verticalExhausted sceneTwoClips ⟨1, TrackType.VideoTrack, 1, 0, 100, none⟩ 0 220 = true) ∧
    (sceneTwoClips.overlapCount ⟨1, TrackType.VideoTrack, 1, 0, 100, none⟩ 1 (max 220 0) = 0 →
      horizontalSearch sceneTwoClips ⟨1, TrackType.VideoTrack, 1, 0, 100, none⟩ 1 220 =
        toQreal (max 220 0)) ∧
    ((220 : Int) ≤ 9007199254740992 → toQreal (max 220 0) = max 220 0)) :=
  ⟨by decide,
    findPosition_vertical_fallback sceneTwoClips ⟨1, TrackType.VideoTrack, 1, 0, 100, none⟩
      0 220 (by decide)⟩

/-- C26: track bounds of the vertical search. For an item of either type, a probed
track `T` that exists for the item's own type and any list of colliding clips of
the probe on `T` (the clips Qt reports for a probe parented to track `T` lie on
track `T`), with `k` clips other than the item in the list: the `for` loop
returns, so the assertion `getTrack( item->mediaType(), track ) != NULL` holds at
every step; `track` is never raised; for `k ≤ T` it ends at exactly `T - k`,
with the probe on that track, and for `k > T` it stops at 0 without a decrement
below 0, the probe back on the item's own track; the track it ends at exists for
the item's own type. For the lists of the scene itself, `findPosition` returns a
placement, on a track not above `T` or on the item's own track. -/
theorem vertical_search_track_bounds (v : TracksView) (item : MediaItem) (T : Nat)
    (time : Int) (l : List MediaItem) (hT : T < v.numTrack item.mediaType)
    (hl : ∀ c ∈ l, c.trackNumber = T) :
    (∃ s1, verticalFor v item l ⟨T, T, false, true⟩ = some s1 ∧ s1.track ≤ T ∧
      s1.track < v.numTrack item.mediaType ∧
      (l.countP (fun c => c.id != item.id) ≤ T →
        s1.track + l.countP (fun c => c.id != item.id) = T ∧ s1.chkTrack = s1.track) ∧
      (T < l.countP (fun c => c.id != item.id) →
        s1.track = 0 ∧ s1.chkTrack = item.trackNumber ∧ s1.continueSearch = false)) ∧
    (∀ c ∈ v.collidingItems item.mediaType T time item.width, c.trackNumber = T) ∧
    (∃ p, findPosition v item T time = some p ∧ (p.track ≤ T ∨ p.track = item.trackNumber)) := by
  refine ⟨?_, fun c hc => (mem_collidingItems hc).2.2.1, findPosition_isSome v item T time hT⟩
  rw [verticalFor_count v item T hT l T T false true hl (le_refl _)]
  by_cases hk : l.countP (fun c => c.id != item.id) = 0
  · rw [if_pos hk]
    exact ⟨_, rfl, le_refl _, hT, fun _ => ⟨by rw [hk]; rfl, rfl⟩, fun h => by omega⟩
  · by_cases hk2 : l.countP (fun c => c.id != item.id) ≤ T
    · rw [if_neg hk, if_pos hk2]
      exact ⟨_, rfl, Nat.sub_le _ _, lt_of_le_of_lt (Nat.sub_le _ _) hT,
        fun _ => ⟨Nat.sub_add_cancel hk2, rfl⟩, fun h => by omega⟩
    · rw [if_neg hk, if_neg hk2]
      exact ⟨_, rfl, Nat.zero_le _, lt_of_le_of_lt (Nat.zero_le _) hT,
        fun h => absurd h hk2, fun _ => ⟨rfl, rfl, rfl⟩⟩

theorem vertical_search_track_bounds_witness :
    (1 < sceneAudioOnTrack1.numTrack TrackType.AudioTrack ∧
      (∀ c ∈ sceneAudioOnTrack1.collidingItems TrackType.AudioTrack 1 60 50,
        c.trackNumber = 1) ∧
      sceneAudioOnTrack1.collidingItems TrackType.AudioTrack 1 60 50 =
        [⟨1, TrackType.AudioTrack, 1, 0, 100, none⟩] ∧
      findPosition sceneAudioOnTrack1 ⟨9, TrackType.AudioTrack, 0, 500, 50, none⟩ 1 60 =
        some ⟨0, 60⟩) ∧
    ((∃ s1, verticalFor sceneAudioOnTrack1 ⟨9, TrackType.AudioTrack, 0, 500, 50, none⟩
          (sceneAudioOnTrack1.collidingItems TrackType.AudioTrack 1 60 50)
          ⟨1, 1, false, true⟩ = some s1 ∧ s1.track ≤ 1 ∧
        s1.track < sceneAudioOnTrack1.numTrack TrackType.AudioTrack ∧
        ((sceneAudioOnTrack1.collidingItems TrackType.AudioTrack 1 60 50).countP
            (fun c => c.id != 9) ≤ 1 →
          s1.track + (sceneAudioOnTrack1.collidingItems TrackType.AudioTrack 1 60 50).countP
            (fun c => c.id != 9) = 1 ∧ s1.chkTrack = s1.track) ∧
        (1 < (sceneAudioOnTrack1.collidingItems TrackType.AudioTrack 1 60 50).countP
            (fun c => c.id != 9) →
          s1.track = 0 ∧ s1.chkTrack = 0 ∧ s1.continueSearch = false)) ∧
      (∀ c ∈ sceneAudioOnTrack1.collidingItems TrackType.AudioTrack 1 60 50,
        c.trackNumber = 1) ∧
      (∃ p, findPosition sceneAudioOnTrack1 ⟨9, TrackType.AudioTrack, 0, 500, 50, none⟩ 1 60 =
          some p ∧ (p.track ≤ 1 ∨ p.track = 0))) :=
  ⟨⟨by decide, by decide, by decide, by decide⟩,
    vertical_search_track_bounds sceneAudioOnTrack1 ⟨9, TrackType.AudioTrack, 0, 500, 50, none⟩
      1 60 (sceneAudioOnTrack1.collidingItems TrackType.AudioTrack 1 60 50) (by decide)
      (by decide)⟩

/-- C27: in one pass of the vertical search the probe is lowered once per
colliding clip. With `k` the number of clips the candidate overlaps on the probed
track `T`: the `for` loop over the colliding items leaves the probe on `T` when
`k = 0`, on `T - k` when `0 < k ≤ T`, and back on the item's own track with the
search stopped when `k > T`; accordingly `findPosition` from `T` is
`findPosition` from `T - k` when `0 < k ≤ T`, and returns the item's original
track when `k > T`, whether or not a track below `T` is free. -/
theorem vertical_pass_lowers_per_collision (v : TracksView) (item : MediaItem) (T : Nat)
    (time : Int) (hT : T < v.numTrack item.mediaType) :
    verticalFor v item (v.collidingItems item.mediaType T time item.width)
        ⟨T, T, false, true⟩ =
      some (if v.overlapCount item T time = 0 then ⟨T, T, false, true⟩
        else if v.overlapCount item T time ≤ T then
          ⟨T - v.overlapCount item T time, T - v.overlapCount item T time, true, true⟩
        else ⟨0, item.trackNumber, true, false⟩) ∧
    (0 < v.overlapCount item T time → v.overlapCount item T time ≤ T →
      findPosition v item T time = findPosition v item (T - v.overlapCount item T time) time) ∧
    (T < v.overlapCount item T time →
      findPosition v item T time =
        some ⟨item.trackNumber, horizontalSearch v item item.trackNumber time⟩) := by
  refine ⟨verticalFor_count v item T hT _ T T false true
    (fun c hc => (mem_collidingItems hc).2.2.1) (le_refl _), ?_, ?_⟩
  · intro h1 h2
    rw [findPosition_eq v item time T hT, if_neg (by omega), if_pos h2]
  · intro h1
    rw [findPosition_eq v item time T hT, if_neg (by omega), if_neg (by omega)]

theorem vertical_pass_lowers_per_collision_witness :
    (1 < sceneTwoOnTrack1.numTrack TrackType.VideoTrack ∧
      sceneTwoOnTrack1.overlapCount ⟨3, TrackType.VideoTrack, 2, 500, 150, none⟩ 1 50 = 2 ∧
      sceneTwoOnTrack1.overlapCount ⟨3, TrackType.VideoTrack, 2, 500, 150, none⟩ 0 50 = 0 ∧
      findPosition sceneTwoOnTrack1 ⟨3, TrackType.VideoTrack, 2, 500, 150, none⟩ 1 50 =
        some ⟨2, 50⟩) ∧
    (verticalFor sceneTwoOnTrack1 ⟨3, TrackType.VideoTrack, 2, 500, 150, none⟩
        (sceneTwoOnTrack1.collidingItems TrackType.VideoTrack 1 50 150) ⟨1, 1, false, true⟩ =
      some (if sceneTwoOnTrack1.overlapCount
            ⟨3, TrackType.VideoTrack, 2, 500, 150, none⟩ 1 50 = 0 then
          ⟨1, 1, false, true⟩
        else if sceneTwoOnTrack1.overlapCount
            ⟨3, TrackType.VideoTrack, 2, 500, 150, none⟩ 1 50 ≤ 1 then
          ⟨1 - sceneTwoOnTrack1.overlapCount ⟨3, TrackType.VideoTrack, 2, 500, 150, none⟩ 1 50,
            1 - sceneTwoOnTrack1.overlapCount ⟨3, TrackType.VideoTrack, 2, 500, 150, none⟩ 1 50,
            true, true⟩
        else ⟨0, 2, true, false⟩) ∧
    (0 < sceneTwoOnTrack1.overlapCount ⟨3, TrackType.VideoTrack, 2, 500, 150, none⟩ 1 50 →
      sceneTwoOnTrack1.overlapCount ⟨3, TrackType.VideoTrack, 2, 500, 150, none⟩ 1 50 ≤ 1 →
      findPosition sceneTwoOnTrack1 ⟨3, TrackType.VideoTrack, 2, 500, 150, none⟩ 1 50 =
        findPosition sceneTwoOnTrack1 ⟨3, TrackType.VideoTrack, 2, 500, 150, none⟩
          (1 - sceneTwoOnTrack1.overlapCount
            ⟨3, TrackType.VideoTrack, 2, 500, 150, none⟩ 1 50) 50) ∧
    (1 < sceneTwoOnTrack1.overlapCount ⟨3, TrackType.VideoTrack, 2, 500, 150, none⟩ 1 50 →
      findPosition sceneTwoOnTrack1 ⟨3, TrackType.VideoTrack, 2, 500, 150, none⟩ 1 50 =
        some ⟨2, horizontalSearch sceneTwoOnTrack1
          ⟨3, TrackType.VideoTrack, 2, 500, 150, none⟩ 2 50⟩)) :=
  ⟨⟨by decide, by decide, by decide, by decide⟩,
    vertical_pass_lowers_per_collision sceneTwoOnTrack1
      ⟨3, TrackType.VideoTrack, 2, 500, 150, none⟩ 1 50 (by decide)⟩

theorem containsChars_iff (l str : List Char) :
    containsChars l str = true ↔ str <:+: l := by
  induction l with
  | nil =>
    unfold containsChars
    simp [List.isEmpty_iff]
  | cons c cs ih =>
    unfold containsChars
    rw [Bool.or_eq_true, ih, List.isPrefixOf_iff_prefix, List.infix_cons_iff]

theorem contains_iff (s str : String) :
    QString.contains s str = true ↔ str.data <:+: s.data := by
  unfold QString.contains
  exact containsChars_iff _ _

/-- C30: `Media::setFileType` classifies by substring containment, in the order
Video, Audio, Image. With `filter` the string `*.` followed by the lower-cased
suffix: a file type that is not Video before the call is Video after it if and
only if `filter` occurs in the video extension list; otherwise the type is Audio
if `filter` occurs in the audio list, otherwise Image if it occurs in the image
list, and otherwise the member is left as it was (unassigned, if it was). In
particular a suffix that lower-cases to the empty string, to `m` or to `mp` is
classified as Video. -/
theorem setFileType_by_containment (toLower : String → String) (suffix : String)
    (m : Option FileType) :
    (m ≠ some FileType.Video →
      (Media.setFileType toLower suffix m = some FileType.Video ↔
        ("*." ++ toLower suffix).data <:+: Media.VideoExtensions.data)) ∧
    (("*." ++ toLower suffix).data <:+: Media.VideoExtensions.data →
      Media.setFileType toLower suffix m = some FileType.Video) ∧
    (¬ ("*." ++ toLower suffix).data <:+: Media.VideoExtensions.data →
      ("*." ++ toLower suffix).data <:+: Media.AudioExtensions.data →
      Media.setFileType toLower suffix m = some FileType.Audio) ∧
    (¬ ("*." ++ toLower suffix).data <:+: Media.VideoExtensions.data →
      ¬ ("*." ++ toLower suffix).data <:+: Media.AudioExtensions.data →
      ("*." ++ toLower suffix).data <:+: Media.ImageExtensions.data →
      Media.setFileType toLower suffix m = some FileType.Image) ∧
    (¬ ("*." ++ toLower suffix).data <:+: Media.VideoExtensions.data →
      ¬ ("*." ++ toLower suffix).data <:+: Media.AudioExtensions.data →
      ¬ ("*." ++ toLower suffix).data <:+: Media.ImageExtensions.data →
      Media.setFileType toLower suffix m = m) ∧
    (toLower suffix = "" ∨ toLower suffix = "m" ∨ toLower suffix = "mp" →
      Media.setFileType toLower suffix m = some FileType.Video) := by
  have hv : ("*." ++ toLower suffix).data <:+: Media.VideoExtensions.data →
      Media.setFileType toLower suffix m = some FileType.Video := by
    intro h
    unfold Media.setFileType
    simp only
    rw [if_pos ((contains_iff _ _).mpr h)]
  refine ⟨?_, hv, ?_, ?_, ?_, ?_⟩
  · intro hm
    refine ⟨fun h => ?_, hv⟩
    by_contra hn
    unfold Media.setFileType at h
    simp only at h
    rw [if_neg (fun hc => hn ((contains_iff _ _).mp hc))] at h
    split_ifs at h
    · cases h
    · cases h
    · exact hm h
  · intro h1 h2
    unfold Media.setFileType
    simp only
    rw [if_neg (fun hc => h1 ((contains_iff _ _).mp hc)), if_pos ((contains_iff _ _).mpr h2)]
  · intro h1 h2 h3
    unfold Media.setFileType
    simp only
    rw [if_neg (fun hc => h1 ((contains_iff _ _).mp hc)),
      if_neg (fun hc => h2 ((contains_iff _ _).mp hc)), if_pos ((contains_iff _ _).mpr h3)]
  · intro h1 h2 h3
    unfold Media.setFileType
    simp only
    rw [if_neg (fun hc => h1 ((contains_iff _ _).mp hc)),
      if_neg (fun hc => h2 ((contains_iff _ _).mp hc)),
      if_neg (fun hc => h3 ((contains_iff _ _).mp hc))]
  · intro h
    apply hv
    rw [← contains_iff]
    rcases h with h | h | h <;> rw [h] <;> decide

theorem setFileType_by_containment_witness :
    (asciiToLower "MP" = "mp" ∧
      Media.setFileType asciiToLower "MP" none = some FileType.Video ∧
      Media.setFileType asciiToLower "" none = some FileType.Video ∧
      Media.setFileType asciiToLower "m" none = some FileType.Video ∧
      Media.setFileType asciiToLower "mp3" none = some FileType.Audio ∧
      Media.setFileType asciiToLower "JPEG" none = some FileType.Image ∧
      Media.setFileType asciiToLower "txt" none = none) ∧
    ((none ≠ some FileType.Video →
      (Media.setFileType asciiToLower "MP" none = some FileType.Video ↔
        ("*." ++ asciiToLower "MP").data <:+: Media.VideoExtensions.data)) ∧
    (("*." ++ asciiToLower "MP").data <:+: Media.VideoExtensions.data →
      Media.setFileType asciiToLower "MP" none = some FileType.Video) ∧
    (¬ ("*." ++ asciiToLower "MP").data <:+: Media.VideoExtensions.data →
      ("*." ++ asciiToLower "MP").data <:+: Media.AudioExtensions.data →
      Media.setFileType asciiToLower "MP" none = some FileType.Audio) ∧
    (¬ ("*." ++ asciiToLower "MP").data <:+: Media.VideoExtensions.data →
      ¬ ("*." ++ asciiToLower "MP").data <:+: Media.AudioExtensions.data →
      ("*." ++ asciiToLower "MP").data <:+: Media.ImageExtensions.data →
      Media.setFileType asciiToLower "MP" none = some FileType.Image) ∧
    (¬ ("*." ++ asciiToLower "MP").data <:+: Media.VideoExtensions.data →
      ¬ ("*." ++ asciiToLower "MP").data <:+: Media.AudioExtensions.data →
      ¬ ("*." ++ asciiToLower "MP").data <:+: Media.ImageExtensions.data →
      Media.setFileType asciiToLower "MP" none = none) ∧
    (asciiToLower "MP" = "" ∨ asciiToLower "MP" = "m" ∨ asciiToLower "MP" = "mp" →
      Media.setFileType asciiToLower "MP" none = some FileType.Video)) :=
  ⟨by decide, setFileType_by_containment asciiToLower "MP" none⟩

end Vlmc
